import Mathlib

/-!
# SamplerPlugin: voice pool, sound list and excerpt decoding

A shallow embedding of `tracktion_SamplerPlugin.h` / `tracktion_SamplerPlugin.cpp`.

Conventions of the embedding:

* C++ `int` is `Int` (no wrap-around: signed overflow is undefined behaviour in
  the source language and none of the statements below relies on it);
* `float` / `double` are exact rationals (`Rat`), which stand for the finite
  values: NaN and the infinities are not represented;
* library code that is not part of the sampler (JUCE rounding, pitch tables,
  pan laws, the media resolver, the resampler) is taken as a parameter,
  bundled in `Externals`, or as a per-call oracle value.
-/

namespace SamplerPlugin

/-! ## Constants -/

/-- The header constant `minimumSamplesToPlayWhenStopping`. -/
def minimumSamplesToPlayWhenStopping : Int := 8

/-- The header constant `maximumSimultaneousNotes`. -/
def maximumSimultaneousNotes : Nat := 32

/-- The local constant `maxNumSamples` of `addSound`. -/
def maxNumSamples : Nat := 64

/-! ## Small library functions -/

/-- The clamp `juce::jlimit (lowerLimit, upperLimit, valueToConstrain)`. -/
def jlimit {α : Type} [LT α] [DecidableRel (fun a b : α => a < b)]
    (lowerLimit upperLimit valueToConstrain : α) : α :=
  if valueToConstrain < lowerLimit then lowerLimit
  else if upperLimit < valueToConstrain then upperLimit
  else valueToConstrain

/-- The conversion `static_cast<int>` of a floating value: truncation toward zero. -/
def truncToInt (q : Rat) : Int :=
  if 0 ≤ q then Int.floor q else Int.ceil q

/-! ## juce::BigInteger as a set of bit positions -/

/-- A `juce::BigInteger` used as a key mask: the set of bits that are set. -/
abbrev BigInteger := Finset Nat

/-- The read `mask [bit]`: negative positions read as unset. -/
def BigInteger.test (b : BigInteger) (bit : Int) : Bool :=
  decide (0 ≤ bit) && decide (bit.toNat ∈ b)

/-- The call `mask.setBit (bit)`: ignored for a negative position. -/
def BigInteger.setBit (b : BigInteger) (bit : Int) : BigInteger :=
  if 0 ≤ bit then insert bit.toNat b else b

/-- The call `mask.clearBit (bit)`: ignored for a negative position. -/
def BigInteger.clearBit (b : BigInteger) (bit : Int) : BigInteger :=
  if 0 ≤ bit then b.erase bit.toNat else b

/-! ## Audio buffers and files -/

/-- A `juce::AudioBuffer<float>`: one list of samples per channel. -/
structure AudioBuffer where
  chans : List (List Rat)
deriving DecidableEq, Repr

/-- The call `getNumChannels()`. -/
def AudioBuffer.getNumChannels (b : AudioBuffer) : Int := b.chans.length

/-- The call `getNumSamples()`: every channel has the same length. -/
def AudioBuffer.getNumSamples (b : AudioBuffer) : Int :=
  match b.chans with
  | [] => 0
  | c :: _ => c.length

/-- A buffer of the given size holding only zeros (`setSize` followed by `clear`). -/
def AudioBuffer.zeros (numChannels numSamples : Int) : AudioBuffer :=
  ⟨List.replicate numChannels.toNat (List.replicate numSamples.toNat 0)⟩

/-- The call `clear()`: same size, every sample zero. -/
def AudioBuffer.clear (b : AudioBuffer) : AudioBuffer :=
  ⟨b.chans.map (fun c => List.replicate c.length 0)⟩

/-- Modelled from the spec: juce::ADSR, the attack/decay/sustain/release stage
machine of section 4.2; only the stage and the parameters are kept. -/
inductive EnvStage where
  | idle | attack | decay | sustain | release
deriving DecidableEq, Repr

/-- Modelled from the spec: juce::ADSR with its four parameters (seconds, level)
and its current stage. -/
structure ADSR where
  attack : Rat := 0
  decay : Rat := 0
  sustain : Rat := 1
  release : Rat := 0
  sampleRate : Rat := 44100
  stage : EnvStage := EnvStage.idle
deriving DecidableEq, Repr

/-- Modelled from the spec: `noteOn()` resets and enters attack. -/
def ADSR.noteOn (a : ADSR) : ADSR := { a with stage := EnvStage.attack }

/-- Modelled from the spec: `noteOff()` forces the transition into release. -/
def ADSR.noteOff (a : ADSR) : ADSR := { a with stage := EnvStage.release }

/-- Modelled from the spec: `setParameters` with attack 0, decay 0, sustain 1 and
the given release time. -/
def ADSR.setParameters (a : ADSR) (att dec sus rel : Rat) : ADSR :=
  { a with attack := att, decay := dec, sustain := sus, release := rel }

/-! ## SampledNote: one voice -/

/-- The fields of `SamplerPlugin::SampledNote` (the interpolator state is
replaced by per-call oracle values, see `addNextBlock`). -/
structure SampledNote where
  note : Int
  offset : Int
  samplesLeftToPlay : Int := 0
  gains : Rat × Rat := (0, 0)
  playbackRatio : Rat := 1
  audioData : AudioBuffer := ⟨[]⟩
  startFade : Rat := 1
  openEnded : Bool
  isFinished : Bool := false
  numSamps : Int := 0
  releaseStageTriggered : Bool := false
  sR : Rat := 0
  adsr : ADSR := {}
deriving DecidableEq, Repr

/-- One region of the output buffer that a render call added samples to. -/
structure WriteRec where
  startSamp : Int
  numSamps : Int
  enveloped : Bool
deriving DecidableEq, Repr

/-- The number of input samples the last interpolator call reports: the loop
`for (i = min (2, outChannels); --i >= 0;)` runs only when there is a channel. -/
def usedBy (outChannels : Int) (oracle : Int) : Int :=
  if 0 < min 2 outChannels then oracle else 0

/-- The silent prefix of a render call, `if (offset < 0) num = std::min (-offset, numSamples)`:
the samples skipped before a delayed voice enters (0 when it has entered). -/
def SampledNote.skip (v : SampledNote) (numSamples : Int) : Int :=
  if v.offset < 0 then min (-v.offset) numSamples else 0

/-- The method `SampledNote::addNextBlock (outBuffer, startSamp, numSamples)`.
`outChannels` is `outBuffer.getNumChannels()`; `used1` and `used2` are what the
interpolator returns in the main body and in the fade tail. The result is the
voice afterwards and the regions of the output it wrote. -/
def SampledNote.addNextBlock (v : SampledNote) (outChannels used1 used2 : Int)
    (startSamp numSamples : Int) : SampledNote × List WriteRec :=
  -- if (offset < 0) { num = min (-offset, numSamples); ... }
  let num : Int := v.skip numSamples
  let startSamp1 := startSamp + num
  let numSamples1 := numSamples - num
  let offset1 := v.offset + num
  -- numSamps = std::min (numSamples, samplesLeftToPlay);
  let numSamps1 := min numSamples1 v.samplesLeftToPlay
  -- if (numSamps > 0) { ... }
  let body : Bool := decide (0 < numSamps1)
  let offset2 := if body then offset1 + usedBy outChannels used1 else offset1
  let left2 := if body then v.samplesLeftToPlay - numSamps1 else v.samplesLeftToPlay
  let w1 : List WriteRec :=
    if body ∧ 0 < min 2 outChannels
    then [⟨startSamp1, numSamps1, v.releaseStageTriggered⟩] else []
  -- if (numSamples > numSamps && startFade > 0.0f) { ... }
  if numSamples1 > numSamps1 ∧ v.startFade > 0 then
    let startSamp2 := startSamp1 + numSamps1
    let rest := numSamples1 - numSamps1
    let endFade : Rat := if rest > 100 then 0 else max 0 (v.startFade - rest * (1 / 100))
    let numSamps2 : Int := if rest > 100 then 100 else rest
    let offset3 := offset2 + usedBy outChannels used2
    let w2 : List WriteRec :=
      if 0 < min 2 outChannels
      then [⟨startSamp2, numSamps2, v.releaseStageTriggered⟩] else []
    ({ v with offset := offset3, samplesLeftToPlay := left2, numSamps := numSamps2,
              startFade := endFade,
              isFinished := if endFade ≤ 0 then true else v.isFinished },
     w1 ++ w2)
  else
    ({ v with offset := offset2, samplesLeftToPlay := left2, numSamps := numSamps1 },
     w1)

/-- The method `SampledNote::triggerRelease()`. -/
def SampledNote.triggerRelease (v : SampledNote) : SampledNote :=
  if ¬ v.releaseStageTriggered then
    { v with adsr := (v.adsr.setParameters 0 0 1 (v.samplesLeftToPlay / v.sR)).noteOff,
             releaseStageTriggered := true }
  else v

/-! ## Audio files, the media resolver and the other collaborators -/

/-- What the sampler looks at in a `tracktion::AudioFile` (with its cached info). -/
structure AudioFile where
  file : String := ""
  null : Bool := true
  valid : Bool := false
  sampleRate : Rat := 0
  length : Rat := 0
  numChannels : Int := 0
  rootNote : Int := -1
deriving DecidableEq, Repr

/-- The value `AudioFile (engine)`: no file at all. -/
def AudioFile.none : AudioFile := {}

/-- An `AudioFileReader`: `read pos n` is what `setReadPosition (pos)` followed by
`readSamples (n, ...)` delivers, one list per destination channel, or `none`
when the read fails. -/
structure Reader where
  read : Int → Int → Option (List (List Rat))

/-- Library and engine code the sampler calls but does not define. -/
structure Externals where
  /-- The rounding `juce::roundToInt`. -/
  roundToInt : Rat → Int
  /-- The pitch table `juce::MidiMessage::getMidiNoteInHertz`. -/
  getMidiNoteInHertz : Int → Rat
  /-- The pair `gains[0], gains[1]` that `decibelsToVolumeFaderPosition` and
  `getGainsFromVolumeFaderPositionAndPan` compute from a level in dB and a pan. -/
  gainsFor : Rat → Rat → Rat × Rat
  /-- The resolver `AudioFile (engine, SourceFileReference::findFileFromString (edit, source))`. -/
  findFile : String → AudioFile
  /-- The call `engine.getAudioFileManager().cache.createReader (audioFile)`. -/
  createReader : AudioFile → Option Reader
  /-- The concave 30-sample fade-in `AudioFadeCurve::applyCrossfadeSection`. -/
  applyFadeIn : AudioBuffer → AudioBuffer
  /-- The unspecified content of a newly allocated `AudioBuffer (channels, samples)`. -/
  fresh : Int → Int → AudioBuffer

/-- Overwrite one channel from position `offset` with the samples of `chunk`. -/
def writeChannel (c : List Rat) (offset : Nat) (chunk : List Rat) : List Rat :=
  c.take offset ++ (chunk.take (c.length - offset)) ++ c.drop (offset + chunk.length)

/-- Store a chunk read from the file into the buffer at `offset`. -/
def AudioBuffer.writeAt (b : AudioBuffer) (offset : Int) (chunk : List (List Rat)) : AudioBuffer :=
  ⟨List.zipWith (fun c k => writeChannel c offset.toNat k) b.chans
      (chunk ++ List.replicate (b.chans.length - chunk.length) [])⟩

/-- The first sample of every channel, as the fade-in test reads it. -/
def AudioBuffer.firstSamples (b : AudioBuffer) : List Rat :=
  b.chans.map (fun c => c.headD 0)

/-! ## SamplerSound -/

/-- The fields of `SamplerPlugin::SamplerSound`. -/
structure SamplerSound where
  source : String
  name : String
  keyNote : Int := -1
  minNote : Int := 0
  maxNote : Int := 0
  fileStartSample : Int := 0
  fileLengthSamples : Int := 0
  openEnded : Bool := false
  gainDb : Rat := 0
  pan : Rat := 0
  startTime : Rat := 0
  length : Rat := 0
  audioFile : AudioFile := {}
  audioData : AudioBuffer := ⟨[]⟩
deriving DecidableEq, Repr

/-- The chunked read loop of `setExcerpt`: `while (total > 0)` reading at most
8192 samples at a time, stopping at the first failed read. `fuel` bounds the
number of iterations; `total.toNat` always suffices because every iteration
lowers `total` by at least one. The result is the buffer and the number of
`readSamples` calls made. -/
def readLoop (reader : Reader) (fileStartSample : Int) :
    Nat → Int → Int → AudioBuffer → Nat → AudioBuffer × Nat
  | 0, _, _, buf, reads => (buf, reads)
  | fuel + 1, total, offset, buf, reads =>
    if 0 < total then
      let numThisTime := min 8192 total
      match reader.read (fileStartSample + offset) numThisTime with
      | none => (buf, reads + 1)
      | some chunk =>
        readLoop reader fileStartSample fuel (total - numThisTime) (offset + numThisTime)
          (buf.writeAt offset chunk) (reads + 1)
    else (buf, reads)

/-- The method `SamplerSound::setExcerpt (startTime_, length_)`, returning the
sound afterwards and the number of `readSamples` calls it made. -/
def SamplerSound.setExcerpt (ext : Externals) (s : SamplerSound) (startTime_ length_ : Rat) :
    SamplerSound × Nat :=
  -- if (! audioFile.isValid()) audioFile = AudioFile (engine, findFileFromString (edit, source));
  let audioFile := if ¬ s.audioFile.valid then ext.findFile s.source else s.audioFile
  if audioFile.valid then
    let minLength : Rat := 32 / audioFile.sampleRate
    let startTime := jlimit 0 (audioFile.length - minLength) startTime_
    let length :=
      if length_ > 0 then jlimit minLength (audioFile.length - startTime) length_
      else audioFile.length
    let fileStartSample := ext.roundToInt (startTime * audioFile.sampleRate)
    let fileLengthSamples := ext.roundToInt (length * audioFile.sampleRate)
    let decoded : AudioBuffer × Nat :=
      match ext.createReader audioFile with
      | some reader =>
        readLoop reader fileStartSample fileLengthSamples.toNat fileLengthSamples 0
          (AudioBuffer.zeros audioFile.numChannels (fileLengthSamples + 32)) 0
      | none => (s.audioData.clear, 0)
    -- add a quick fade-in if needed..
    let fadeLen : Int :=
      if decoded.1.firstSamples.any (fun d => decide (|d| > 1 / 100)) then 30 else 0
    let audioData := if fadeLen > 0 then ext.applyFadeIn decoded.1 else decoded.1
    ({ s with audioFile := audioFile, startTime := startTime, length := length,
              fileStartSample := fileStartSample, fileLengthSamples := fileLengthSamples,
              audioData := audioData },
     decoded.2)
  else
    ({ s with audioFile := AudioFile.none }, 0)

/-- The method `SamplerSound::refreshFile()`. -/
def SamplerSound.refreshFile (ext : Externals) (s : SamplerSound) : SamplerSound × Nat :=
  SamplerSound.setExcerpt ext { s with audioFile := AudioFile.none } s.startTime s.length

/-- The constructor `SamplerSound (owner, source_, name_, startTime_, length_, gainDb_)`. -/
def SamplerSound.new (ext : Externals) (source_ name_ : String) (startTime_ length_ gainDb_ : Rat) :
    SamplerSound × Nat :=
  let s0 : SamplerSound :=
    { source := source_, name := name_, gainDb := jlimit (-48) 48 gainDb_,
      startTime := startTime_, length := length_,
      audioFile := ext.findFile source_, audioData := ext.fresh 2 64 }
  let r := SamplerSound.setExcerpt ext s0 startTime_ length_
  let keyNote0 := r.1.audioFile.rootNote
  let keyNote := if keyNote0 < 0 then 72 else keyNote0
  ({ r.1 with keyNote := keyNote, maxNote := keyNote + 24, minNote := keyNote - 24 }, r.2)

/-! ## The state tree -/

/-- One child of the plugin's state tree: its type and the properties the
sampler reads (a property that is not set reads as zero, empty or false). -/
structure ValueTree where
  type : String
  source : String := ""
  name : String := ""
  startTime : Rat := 0
  length : Rat := 0
  keyNote : Int := 0
  minNote : Int := 0
  maxNote : Int := 0
  gainDb : Rat := 0
  pan : Rat := 0
  openEnded : Bool := false
deriving DecidableEq, Repr

/-- The identifier `IDs::SOUND`. -/
def IDs.SOUND : String := "SOUND"

/-- The test `v.hasType (IDs::SOUND)`. -/
def ValueTree.hasType (v : ValueTree) (t : String) : Bool := v.type == t

/-- A MIDI message with its source, as the handlers query it. -/
structure MidiMessageWithSource where
  isNoteOn : Bool := false
  isNoteOff : Bool := false
  isAllNotesOff : Bool := false
  isAllSoundOff : Bool := false
  noteNumber : Int := 0
  velocity : Int := 0
  timeStamp : Rat := 0
deriving DecidableEq, Repr

/-- A `MidiMessageArray`: the messages in order and the `isAllNotesOff` flag. -/
structure MidiMessageArray where
  isAllNotesOff : Bool := false
  messages : List MidiMessageWithSource := []
deriving DecidableEq, Repr

/-- The sampler: state tree, live sound list, voice pool and highlighted keys. -/
structure Plugin where
  state : List ValueTree := []
  soundList : List SamplerSound := []
  playingNotes : List SampledNote := []
  highlightedNotes : BigInteger := ∅
  sampleRate : Rat := 44100
  releaseTimeSeconds : Rat := 0
  /-- The number of `readSamples` calls made so far. -/
  readCount : Nat := 0

/-- The method `getNumSounds()`: `std::accumulate` over the children. -/
def Plugin.getNumSounds (p : Plugin) : Int :=
  p.state.foldl (fun total v => total + (if v.hasType IDs.SOUND then 1 else 0)) 0

/-- The loop of `getSound`: `index` counts the SOUND children passed so far. -/
def getSoundFrom : List ValueTree → Int → Int → Option ValueTree
  | [], _, _ => none
  | v :: rest, index, soundIndex =>
    if v.hasType IDs.SOUND then
      if index = soundIndex then some v else getSoundFrom rest (index + 1) soundIndex
    else getSoundFrom rest index soundIndex

/-- The method `getSound (soundIndex)`; `none` is the invalid tree. -/
def Plugin.getSound (p : Plugin) (soundIndex : Int) : Option ValueTree :=
  getSoundFrom p.state 0 soundIndex

/-- The method `getSoundLength (index)`. -/
def Plugin.getSoundLength (p : Plugin) (index : Int) : Rat :=
  let l : Rat := ((p.getSound index).map (fun v => v.length)).getD 0
  if l = 0 then
    match (if 0 ≤ index then p.soundList.get? index.toNat else none) with
    | some s => s.length
    | none => l
  else l

/-- The method `addSound (source, name, startTime, length, gainDb)`: the returned
string and the sampler afterwards. -/
def Plugin.addSound (p : Plugin) (source name : String) (startTime length gainDb : Rat) :
    String × Plugin :=
  if p.getNumSounds ≥ maxNumSamples then
    ("Can\x27t load any more samples", p)
  else
    let v : ValueTree :=
      { type := IDs.SOUND, source := source, name := name, startTime := startTime,
        length := length, keyNote := 72, minNote := 72 - 24, maxNote := 72 + 24,
        gainDb := gainDb, pan := 0 }
    ("", { p with state := p.state ++ [v] })

/-- The method `allNotesOff()`. -/
def Plugin.allNotesOff (p : Plugin) : Plugin :=
  { p with playingNotes := [], highlightedNotes := ∅ }

/-- The method `removeSound (index)`: `state.removeChild (index)` ignores an
index that is out of range. -/
def Plugin.removeSound (p : Plugin) (index : Int) : Plugin :=
  let state :=
    if 0 ≤ index ∧ index < p.state.length then p.state.eraseIdx index.toNat else p.state
  { p with state := state, playingNotes := [], highlightedNotes := ∅ }

/-- The effect of `getSound (soundIndex).setProperty (...)`: the child that the
loop of `getSound` returns is changed by `f` in place; when `getSound` finds
none (the invalid tree) nothing is changed. `index` counts the SOUND children
passed so far. -/
def updateSoundFrom : List ValueTree → Int → Int → (ValueTree → ValueTree) → List ValueTree
  | [], _, _, _ => []
  | v :: rest, index, soundIndex, f =>
    if v.hasType IDs.SOUND then
      if index = soundIndex then f v :: rest
      else v :: updateSoundFrom rest (index + 1) soundIndex f
    else v :: updateSoundFrom rest index soundIndex f

/-- The method `setSoundParams (index, keyNote, minNote, maxNote)`. -/
def Plugin.setSoundParams (p : Plugin) (index keyNote minNote maxNote : Int) : Plugin :=
  { p with state := updateSoundFrom p.state 0 index (fun v =>
      { v with keyNote := jlimit 0 127 keyNote,
               minNote := jlimit 0 127 (min minNote maxNote),
               maxNote := jlimit 0 127 (max minNote maxNote) }) }

/-- The method `setSoundGains (index, gainDb, pan)`, for finite arguments: a NaN
argument, which `juce::jlimit` returns unchanged, is not represented. -/
def Plugin.setSoundGains (p : Plugin) (index : Int) (gainDb pan : Rat) : Plugin :=
  { p with state := updateSoundFrom p.state 0 index (fun v =>
      { v with gainDb := jlimit (-48) 48 gainDb, pan := jlimit (-1) 1 pan }) }

/-- The method `getSoundGainDb (index)`; the invalid tree reads as 0. -/
def Plugin.getSoundGainDb (p : Plugin) (index : Int) : Rat :=
  ((p.getSound index).map (fun v => v.gainDb)).getD 0

/-- The method `getSoundPan (index)`; the invalid tree reads as 0. -/
def Plugin.getSoundPan (p : Plugin) (index : Int) : Rat :=
  ((p.getSound index).map (fun v => v.pan)).getD 0

/-- The method `getMinKey (index)`; the invalid tree reads as 0. -/
def Plugin.getMinKey (p : Plugin) (index : Int) : Int :=
  ((p.getSound index).map (fun v => v.minNote)).getD 0

/-- The method `getMaxKey (index)`; the invalid tree reads as 0. -/
def Plugin.getMaxKey (p : Plugin) (index : Int) : Int :=
  ((p.getSound index).map (fun v => v.maxNote)).getD 0

/-- The constructor `SampledNote (midiNote, keyNote, velocity, file, sampleRate,
sampleDelayFromBufferStart, data, lengthInSamples, gainDb, pan, openEnded)`, as
`createNote` calls it. -/
def createNote (ext : Externals) (midiNote keyNote : Int) (velocity : Rat) (file : AudioFile)
    (sR : Rat) (sampleDelayFromBufferStart : Int) (data : AudioBuffer) (lengthInSamples : Int)
    (gainDb pan : Rat) (openEnded : Bool) : SampledNote :=
  let hz := ext.getMidiNoteInHertz midiNote
  let playbackRatio := hz / ext.getMidiNoteInHertz keyNote * (file.sampleRate / sR)
  let samplesLeftToPlay : Int :=
    if playbackRatio > 0 then 1 + truncToInt (lengthInSamples / playbackRatio) else 0
  { note := midiNote, offset := -sampleDelayFromBufferStart, audioData := data,
    openEnded := openEnded,
    gains := ext.gainsFor (gainDb - 20 * (1 - velocity)) pan,
    playbackRatio := playbackRatio, samplesLeftToPlay := samplesLeftToPlay, sR := sR,
    adsr := (({ sampleRate := sR } : ADSR).setParameters 0 0 1 (samplesLeftToPlay / sR)).noteOn }

/-- The method `getMinimumSamplesToPlay()`. -/
def Plugin.getMinimumSamplesToPlay (p : Plugin) : Int :=
  max minimumSamplesToPlayWhenStopping (truncToInt (p.releaseTimeSeconds * p.sampleRate))

/-- What the loops of `handleOngoingNote` and `handleNoteOffMessage` do to one voice. -/
def Plugin.stopVoice (p : Plugin) (note noteTimeSample : Int) (v : SampledNote) : SampledNote :=
  if v.note = note ∧ ¬ v.openEnded then
    { v with samplesLeftToPlay :=
               min v.samplesLeftToPlay (max p.getMinimumSamplesToPlay noteTimeSample),
             adsr := v.adsr.noteOff }
  else v

/-- The method `handleOngoingNote (m)`. -/
def Plugin.handleOngoingNote (ext : Externals) (p : Plugin) (m : MidiMessageWithSource) : Plugin :=
  let note := m.noteNumber
  let noteTimeSample := ext.roundToInt (m.timeStamp * p.sampleRate)
  { p with
    playingNotes := p.playingNotes.map (p.stopVoice note noteTimeSample),
    highlightedNotes :=
      if p.playingNotes.any (fun v => decide (v.note = note) && ! v.openEnded)
      then p.highlightedNotes.clearBit note else p.highlightedNotes }

/-- The method `handleNoteOffMessage (m)`. -/
def Plugin.handleNoteOffMessage (ext : Externals) (p : Plugin) (m : MidiMessageWithSource) : Plugin :=
  let note := m.noteNumber
  let noteTimeSample := ext.roundToInt (m.timeStamp * p.sampleRate)
  { p with
    playingNotes := p.playingNotes.map (p.stopVoice note noteTimeSample),
    highlightedNotes :=
      if p.playingNotes.any (fun v => decide (v.note = note) && ! v.openEnded)
      then p.highlightedNotes.clearBit note else p.highlightedNotes }

/-- One iteration of the `for (auto ss : soundList)` loop of `handleNoteOnMessage`. -/
def noteOnStep (ext : Externals) (m : MidiMessageWithSource) (sampleRate : Rat)
    (acc : List SampledNote × BigInteger) (ss : SamplerSound) : List SampledNote × BigInteger :=
  let note := m.noteNumber
  if ss.minNote ≤ note ∧ ss.maxNote ≥ note ∧ ss.audioData.getNumSamples > 0
      ∧ acc.1.length < maximumSimultaneousNotes then
    (acc.1 ++ [createNote ext note ss.keyNote (m.velocity / 127) ss.audioFile sampleRate
                (ext.roundToInt (m.timeStamp * sampleRate)) ss.audioData ss.fileLengthSamples
                ss.gainDb ss.pan ss.openEnded],
     acc.2.setBit note)
  else acc

/-- The method `handleNoteOnMessage (m)`. -/
def Plugin.handleNoteOnMessage (ext : Externals) (p : Plugin) (m : MidiMessageWithSource) : Plugin :=
  let p1 := p.handleOngoingNote ext m
  let r := p1.soundList.foldl (noteOnStep ext m p1.sampleRate) (p1.playingNotes, p1.highlightedNotes)
  { p1 with playingNotes := r.1, highlightedNotes := r.2 }

/-- The method `handleMiscMessages (m)`. -/
def Plugin.handleMiscMessages (p : Plugin) (m : MidiMessageWithSource) : Plugin :=
  if m.isAllNotesOff ∨ m.isAllSoundOff then
    { p with playingNotes := [], highlightedNotes := ∅ }
  else p

/-- The body of the loop of `handleMessageBuffer` for one message. -/
def Plugin.handleMessage (ext : Externals) (p : Plugin) (m : MidiMessageWithSource) : Plugin :=
  if m.isNoteOn then p.handleNoteOnMessage ext m
  else if m.isNoteOff then p.handleNoteOffMessage ext m
  else p.handleMiscMessages m

/-- The method `handleMessageBuffer (bufferForMidiMessages)`. -/
def Plugin.handleMessageBuffer (ext : Externals) (p : Plugin) (b : MidiMessageArray) : Plugin :=
  b.messages.foldl (Plugin.handleMessage ext) p

/-- The first loop of `playNotes` applied to one voice: a released key gets the
short fixed tail. -/
def releaseKey (keysDown highlightedNotes : BigInteger) (v : SampledNote) : SampledNote :=
  if (! keysDown.test v.note) && highlightedNotes.test v.note && ! v.openEnded then
    { v with samplesLeftToPlay := minimumSamplesToPlayWhenStopping }
  else v

/-- One iteration of the `for (auto ss : soundList)` loop of `playNotes`. -/
def playNoteStep (ext : Externals) (note : Int) (sampleRate : Rat)
    (pool : List SampledNote) (ss : SamplerSound) : List SampledNote :=
  if ss.minNote ≤ note ∧ ss.maxNote ≥ note ∧ ss.audioData.getNumSamples > 0
      ∧ ¬ ss.audioFile.null ∧ pool.length < maximumSimultaneousNotes then
    pool ++ [createNote ext note ss.keyNote (3 / 4) ss.audioFile sampleRate 0 ss.audioData
              ss.fileLengthSamples ss.gainDb ss.pan ss.openEnded]
  else pool

/-- One iteration of the `for (int note = 128; --note >= 0;)` loop of `playNotes`. -/
def playKeyStep (ext : Externals) (keysDown highlightedNotes : BigInteger)
    (soundList : List SamplerSound) (sampleRate : Rat)
    (pool : List SampledNote) (note : Nat) : List SampledNote :=
  if keysDown.test note && ! highlightedNotes.test note then
    soundList.foldl (playNoteStep ext note sampleRate) pool
  else pool

/-- The method `playNotes (keysDown)`. -/
def Plugin.playNotes (ext : Externals) (p : Plugin) (keysDown : BigInteger) : Plugin :=
  if p.highlightedNotes ≠ keysDown then
    let pool1 := p.playingNotes.map (releaseKey keysDown p.highlightedNotes)
    let pool2 := (List.range 128).reverse.foldl
      (playKeyStep ext keysDown p.highlightedNotes p.soundList p.sampleRate) pool1
    { p with playingNotes := pool2, highlightedNotes := keysDown }
  else p

/-- The render context `PluginRenderContext`: `destChannels` is `none` for a null
destination buffer, else its channel count; `bufferForMidiMessages` may be null. -/
structure PluginRenderContext where
  destChannels : Option Int
  bufferStartSample : Int
  bufferNumSamples : Int
  bufferForMidiMessages : Option MidiMessageArray

/-- The render loop of `applyToBuffer`, `for (int i = playingNotes.size(); --i >= 0;)`:
`renderLoop ... i pool` has still to visit the indices below `i`. `oracle i` is
what the interpolator returns for the voice at index `i`. -/
def renderLoop (oracle : Nat → Int × Int) (outChannels startSample numSamples : Int) :
    Nat → List SampledNote → List SampledNote
  | 0, pool => pool
  | i + 1, pool =>
    match pool.get? i with
    | none => renderLoop oracle outChannels startSample numSamples i pool
    | some sn =>
      let sn1 := (sn.addNextBlock outChannels (oracle i).1 (oracle i).2 startSample numSamples).1
      let pool1 := pool.set i sn1
      renderLoop oracle outChannels startSample numSamples i
        (if sn1.isFinished then pool1.eraseIdx i else pool1)

/-- The method `applyToBuffer (fc)`. -/
def Plugin.applyToBuffer (ext : Externals) (oracle : Nat → Int × Int) (p : Plugin)
    (fc : PluginRenderContext) : Plugin :=
  match fc.destChannels with
  | none => p
  | some outChannels =>
    let p1 :=
      match fc.bufferForMidiMessages with
      | none => p
      | some b =>
        let p0 := if b.isAllNotesOff
          then { p with playingNotes := [], highlightedNotes := ∅ } else p
        p0.handleMessageBuffer ext b
    let pool := renderLoop oracle outChannels fc.bufferStartSample fc.bufferNumSamples
      p1.playingNotes.length p1.playingNotes
    { p1 with playingNotes := pool }

/-- The inner loop of the rebuild: carry the decoded audio of every old sound with
the same (source, startTime, length) over to the new sound. -/
def transplant (soundList : List SamplerSound) (newSound : SamplerSound) : SamplerSound :=
  soundList.foldl
    (fun n s =>
      if s.source = n.source ∧ s.startTime = n.startTime ∧ s.length = n.length then
        { n with audioFile := s.audioFile, fileStartSample := s.fileStartSample,
                 fileLengthSamples := s.fileLengthSamples, audioData := s.audioData }
      else n)
    newSound

/-- The body of the first loop of `handleAsyncUpdate` for a SOUND child. -/
def buildSound (ext : Externals) (v : ValueTree) : SamplerSound × Nat :=
  let r := SamplerSound.new ext v.source v.name v.startTime v.length v.gainDb
  ({ r.1 with keyNote := jlimit 0 127 v.keyNote,
              minNote := jlimit 0 127 v.minNote,
              maxNote := jlimit 0 127 v.maxNote,
              pan := jlimit (-1) 1 v.pan,
              openEnded := v.openEnded },
   r.2)

/-- The first loop of `handleAsyncUpdate`: `getSound (i)` for every child index. -/
def Plugin.buildSounds (ext : Externals) (p : Plugin) : List (SamplerSound × Nat) :=
  (List.range p.state.length).filterMap (fun (i : Nat) =>
    match p.getSound (i : Int) with
    | some v => if v.hasType IDs.SOUND then some (buildSound ext v) else none
    | none => none)

/-- The method `sourceMediaChanged()`: `refreshFile()` on every live sound. -/
def Plugin.sourceMediaChanged (ext : Externals) (p : Plugin) : Plugin :=
  let rs := p.soundList.map (SamplerSound.refreshFile ext)
  { p with soundList := rs.map Prod.fst,
           readCount := p.readCount + (rs.map Prod.snd).sum }

/-- The method `handleAsyncUpdate()`: the library rebuild. -/
def Plugin.handleAsyncUpdate (ext : Externals) (p : Plugin) : Plugin :=
  let built := p.buildSounds ext
  let newSounds := (built.map Prod.fst).map (transplant p.soundList)
  let p1 := p.allNotesOff
  let p2 := { p1 with soundList := newSounds,
                      readCount := p1.readCount + (built.map Prod.snd).sum }
  p2.sourceMediaChanged ext

/-! ## Runs of the sampler -/

/-- The calls that can reach the sampler. -/
inductive Op where
  | handleMessageBuffer (b : MidiMessageArray)
  | playNotes (keysDown : BigInteger)
  | applyToBuffer (oracle : Nat → Int × Int) (fc : PluginRenderContext)
  | allNotesOff
  | addSound (source name : String) (startTime length gainDb : Rat)
  | removeSound (index : Int)
  | handleAsyncUpdate
  | sourceMediaChanged

/-- Perform one call. -/
def Plugin.step (ext : Externals) (p : Plugin) : Op → Plugin
  | Op.handleMessageBuffer b => p.handleMessageBuffer ext b
  | Op.playNotes k => p.playNotes ext k
  | Op.applyToBuffer oracle fc => p.applyToBuffer ext oracle fc
  | Op.allNotesOff => p.allNotesOff
  | Op.addSound source name startTime length gainDb =>
      (p.addSound source name startTime length gainDb).2
  | Op.removeSound i => p.removeSound i
  | Op.handleAsyncUpdate => p.handleAsyncUpdate ext
  | Op.sourceMediaChanged => p.sourceMediaChanged ext

/-- Perform a sequence of calls, in order. -/
def Plugin.run (ext : Externals) (p : Plugin) (ops : List Op) : Plugin :=
  ops.foldl (Plugin.step ext) p

/-! ## Auxiliary definitions for the statements -/

/-- The arguments of one `addSound` call. -/
structure AddSoundArgs where
  source : String
  name : String
  startTime : Rat
  length : Rat
  gainDb : Rat

/-- Successive `addSound` calls: the strings returned, in order, and the sampler
afterwards. -/
def Plugin.addSounds (p : Plugin) : List AddSoundArgs → List String × Plugin
  | [] => ([], p)
  | a :: rest =>
    let r := p.addSound a.source a.name a.startTime a.length a.gainDb
    let rs := Plugin.addSounds r.2 rest
    (r.1 :: rs.1, rs.2)

/-- The sounds that qualify for a note-on at `note`: range covers the note and
the decoded buffer is not empty. -/
def qualifies (note : Int) (ss : SamplerSound) : Bool :=
  decide (ss.minNote ≤ note) && decide (note ≤ ss.maxNote) && decide (ss.audioData.getNumSamples > 0)

/-- The number `m` of sounds of the library that qualify for a note-on at `note`. -/
def numQualifying (soundList : List SamplerSound) (note : Int) : Nat :=
  soundList.countP (qualifies note)

/-- The voice that the loop body of `handleNoteOnMessage (m)` constructs for the
Sound `ss`: the `new SampledNote (...)` expression with the members of `ss`. -/
def Plugin.voiceFor (ext : Externals) (p : Plugin) (m : MidiMessageWithSource)
    (ss : SamplerSound) : SampledNote :=
  createNote ext m.noteNumber ss.keyNote (m.velocity / 127) ss.audioFile p.sampleRate
    (ext.roundToInt (m.timeStamp * p.sampleRate)) ss.audioData ss.fileLengthSamples
    ss.gainDb ss.pan ss.openEnded

/-- The Sounds that trigger a voice at a note-on at `note`, in library order: the
qualifying ones, as many as the pool has room for. -/
def Plugin.triggeringSounds (p : Plugin) (note : Int) : List SamplerSound :=
  (p.soundList.filter (qualifies note)).take (maximumSimultaneousNotes - p.playingNotes.length)

/-- The arguments of one render call, with the interpolator's answers. -/
structure RenderCall where
  outChannels : Int
  used1 : Int
  used2 : Int
  startSamp : Int
  numSamples : Int

/-- One render call on a voice. -/
def SampledNote.render (v : SampledNote) (c : RenderCall) : SampledNote :=
  (v.addNextBlock c.outChannels c.used1 c.used2 c.startSamp c.numSamples).1

/-- A sequence of render calls on a voice, in order. -/
def SampledNote.renderAll (v : SampledNote) (calls : List RenderCall) : SampledNote :=
  calls.foldl SampledNote.render v

/-- The file `setExcerpt` works on: the sound's own file when valid, else the
one the resolver finds for the source. -/
def resolved (ext : Externals) (s : SamplerSound) : AudioFile :=
  if ¬ s.audioFile.valid then ext.findFile s.source else s.audioFile

/-- The SOUND children of the state tree, in state order. -/
def Plugin.soundEntries (p : Plugin) : List ValueTree :=
  p.state.filter (fun v => v.hasType IDs.SOUND)

/-! ## Concrete inputs used to instantiate the statements -/

/-- A concrete set of collaborators: round half up, a flat pitch table, unit
gains, no media at all. -/
def demoExt : Externals where
  roundToInt := fun q => Int.floor (q + 1 / 2)
  getMidiNoteInHertz := fun _ => 440
  gainsFor := fun _ _ => (1, 1)
  findFile := fun _ => {}
  createReader := fun _ => none
  applyFadeIn := fun b => b
  fresh := AudioBuffer.zeros

/-- A decoded sound at 48 kHz spanning the notes 48 to 96 around key note 72: an
excerpt of 96 samples in a buffer with 32 samples of padding. -/
def demoSound : SamplerSound :=
  { source := "a.wav", name := "a", keyNote := 72, minNote := 48, maxNote := 96,
    fileLengthSamples := 96, length := 1 / 500,
    audioFile := { file := "a.wav", null := false, valid := true, sampleRate := 48000,
                   length := 2, numChannels := 1 },
    audioData := AudioBuffer.zeros 1 128 }

/-- A sampler at 48 kHz with `demoSound` as its only sound and no voice. -/
def demoPlugin1 : Plugin :=
  { soundList := [demoSound], sampleRate := 48000 }

/-- A sampler with forty copies of `demoSound` in its live library and no voice. -/
def demoPlugin40 : Plugin :=
  { soundList := List.replicate 40 demoSound, sampleRate := 48000 }

/-- A note-on for note 60, velocity 100, at the start of the block. -/
def noteOn60 : MidiMessageWithSource :=
  { isNoteOn := true, noteNumber := 60, velocity := 100, timeStamp := 0 }

/-- A note-off for note 60 at the start of the block. -/
def noteOff60 : MidiMessageWithSource :=
  { isNoteOff := true, noteNumber := 60, timeStamp := 0 }

/-- A voice with 150 samples left, entering 10 samples into the block. -/
def demoVoice : SampledNote :=
  { note := 60, offset := -10, samplesLeftToPlay := 150, openEnded := false, sR := 48000 }

/-- Two render calls of 128 samples on a stereo output. -/
def demoCalls : List RenderCall :=
  [⟨2, 118, 0, 0, 128⟩, ⟨2, 32, 98, 0, 128⟩]

/-- A note-on for note 62, velocity 100, at the start of the block. -/
def noteOn62 : MidiMessageWithSource :=
  { isNoteOn := true, noteNumber := 62, velocity := 100, timeStamp := 0 }

/-- The voice that `demoPlugin1` creates for `noteOn60`. -/
def demoCreated : SampledNote :=
  createNote demoExt 60 72 (100 / 127) demoSound.audioFile 48000 0 demoSound.audioData 96 0 0 false

/-- The voice that `demoPlugin1` creates for `noteOn62`. -/
def demoCreated62 : SampledNote :=
  createNote demoExt 62 72 (100 / 127) demoSound.audioFile 48000 0 demoSound.audioData 96 0 0 false

/-- The sampler `demoPlugin1` after the note-on for note 60. -/
def demoAfterOn60 : Plugin := demoPlugin1.handleNoteOnMessage demoExt noteOn60

/-- The sampler `demoPlugin1` after the note-ons for the notes 60 and 62. -/
def demoAfterOn6062 : Plugin := demoAfterOn60.handleNoteOnMessage demoExt noteOn62

/-- A valid two-second mono file at 48 kHz. -/
def demoFile : AudioFile :=
  { file := "a.wav", null := false, valid := true, sampleRate := 48000, length := 2,
    numChannels := 1 }

/-- Collaborators whose resolver finds `demoFile` for every source and whose
reader delivers silence. -/
def demoMediaExt : Externals :=
  { demoExt with
    findFile := fun _ => demoFile
    createReader := fun _ => some ⟨fun _ n => some [List.replicate n.toNat 0]⟩ }

/-- A sound over `demoFile` before any excerpt has been set. -/
def demoFreshSound : SamplerSound :=
  { source := "a.wav", name := "a", audioFile := demoFile, audioData := AudioBuffer.zeros 2 64 }

/-- A sampler whose state holds one sound entry added with start time 1 and length 0. -/
def demoAdded : Plugin :=
  (({ sampleRate := 48000 } : Plugin).addSound "a.wav" "a" 1 0 0).2

/-- A sound entry of the state: the first 96 samples of `a.wav`. -/
def demoEntry : ValueTree :=
  { type := IDs.SOUND, source := "a.wav", name := "a", startTime := 0, length := 1 / 500,
    keyNote := 72, minNote := 48, maxNote := 96 }

/-- A sampler whose state holds `demoEntry`, before its library has been built. -/
def demoStored : Plugin := { state := [demoEntry], sampleRate := 48000 }

/-- The sampler `demoStored` with its live library built from the state. -/
def demoLive : Plugin := demoStored.handleAsyncUpdate demoMediaExt

/-- A second sound entry of the state, over `b.wav`. -/
def demoEntryB : ValueTree :=
  { type := IDs.SOUND, source := "b.wav", name := "b", startTime := 0, length := 1 / 500,
    keyNote := 72, minNote := 48, maxNote := 96 }

/-- A sampler whose state node holds a child that is not a sound, then two sounds. -/
def demoMixed : Plugin :=
  { state := [{ type := "MODIFIERS" }, demoEntry, demoEntryB], sampleRate := 48000 }

/-- A sampler whose only sound entry stores minNote = 100 above maxNote = 50. -/
def demoSwapped : Plugin :=
  { state := [{ demoEntry with minNote := 100, maxNote := 50 }], sampleRate := 48000 }

/-- Successive `setSoundGains (index, gainDb, pan)` calls, in order. -/
def Plugin.setSoundGainsMany (p : Plugin) (updates : List (Int × Rat × Rat)) : Plugin :=
  updates.foldl (fun q u => q.setSoundGains u.1 u.2.1 u.2.2) p

/-- A Sound holding decoded audio (32 samples plus padding, the first one 1/2)
whose file is no longer valid. -/
def demoLoud : SamplerSound :=
  { source := "gone.wav", name := "g", keyNote := 72, minNote := 48, maxNote := 96,
    fileLengthSamples := 32, length := 1 / 1500,
    audioData := ⟨[(1 / 2) :: List.replicate 63 0]⟩ }

/-- A decoded two-second sound at 48 kHz spanning the notes 48 to 96 around key
note 72: 96000 samples in a buffer with 32 samples of padding. -/
def demoSound2s : SamplerSound :=
  { source := "a.wav", name := "a", keyNote := 72, minNote := 48, maxNote := 96,
    fileLengthSamples := 96000, length := 2,
    audioFile := demoFile,
    audioData := ⟨[List.replicate 96032 0]⟩ }

/-- A sampler at 48 kHz with `demoSound2s` as its only sound and no voice. -/
def demoPlugin2s : Plugin :=
  { soundList := [demoSound2s], sampleRate := 48000 }

/-- A library of two Sounds with the same decoded buffer and the same range, the
first with key note 72 and the second with key note 60. -/
def demoPluginTwoKeys : Plugin :=
  { soundList := [demoSound2s, { demoSound2s with keyNote := 60 }], sampleRate := 48000 }

/-- The collaborators of `demoExt` with a pitch table that gives 261.625 Hz for
note 60 and 523.25 Hz for the other notes (note 72 is the one used). -/
def demoPitchExt : Externals :=
  { demoExt with getMidiNoteInHertz := fun n => if n = 60 then 261625 / 1000 else 52325 / 100 }

/-- A note-on for note 72, velocity 100, at the start of the block. -/
def noteOn72 : MidiMessageWithSource :=
  { isNoteOn := true, noteNumber := 72, velocity := 100, timeStamp := 0 }

/-- The sampler as the render loop of `applyToBuffer` finds it: after the
`isAllNotesOff` reset and the dispatch of the block's MIDI messages, when the
context carries a MIDI buffer. -/
def Plugin.afterMidi (ext : Externals) (p : Plugin) (fc : PluginRenderContext) : Plugin :=
  match fc.bufferForMidiMessages with
  | none => p
  | some b =>
    (if b.isAllNotesOff then { p with playingNotes := [], highlightedNotes := ∅ }
     else p).handleMessageBuffer ext b

/-- Every voice of the pool rendered once: the voice at index `i` by one
`addNextBlock` call in which the interpolator answers `oracle i`. -/
def renderEach (oracle : Nat → Int × Int) (outChannels startSample numSamples : Int)
    (pool : List SampledNote) : List SampledNote :=
  pool.enum.map (fun x =>
    (x.2.addNextBlock outChannels (oracle x.1).1 (oracle x.1).2 startSample numSamples).1)

/-- A render context: stereo destination, a block of 128 samples, no MIDI buffer. -/
def demoContext : PluginRenderContext :=
  { destChannels := some 2, bufferStartSample := 0, bufferNumSamples := 128,
    bufferForMidiMessages := none }

/-- The input samples the interpolator reports as consumed by the main bodies of
a sequence of render calls (a call counts when its main body runs). -/
def SampledNote.mainUsed : SampledNote → List RenderCall → Int
  | _, [] => 0
  | v, c :: rest =>
    (if 0 < min (c.numSamples - v.skip c.numSamples) v.samplesLeftToPlay
     then usedBy c.outChannels c.used1 else 0)
    + SampledNote.mainUsed (v.render c) rest

/-- The input samples the interpolator reports as consumed from the scratch
buffer by the anti-click tails of a sequence of render calls. -/
def SampledNote.tailUsed : SampledNote → List RenderCall → Int
  | _, [] => 0
  | v, c :: rest =>
    (if c.numSamples - v.skip c.numSamples
          > min (c.numSamples - v.skip c.numSamples) v.samplesLeftToPlay ∧ v.startFade > 0
     then usedBy c.outChannels c.used2 else 0)
    + SampledNote.tailUsed (v.render c) rest

/-- The main body of the first block of `demoCreated`: 97 samples, 97 consumed. -/
def demoBody : RenderCall := ⟨2, 97, 0, 0, 97⟩

/-- A second block of 100 samples, all rendered by the anti-click tail, which
consumes 100 samples of the scratch buffer. -/
def demoTail : RenderCall := ⟨2, 0, 100, 0, 100⟩

/-- A sampler whose state node holds, in order, a child that is not a sound, the
sound a, another child that is not a sound, and the sound b. -/
def demoInterleaved : Plugin :=
  { state := [{ type := "MODIFIERS" }, demoEntry, { type := "MACROS" }, demoEntryB],
    sampleRate := 48000 }

/-! # Theorems -/

/-! ## C1: the voice pool never exceeds its capacity -/

theorem noteOnStep_length_le (ext : Externals) (m : MidiMessageWithSource) (sr : Rat)
    (acc : List SampledNote × BigInteger) (ss : SamplerSound)
    (h : acc.1.length ≤ maximumSimultaneousNotes) :
    (noteOnStep ext m sr acc ss).1.length ≤ maximumSimultaneousNotes := by
  dsimp only [noteOnStep]
  split
  · rename_i hc
    simp only [List.length_append, List.length_singleton]
    omega
  · exact h

theorem noteOn_fold_length_le (ext : Externals) (m : MidiMessageWithSource) (sr : Rat)
    (sounds : List SamplerSound) (acc : List SampledNote × BigInteger)
    (h : acc.1.length ≤ maximumSimultaneousNotes) :
    (sounds.foldl (noteOnStep ext m sr) acc).1.length ≤ maximumSimultaneousNotes := by
  induction sounds generalizing acc with
  | nil => simpa using h
  | cons ss rest ih =>
    simp only [List.foldl_cons]
    exact ih _ (noteOnStep_length_le ext m sr acc ss h)

theorem playNoteStep_length_le (ext : Externals) (note : Int) (sr : Rat)
    (pool : List SampledNote) (ss : SamplerSound)
    (h : pool.length ≤ maximumSimultaneousNotes) :
    (playNoteStep ext note sr pool ss).length ≤ maximumSimultaneousNotes := by
  dsimp only [playNoteStep]
  split
  · rename_i hc
    simp only [List.length_append, List.length_singleton]
    omega
  · exact h

theorem playNote_fold_length_le (ext : Externals) (note : Int) (sr : Rat)
    (sounds : List SamplerSound) (pool : List SampledNote)
    (h : pool.length ≤ maximumSimultaneousNotes) :
    (sounds.foldl (playNoteStep ext note sr) pool).length ≤ maximumSimultaneousNotes := by
  induction sounds generalizing pool with
  | nil => simpa using h
  | cons ss rest ih =>
    simp only [List.foldl_cons]
    exact ih _ (playNoteStep_length_le ext note sr pool ss h)

theorem playKeyStep_length_le (ext : Externals) (k hl : BigInteger) (sounds : List SamplerSound)
    (sr : Rat) (pool : List SampledNote) (note : Nat)
    (h : pool.length ≤ maximumSimultaneousNotes) :
    (playKeyStep ext k hl sounds sr pool note).length ≤ maximumSimultaneousNotes := by
  unfold playKeyStep
  split
  · exact playNote_fold_length_le ext _ sr sounds pool h
  · exact h

theorem playKey_fold_length_le (ext : Externals) (k hl : BigInteger) (sounds : List SamplerSound)
    (sr : Rat) (notes : List Nat) (pool : List SampledNote)
    (h : pool.length ≤ maximumSimultaneousNotes) :
    (notes.foldl (playKeyStep ext k hl sounds sr) pool).length ≤ maximumSimultaneousNotes := by
  induction notes generalizing pool with
  | nil => simpa using h
  | cons n rest ih =>
    simp only [List.foldl_cons]
    exact ih _ (playKeyStep_length_le ext k hl sounds sr pool n h)

theorem renderLoop_length_le (oracle : Nat → Int × Int) (oc st n : Int) (i : Nat)
    (pool : List SampledNote) :
    (renderLoop oracle oc st n i pool).length ≤ pool.length := by
  induction i generalizing pool with
  | zero => simp [renderLoop]
  | succ i ih =>
    simp only [renderLoop]
    split
    · exact ih pool
    · rename_i sn hsn
      split
      · refine le_trans (ih _) ?_
        rw [List.length_eraseIdx]
        split <;> simp
      · refine le_trans (ih _) ?_
        simp

theorem handleMessage_length_le (ext : Externals) (p : Plugin) (m : MidiMessageWithSource)
    (h : p.playingNotes.length ≤ maximumSimultaneousNotes) :
    (p.handleMessage ext m).playingNotes.length ≤ maximumSimultaneousNotes := by
  unfold Plugin.handleMessage
  split
  · dsimp only [Plugin.handleNoteOnMessage]
    apply noteOn_fold_length_le
    simpa [Plugin.handleOngoingNote] using h
  · split
    · simpa [Plugin.handleNoteOffMessage] using h
    · unfold Plugin.handleMiscMessages
      split
      · simp
      · exact h

theorem handleMessageBuffer_length_le (ext : Externals) (p : Plugin) (b : MidiMessageArray)
    (h : p.playingNotes.length ≤ maximumSimultaneousNotes) :
    (p.handleMessageBuffer ext b).playingNotes.length ≤ maximumSimultaneousNotes := by
  unfold Plugin.handleMessageBuffer
  generalize b.messages = ms
  induction ms generalizing p with
  | nil => simpa using h
  | cons m rest ih =>
    simp only [List.foldl_cons]
    exact ih _ (handleMessage_length_le ext p m h)

theorem playNotes_length_le (ext : Externals) (p : Plugin) (k : BigInteger)
    (h : p.playingNotes.length ≤ maximumSimultaneousNotes) :
    (p.playNotes ext k).playingNotes.length ≤ maximumSimultaneousNotes := by
  unfold Plugin.playNotes
  split
  · dsimp only
    apply playKey_fold_length_le
    simpa using h
  · exact h

theorem applyToBuffer_length_le (ext : Externals) (oracle : Nat → Int × Int) (p : Plugin)
    (fc : PluginRenderContext)
    (h : p.playingNotes.length ≤ maximumSimultaneousNotes) :
    (p.applyToBuffer ext oracle fc).playingNotes.length ≤ maximumSimultaneousNotes := by
  unfold Plugin.applyToBuffer
  split
  · exact h
  · dsimp only
    refine le_trans (renderLoop_length_le _ _ _ _ _ _) ?_
    split
    · exact h
    · apply handleMessageBuffer_length_le
      split
      · simp
      · exact h

theorem step_length_le (ext : Externals) (p : Plugin) (op : Op)
    (h : p.playingNotes.length ≤ maximumSimultaneousNotes) :
    (p.step ext op).playingNotes.length ≤ maximumSimultaneousNotes := by
  cases op with
  | handleMessageBuffer b => exact handleMessageBuffer_length_le ext p b h
  | playNotes k => exact playNotes_length_le ext p k h
  | applyToBuffer oracle fc => exact applyToBuffer_length_le ext oracle p fc h
  | allNotesOff => simp [Plugin.step, Plugin.allNotesOff]
  | addSound source name startTime length gainDb =>
    simp only [Plugin.step, Plugin.addSound]
    split
    · exact h
    · exact h
  | removeSound i => simp [Plugin.step, Plugin.removeSound]
  | handleAsyncUpdate =>
    simp [Plugin.step, Plugin.handleAsyncUpdate, Plugin.sourceMediaChanged, Plugin.allNotesOff]
  | sourceMediaChanged => simpa [Plugin.step, Plugin.sourceMediaChanged] using h

theorem run_length_le (ext : Externals) (p : Plugin) (ops : List Op)
    (h : p.playingNotes.length ≤ maximumSimultaneousNotes) :
    (p.run ext ops).playingNotes.length ≤ maximumSimultaneousNotes := by
  unfold Plugin.run
  induction ops generalizing p with
  | nil => simpa using h
  | cons op rest ih =>
    simp only [List.foldl_cons]
    exact ih _ (step_length_le ext p op h)

/-- C1: from an empty pool, after any sequence of MIDI buffers, playNotes calls,
render passes, allNotesOff, sound additions and removals, library rebuilds and
media refreshes, for any sound library, the pool holds at most 32 voices. -/
theorem C1_voice_pool_capacity (ext : Externals) (p : Plugin) (ops : List Op)
    (hempty : p.playingNotes = []) :
    (p.run ext ops).playingNotes.length ≤ 32 := by
  have := run_length_le ext p ops (by simp [hempty])
  simpa [maximumSimultaneousNotes] using this

/-- C1 instantiated: forty qualifying sounds and one note-on, from an empty pool. -/
theorem C1_voice_pool_capacity_witness :
    demoPlugin40.playingNotes = [] ∧
    (demoPlugin40.run demoExt
        [Op.handleMessageBuffer { messages := [noteOn60] }]).playingNotes.length ≤ 32 :=
  ⟨rfl, C1_voice_pool_capacity demoExt demoPlugin40 _ rfl⟩

/-! ## C2: addSound and the limit of 64 sounds -/

theorem foldl_count_eq (l : List ValueTree) (k : Int) :
    l.foldl (fun total v => total + (if v.hasType IDs.SOUND then 1 else 0)) k
      = k + (l.countP (fun v => v.hasType IDs.SOUND) : Nat) := by
  induction l generalizing k with
  | nil => simp
  | cons v rest ih =>
    simp only [List.foldl_cons, List.countP_cons]
    rw [ih]
    split
    · simp_all; omega
    · simp_all

theorem getNumSounds_eq_countP (p : Plugin) :
    p.getNumSounds = (p.state.countP (fun v => v.hasType IDs.SOUND) : Nat) := by
  unfold Plugin.getNumSounds
  rw [foldl_count_eq]; simp

theorem addSound_spec (p : Plugin) (source name : String) (startTime length gainDb : Rat) :
    ((p.addSound source name startTime length gainDb).1 ≠ "" ↔ p.getNumSounds ≥ 64) ∧
    (p.addSound source name startTime length gainDb).2.state =
      (if p.getNumSounds ≥ 64 then p.state
       else p.state ++ [{ type := IDs.SOUND, source := source, name := name,
                          startTime := startTime, length := length, keyNote := 72,
                          minNote := 48, maxNote := 96, gainDb := gainDb, pan := 0 }]) ∧
    (p.addSound source name startTime length gainDb).2.getNumSounds =
      (if p.getNumSounds ≥ 64 then p.getNumSounds else p.getNumSounds + 1) := by
  by_cases h : p.getNumSounds ≥ 64
  · have h2 : p.getNumSounds ≥ (maxNumSamples : Int) := by simpa [maxNumSamples] using h
    simp only [Plugin.addSound, if_pos h2, if_pos h]
    refine ⟨?_, trivial, trivial⟩
    simp [h]
  · have h2 : ¬ p.getNumSounds ≥ (maxNumSamples : Int) := by simpa [maxNumSamples] using h
    simp only [Plugin.addSound, if_neg h2, if_neg h]
    refine ⟨by simp [h], by norm_num, ?_⟩
    rw [getNumSounds_eq_countP, getNumSounds_eq_countP]
    simp [List.countP_append, ValueTree.hasType]

theorem addSounds_spec (args : List AddSoundArgs) (p : Plugin) (k : Nat)
    (hk : p.getNumSounds = k) :
    (p.addSounds args).1.length = args.length ∧
    (∀ i s, (p.addSounds args).1.get? i = some s → (s = "" ↔ k + i < 64)) ∧
    (p.addSounds args).2.getNumSounds = ((if 64 ≤ k then k else min 64 (k + args.length) : Nat) : Int) ∧
    (p.addSounds args).2.state.length = p.state.length + (min 64 (k + args.length) - k) := by
  induction args generalizing p k with
  | nil =>
    refine ⟨rfl, ?_, ?_, ?_⟩
    · intro i s h; simp [Plugin.addSounds] at h
    · simp only [Plugin.addSounds, hk, List.length_nil, Nat.add_zero]
      split
      · simp
      · simp; omega
    · simp [Plugin.addSounds]
  | cons a rest ih =>
    obtain ⟨h1, h2, h3⟩ := addSound_spec p a.source a.name a.startTime a.length a.gainDb
    by_cases hfull : p.getNumSounds ≥ 64
    · rw [if_pos hfull] at h2 h3
      obtain ⟨i1, i2, i3, i4⟩ := ih (p.addSound a.source a.name a.startTime a.length a.gainDb).2 k
        (by rw [h3, hk])
      have hk64 : 64 ≤ k := by rw [hk] at hfull; exact_mod_cast hfull
      refine ⟨by simp [Plugin.addSounds, i1], ?_, ?_, ?_⟩
      · intro i s h
        cases i with
        | zero =>
          simp only [Plugin.addSounds, List.get?_cons_zero, Option.some.injEq] at h
          subst h
          have := h1.2 hfull
          constructor
          · intro e; exact absurd e this
          · intro e; omega
        | succ j =>
          simp only [Plugin.addSounds, List.get?_cons_succ] at h
          have := i2 j s h
          constructor
          · intro e; have := this.1 e; omega
          · intro e; omega
      · simp only [Plugin.addSounds]
        rw [i3]; simp [hk64]
      · simp only [Plugin.addSounds]
        rw [i4, h2]; simp only [List.length_cons]; omega
    · rw [if_neg hfull] at h2 h3
      have hk64 : k < 64 := by rw [hk] at hfull; push_neg at hfull; exact_mod_cast hfull
      obtain ⟨i1, i2, i3, i4⟩ := ih (p.addSound a.source a.name a.startTime a.length a.gainDb).2 (k + 1)
        (by rw [h3, hk]; simp)
      refine ⟨by simp [Plugin.addSounds, i1], ?_, ?_, ?_⟩
      · intro i s h
        cases i with
        | zero =>
          simp only [Plugin.addSounds, List.get?_cons_zero, Option.some.injEq] at h
          subst h
          constructor
          · intro _; omega
          · intro _
            by_contra hne
            exact hfull (h1.1 hne)
        | succ j =>
          simp only [Plugin.addSounds, List.get?_cons_succ] at h
          have := i2 j s h
          constructor
          · intro e; have := this.1 e; omega
          · intro e; apply this.2; omega
      · simp only [Plugin.addSounds]
        rw [i3]
        simp only [List.length_cons]
        have : ¬ 64 ≤ k := by omega
        rw [if_neg this]
        split
        · have : k + 1 = 64 := by omega
          simp; omega
        · congr 1; omega
      · simp only [Plugin.addSounds]
        have hlen : (p.addSound a.source a.name a.startTime a.length a.gainDb).2.state.length
            = p.state.length + 1 := by rw [h2]; simp
        rw [i4, hlen]; simp only [List.length_cons]; omega

/-- C2: `addSound` returns a non-empty error exactly when the state already holds
64 or more sounds, and then leaves the entries unchanged; otherwise it returns
the empty string, appends the new entry last and the count grows by one. From an
empty state, 65 successive calls (with any arguments) give 64 empty strings, then
a non-empty error, and leave 64 entries. -/
theorem C2_addSound_capacity (p : Plugin) (source name : String)
    (startTime length gainDb : Rat) (f : Nat → AddSoundArgs) :
    ((p.addSound source name startTime length gainDb).1 ≠ "" ↔ p.getNumSounds ≥ 64) ∧
    (p.addSound source name startTime length gainDb).2.state =
      (if p.getNumSounds ≥ 64 then p.state
       else p.state ++ [{ type := IDs.SOUND, source := source, name := name,
                          startTime := startTime, length := length, keyNote := 72,
                          minNote := 48, maxNote := 96, gainDb := gainDb, pan := 0 }]) ∧
    (p.addSound source name startTime length gainDb).2.getNumSounds =
      (if p.getNumSounds ≥ 64 then p.getNumSounds else p.getNumSounds + 1) ∧
    (({ p with state := [] } : Plugin).addSounds ((List.range 65).map f)).1.take 64
      = List.replicate 64 "" ∧
    (∃ e, (({ p with state := [] } : Plugin).addSounds ((List.range 65).map f)).1.get? 64 = some e
      ∧ e ≠ "") ∧
    (({ p with state := [] } : Plugin).addSounds ((List.range 65).map f)).2.getNumSounds = 64 ∧
    (({ p with state := [] } : Plugin).addSounds ((List.range 65).map f)).2.state.length = 64 := by
  obtain ⟨a1, a2, a3⟩ := addSound_spec p source name startTime length gainDb
  obtain ⟨b1, b2, b3, b4⟩ := addSounds_spec ((List.range 65).map f)
    ({ p with state := [] } : Plugin) 0 (by simp [Plugin.getNumSounds])
  simp only [List.length_map, List.length_range] at b1 b3 b4
  refine ⟨a1, a2, a3, ?_, ?_, ?_, ?_⟩
  · rw [List.eq_replicate_iff]
    refine ⟨by simp [b1], ?_⟩
    intro s hs
    obtain ⟨i, hi, rfl⟩ := List.getElem_of_mem hs
    have hi64 : i < 64 := by simpa [b1] using hi
    rw [List.getElem_take]
    refine (b2 i _ ?_).2 (by omega)
    rw [List.get?_eq_getElem?, List.getElem?_eq_getElem]
  · have h64 : 64 < (({ p with state := [] } : Plugin).addSounds ((List.range 65).map f)).1.length := by
      rw [b1]; decide
    refine ⟨_, by rw [List.get?_eq_getElem?, List.getElem?_eq_getElem h64], ?_⟩
    intro he
    have := (b2 64 _ (by rw [List.get?_eq_getElem?, List.getElem?_eq_getElem h64])).1 he
    omega
  · rw [b3]; decide
  · rw [b4]; decide

/-! ## C3: how many voices a note-on allocates -/

theorem noteOn_fold_spec (ext : Externals) (m : MidiMessageWithSource) (sr : Rat)
    (sounds : List SamplerSound) (acc : List SampledNote × BigInteger)
    (h : acc.1.length ≤ maximumSimultaneousNotes) :
    ∃ added : List SampledNote,
      (sounds.foldl (noteOnStep ext m sr) acc).1 = acc.1 ++ added ∧
      acc.1.length + added.length
        = min maximumSimultaneousNotes (acc.1.length + sounds.countP (qualifies m.noteNumber)) ∧
      ∀ v ∈ added, v.note = m.noteNumber := by
  induction sounds generalizing acc with
  | nil => exact ⟨[], by simp, by simpa using h, by simp⟩
  | cons ss rest ih =>
    simp only [List.foldl_cons]
    by_cases hc : ss.minNote ≤ m.noteNumber ∧ ss.maxNote ≥ m.noteNumber
        ∧ ss.audioData.getNumSamples > 0 ∧ acc.1.length < maximumSimultaneousNotes
    · have hq : qualifies m.noteNumber ss = true := by
        simp [qualifies, hc.1, hc.2.1, hc.2.2.1]
      obtain ⟨nv, hnv, hstep⟩ : ∃ nv : SampledNote, nv.note = m.noteNumber ∧
          noteOnStep ext m sr acc ss = (acc.1 ++ [nv], acc.2.setBit m.noteNumber) :=
        ⟨createNote ext m.noteNumber ss.keyNote (m.velocity / 127) ss.audioFile sr
            (ext.roundToInt (m.timeStamp * sr)) ss.audioData ss.fileLengthSamples
            ss.gainDb ss.pan ss.openEnded, rfl, by simp only [noteOnStep, if_pos hc]⟩
      obtain ⟨added, h1, h2, h3⟩ := ih (noteOnStep ext m sr acc ss) (by
        rw [hstep]; simp only [List.length_append, List.length_singleton]; omega)
      rw [hstep] at h1 h2
      refine ⟨nv :: added, ?_, ?_, ?_⟩
      · rw [hstep, h1]; simp
      · simp only [List.length_append, List.length_singleton] at h2
        simp only [List.length_cons, List.countP_cons, hq, if_true]
        omega
      · intro v hv
        rcases List.mem_cons.1 hv with rfl | hv
        · exact hnv
        · exact h3 v hv
    · have hstep : noteOnStep ext m sr acc ss = acc := by
        simp only [noteOnStep, if_neg hc]
      rw [hstep]
      obtain ⟨added, h1, h2, h3⟩ := ih acc h
      refine ⟨added, h1, ?_, h3⟩
      rw [h2]
      by_cases hq : qualifies m.noteNumber ss = true
      · have hfull : ¬ acc.1.length < maximumSimultaneousNotes := by
          intro hlt
          apply hc
          simp only [qualifies, Bool.and_eq_true, decide_eq_true_eq] at hq
          exact ⟨hq.1.1, hq.1.2, hq.2, hlt⟩
        simp only [List.countP_cons, hq, if_true]
        omega
      · simp [List.countP_cons, hq]

/-- C3: for a pool of at most 32 voices, a note-on at note N leaves the old voices
in place (each only passed through the ongoing-note update, which touches nothing
but its remaining samples and its envelope), appends only voices on note N, and
the pool size afterwards is min (32, p + m), m being the number of qualifying
sounds; with m = 0 nothing is appended. -/
theorem C3_note_on_allocation (ext : Externals) (p : Plugin) (m : MidiMessageWithSource)
    (hp : p.playingNotes.length ≤ 32) :
    ∃ added : List SampledNote,
      (p.handleNoteOnMessage ext m).playingNotes
        = p.playingNotes.map
            (p.stopVoice m.noteNumber (ext.roundToInt (m.timeStamp * p.sampleRate))) ++ added ∧
      (∀ v : SampledNote, ∀ t : Int,
        p.stopVoice m.noteNumber t v =
          { v with samplesLeftToPlay := (p.stopVoice m.noteNumber t v).samplesLeftToPlay,
                   adsr := (p.stopVoice m.noteNumber t v).adsr }) ∧
      (∀ v ∈ added, v.note = m.noteNumber) ∧
      (p.handleNoteOnMessage ext m).playingNotes.length
        = min 32 (p.playingNotes.length + numQualifying p.soundList m.noteNumber) ∧
      (numQualifying p.soundList m.noteNumber = 0 → added = []) := by
  obtain ⟨added, h1, h2, h3⟩ := noteOn_fold_spec ext m (p.handleOngoingNote ext m).sampleRate
    (p.handleOngoingNote ext m).soundList
    ((p.handleOngoingNote ext m).playingNotes, (p.handleOngoingNote ext m).highlightedNotes)
    (by simpa [Plugin.handleOngoingNote, maximumSimultaneousNotes] using hp)
  have hlen : (p.handleOngoingNote ext m).playingNotes.length = p.playingNotes.length := by
    simp [Plugin.handleOngoingNote]
  have hsl : (p.handleOngoingNote ext m).soundList = p.soundList := rfl
  simp only [hlen, hsl, maximumSimultaneousNotes] at h2
  refine ⟨added, ?_, ?_, h3, ?_, ?_⟩
  · simp only [Plugin.handleNoteOnMessage]
    rw [h1]
    rfl
  · intro v t
    unfold Plugin.stopVoice
    split <;> rfl
  · simp only [Plugin.handleNoteOnMessage]
    rw [h1, List.length_append, hlen, h2]
    rfl
  · intro h0
    have : numQualifying p.soundList m.noteNumber
        = List.countP (qualifies m.noteNumber) p.soundList := rfl
    rw [this] at h0
    rw [h0] at h2
    have : added.length = 0 := by omega
    exact List.length_eq_zero.1 this

/-- C3 instantiated: forty qualifying sounds, an empty pool, one note-on. -/
theorem C3_note_on_allocation_witness :
    demoPlugin40.playingNotes.length ≤ 32 ∧
    ∃ added : List SampledNote,
      (demoPlugin40.handleNoteOnMessage demoExt noteOn60).playingNotes
        = demoPlugin40.playingNotes.map
            (demoPlugin40.stopVoice noteOn60.noteNumber
              (demoExt.roundToInt (noteOn60.timeStamp * demoPlugin40.sampleRate))) ++ added ∧
      (∀ v : SampledNote, ∀ t : Int,
        demoPlugin40.stopVoice noteOn60.noteNumber t v =
          { v with samplesLeftToPlay := (demoPlugin40.stopVoice noteOn60.noteNumber t v).samplesLeftToPlay,
                   adsr := (demoPlugin40.stopVoice noteOn60.noteNumber t v).adsr }) ∧
      (∀ v ∈ added, v.note = noteOn60.noteNumber) ∧
      (demoPlugin40.handleNoteOnMessage demoExt noteOn60).playingNotes.length
        = min 32 (demoPlugin40.playingNotes.length
            + numQualifying demoPlugin40.soundList noteOn60.noteNumber) ∧
      (numQualifying demoPlugin40.soundList noteOn60.noteNumber = 0 → added = []) :=
  ⟨by decide, C3_note_on_allocation demoExt demoPlugin40 noteOn60 (by decide)⟩

/-! ## C4: the hard stop -/

/-- C4: after `allNotesOff` the pool and the highlighted set are empty; an
all-notes-off or all-sound-off event handled by `handleMiscMessages` (also when
it arrives through the message loop as a non-note event) does the same, and any
other non-note event leaves the pool and the highlighted set as they were. -/
theorem C4_hard_stop (ext : Externals) (p : Plugin) (m : MidiMessageWithSource) :
    p.allNotesOff.playingNotes.length = 0 ∧ p.allNotesOff.highlightedNotes = ∅ ∧
    (p.handleMiscMessages m).playingNotes
      = (if m.isAllNotesOff ∨ m.isAllSoundOff then [] else p.playingNotes) ∧
    (p.handleMiscMessages m).highlightedNotes
      = (if m.isAllNotesOff ∨ m.isAllSoundOff then ∅ else p.highlightedNotes) ∧
    (p.handleMessage ext { m with isNoteOn := false, isNoteOff := false }).playingNotes
      = (if m.isAllNotesOff ∨ m.isAllSoundOff then [] else p.playingNotes) ∧
    (p.handleMessage ext { m with isNoteOn := false, isNoteOff := false }).highlightedNotes
      = (if m.isAllNotesOff ∨ m.isAllSoundOff then ∅ else p.highlightedNotes) := by
  refine ⟨rfl, rfl, ?_, ?_, ?_, ?_⟩
  · unfold Plugin.handleMiscMessages
    by_cases h : m.isAllNotesOff = true ∨ m.isAllSoundOff = true
    · rw [if_pos h, if_pos h]
    · rw [if_neg h, if_neg h]
  · unfold Plugin.handleMiscMessages
    by_cases h : m.isAllNotesOff = true ∨ m.isAllSoundOff = true
    · rw [if_pos h, if_pos h]
    · rw [if_neg h, if_neg h]
  · simp only [Plugin.handleMessage, Plugin.handleMiscMessages]
    by_cases h : m.isAllNotesOff = true ∨ m.isAllSoundOff = true
    · simp [h]
    · simp [h]
  · simp only [Plugin.handleMessage, Plugin.handleMiscMessages]
    by_cases h : m.isAllNotesOff = true ∨ m.isAllSoundOff = true
    · simp [h]
    · simp [h]

/-! ## C5: the remaining samples of a voice only go down -/

theorem addNextBlock_samplesLeft (v : SampledNote) (oc u1 u2 st n : Int) :
    (v.addNextBlock oc u1 u2 st n).1.samplesLeftToPlay =
      (if 0 < min (n - v.skip n) v.samplesLeftToPlay
       then v.samplesLeftToPlay - min (n - v.skip n) v.samplesLeftToPlay
       else v.samplesLeftToPlay) := by
  simp only [SampledNote.addNextBlock]
  by_cases h : n - v.skip n > min (n - v.skip n) v.samplesLeftToPlay ∧ v.startFade > 0
  · rw [if_pos h]; simp only [decide_eq_true_eq]
  · rw [if_neg h]; simp only [decide_eq_true_eq]

theorem addNextBlock_isFinished (v : SampledNote) (oc u1 u2 st n : Int) :
    (v.addNextBlock oc u1 u2 st n).1.isFinished = true →
      v.isFinished = true ∨ n - v.skip n > min (n - v.skip n) v.samplesLeftToPlay := by
  simp only [SampledNote.addNextBlock]
  by_cases h : n - v.skip n > min (n - v.skip n) v.samplesLeftToPlay ∧ v.startFade > 0
  · rw [if_pos h]
    intro _
    exact Or.inr h.1
  · rw [if_neg h]
    intro h
    exact Or.inl h

theorem skip_bounds (v : SampledNote) (n : Int) (hn : 0 ≤ n) :
    0 ≤ v.skip n ∧ v.skip n ≤ n := by
  unfold SampledNote.skip
  split
  · constructor
    · exact le_min (by omega) hn
    · exact min_le_right _ _
  · exact ⟨le_refl _, hn⟩

theorem addNextBlock_left (v : SampledNote) (oc u1 u2 st n : Int)
    (hv : 0 ≤ v.samplesLeftToPlay) (hn : 0 ≤ n) :
    (v.addNextBlock oc u1 u2 st n).1.samplesLeftToPlay ≤ v.samplesLeftToPlay ∧
    0 ≤ (v.addNextBlock oc u1 u2 st n).1.samplesLeftToPlay ∧
    ((v.addNextBlock oc u1 u2 st n).1.isFinished = true →
      v.isFinished = true ∨ (v.addNextBlock oc u1 u2 st n).1.samplesLeftToPlay = 0) := by
  obtain ⟨hs0, hs1⟩ := skip_bounds v n hn
  have hfin := addNextBlock_isFinished v oc u1 u2 st n
  rw [addNextBlock_samplesLeft]
  generalize v.skip n = k at *
  rcases le_total (n - k) v.samplesLeftToPlay with hle | hle
  · rw [min_eq_left hle] at *
    refine ⟨?_, ?_, ?_⟩
    · split <;> omega
    · split <;> omega
    · intro h
      rcases hfin h with h1 | h1
      · exact Or.inl h1
      · omega
  · rw [min_eq_right hle] at *
    refine ⟨?_, ?_, ?_⟩
    · split <;> omega
    · split <;> omega
    · intro _
      right
      split <;> omega

theorem renderAll_left_nonneg (calls : List RenderCall) (v : SampledNote)
    (hv : 0 ≤ v.samplesLeftToPlay) (hn : ∀ c ∈ calls, 0 ≤ c.numSamples) :
    0 ≤ (v.renderAll calls).samplesLeftToPlay := by
  induction calls generalizing v with
  | nil => exact hv
  | cons c rest ih =>
    obtain ⟨_, h2, _⟩ := addNextBlock_left v c.outChannels c.used1 c.used2 c.startSamp
      c.numSamples hv (hn c (List.mem_cons_self _ _))
    exact ih (v.render c) h2 (fun c' hc' => hn c' (List.mem_cons_of_mem _ hc'))

/-- C5: along any sequence of render calls with non-negative block sizes, started
on a voice with non-negative remaining samples, each call leaves the remaining
samples no larger than before and never negative, and a call that turns
`isFinished` from false to true returns with the remaining samples at exactly 0. -/
theorem C5_remaining_samples_monotone (v : SampledNote) (earlier : List RenderCall)
    (c : RenderCall) (hv : 0 ≤ v.samplesLeftToPlay)
    (hn : ∀ c' ∈ earlier ++ [c], 0 ≤ c'.numSamples) :
    ((v.renderAll earlier).render c).samplesLeftToPlay
      ≤ (v.renderAll earlier).samplesLeftToPlay ∧
    0 ≤ ((v.renderAll earlier).render c).samplesLeftToPlay ∧
    ((v.renderAll earlier).isFinished = false →
      ((v.renderAll earlier).render c).isFinished = true →
      ((v.renderAll earlier).render c).samplesLeftToPlay = 0) := by
  have h1 : 0 ≤ (v.renderAll earlier).samplesLeftToPlay :=
    renderAll_left_nonneg earlier v hv (fun c' hc' => hn c' (List.mem_append_left _ hc'))
  have hc : 0 ≤ c.numSamples := hn c (by simp)
  obtain ⟨a1, a2, a3⟩ := addNextBlock_left (v.renderAll earlier) c.outChannels c.used1 c.used2
    c.startSamp c.numSamples h1 hc
  refine ⟨a1, a2, ?_⟩
  intro hf hf2
  rcases a3 hf2 with h | h
  · rw [hf] at h; exact absurd h (by decide)
  · exact h

/-- C5 instantiated: a delayed voice with 150 samples left, rendered three times. -/
theorem C5_remaining_samples_monotone_witness :
    (0 ≤ demoVoice.samplesLeftToPlay) ∧
    (∀ c' ∈ demoCalls ++ [⟨2, 0, 100, 0, 256⟩], 0 ≤ c'.numSamples) ∧
    ((demoVoice.renderAll demoCalls).render ⟨2, 0, 100, 0, 256⟩).samplesLeftToPlay
      ≤ (demoVoice.renderAll demoCalls).samplesLeftToPlay ∧
    0 ≤ ((demoVoice.renderAll demoCalls).render ⟨2, 0, 100, 0, 256⟩).samplesLeftToPlay ∧
    ((demoVoice.renderAll demoCalls).isFinished = false →
      ((demoVoice.renderAll demoCalls).render ⟨2, 0, 100, 0, 256⟩).isFinished = true →
      ((demoVoice.renderAll demoCalls).render ⟨2, 0, 100, 0, 256⟩).samplesLeftToPlay = 0) :=
  ⟨by decide, by decide,
   C5_remaining_samples_monotone demoVoice demoCalls ⟨2, 0, 100, 0, 256⟩ (by decide) (by decide)⟩

/-- The run of the C5 instance really ends the voice: after two blocks nothing is
left and the fade is at 4/100, and the third block marks the voice finished. -/
theorem demoVoice_finishes_in_third_call : (demoVoice.renderAll demoCalls).isFinished = false ∧
   ((demoVoice.renderAll demoCalls).render ⟨2, 0, 100, 0, 256⟩).isFinished = true ∧
   (demoVoice.renderAll demoCalls).samplesLeftToPlay = 0 ∧
   (demoVoice.renderAll demoCalls).startFade = 4/100 := by
  simp only [SampledNote.renderAll, demoCalls, List.foldl, SampledNote.render,
    SampledNote.addNextBlock, demoVoice, SampledNote.skip, usedBy]
  norm_num

/-! ## What the note handlers and playNotes do to one voice of the pool -/

theorem noteOn_fold_prefix (ext : Externals) (m : MidiMessageWithSource) (sr : Rat)
    (sounds : List SamplerSound) (acc : List SampledNote × BigInteger) :
    ∃ added : List SampledNote, (sounds.foldl (noteOnStep ext m sr) acc).1 = acc.1 ++ added := by
  induction sounds generalizing acc with
  | nil => exact ⟨[], by simp⟩
  | cons ss rest ih =>
    simp only [List.foldl_cons]
    obtain ⟨added, h⟩ := ih (noteOnStep ext m sr acc ss)
    rw [h]
    simp only [noteOnStep]
    split
    · simp only [List.append_assoc]
      exact ⟨_, rfl⟩
    · exact ⟨added, rfl⟩

theorem playNote_fold_prefix (ext : Externals) (note : Int) (sr : Rat)
    (sounds : List SamplerSound) (pool : List SampledNote) :
    ∃ added : List SampledNote, sounds.foldl (playNoteStep ext note sr) pool = pool ++ added := by
  induction sounds generalizing pool with
  | nil => exact ⟨[], by simp⟩
  | cons ss rest ih =>
    simp only [List.foldl_cons]
    obtain ⟨added, h⟩ := ih (playNoteStep ext note sr pool ss)
    rw [h]
    simp only [playNoteStep]
    split
    · simp only [List.append_assoc]
      exact ⟨_, rfl⟩
    · exact ⟨added, rfl⟩

theorem playKey_fold_prefix (ext : Externals) (k hl : BigInteger) (sounds : List SamplerSound)
    (sr : Rat) (notes : List Nat) (pool : List SampledNote) :
    ∃ added : List SampledNote,
      notes.foldl (playKeyStep ext k hl sounds sr) pool = pool ++ added := by
  induction notes generalizing pool with
  | nil => exact ⟨[], by simp⟩
  | cons n rest ih =>
    simp only [List.foldl_cons]
    obtain ⟨added, h⟩ := ih (playKeyStep ext k hl sounds sr pool n)
    rw [h]
    simp only [playKeyStep]
    split
    · obtain ⟨a2, h2⟩ := playNote_fold_prefix ext n sr sounds pool
      rw [h2]
      exact ⟨a2 ++ added, by simp⟩
    · exact ⟨added, rfl⟩

theorem get?_append_of_some {α : Type} (l added : List α) (i : Nat) (x : α)
    (h : l.get? i = some x) : (l ++ added).get? i = some x := by
  have hi : i < l.length := by
    by_contra hc
    rw [List.get?_eq_none.2 (by omega)] at h
    exact absurd h (by simp)
  rw [List.get?_eq_getElem?] at h ⊢
  rw [List.getElem?_append_left hi]
  exact h

theorem get?_map_of_some {α β : Type} (f : α → β) (l : List α) (i : Nat) (x : α)
    (h : l.get? i = some x) : (l.map f).get? i = some (f x) := by
  rw [List.get?_eq_getElem?] at h ⊢
  rw [List.getElem?_map, h]
  rfl

theorem handleNoteOn_get? (ext : Externals) (p : Plugin) (m : MidiMessageWithSource)
    (i : Nat) (v : SampledNote) (hv : p.playingNotes.get? i = some v) :
    (p.handleNoteOnMessage ext m).playingNotes.get? i
      = some (p.stopVoice m.noteNumber (ext.roundToInt (m.timeStamp * p.sampleRate)) v) := by
  obtain ⟨added, h⟩ := noteOn_fold_prefix ext m (p.handleOngoingNote ext m).sampleRate
    (p.handleOngoingNote ext m).soundList
    ((p.handleOngoingNote ext m).playingNotes, (p.handleOngoingNote ext m).highlightedNotes)
  simp only [Plugin.handleNoteOnMessage]
  rw [h]
  apply get?_append_of_some
  exact get?_map_of_some _ _ _ _ hv

theorem handleNoteOff_get? (ext : Externals) (p : Plugin) (m : MidiMessageWithSource)
    (i : Nat) (v : SampledNote) (hv : p.playingNotes.get? i = some v) :
    (p.handleNoteOffMessage ext m).playingNotes.get? i
      = some (p.stopVoice m.noteNumber (ext.roundToInt (m.timeStamp * p.sampleRate)) v) := by
  exact get?_map_of_some _ _ _ _ hv

theorem handleOngoingNote_get? (ext : Externals) (p : Plugin) (m : MidiMessageWithSource)
    (i : Nat) (v : SampledNote) (hv : p.playingNotes.get? i = some v) :
    (p.handleOngoingNote ext m).playingNotes.get? i
      = some (p.stopVoice m.noteNumber (ext.roundToInt (m.timeStamp * p.sampleRate)) v) := by
  exact get?_map_of_some _ _ _ _ hv

theorem playNotes_get? (ext : Externals) (p : Plugin) (k : BigInteger)
    (i : Nat) (v : SampledNote) (hv : p.playingNotes.get? i = some v) :
    (p.playNotes ext k).playingNotes.get? i
      = some (if p.highlightedNotes ≠ k then releaseKey k p.highlightedNotes v else v) := by
  unfold Plugin.playNotes
  split
  · dsimp only
    obtain ⟨added, h⟩ := playKey_fold_prefix ext k p.highlightedNotes p.soundList p.sampleRate
      (List.range 128).reverse (p.playingNotes.map (releaseKey k p.highlightedNotes))
    rw [h]
    apply get?_append_of_some
    exact get?_map_of_some _ _ _ _ hv
  · exact hv

theorem stopVoice_clamp (p : Plugin) (note t : Int) (v : SampledNote) :
    (p.stopVoice note t v).samplesLeftToPlay ≤ v.samplesLeftToPlay ∧
    min v.samplesLeftToPlay p.getMinimumSamplesToPlay ≤ (p.stopVoice note t v).samplesLeftToPlay := by
  unfold Plugin.stopVoice
  split
  · dsimp only
    constructor
    · exact min_le_left _ _
    · exact min_le_min (le_refl _) (le_max_left _ _)
  · exact ⟨le_refl _, min_le_left _ _⟩

theorem stopVoice_matching (p : Plugin) (note t : Int) (v : SampledNote)
    (hn : v.note = note) (ho : v.openEnded = false) :
    (p.stopVoice note t v).samplesLeftToPlay
      = min v.samplesLeftToPlay (max p.getMinimumSamplesToPlay t) := by
  unfold Plugin.stopVoice
  rw [if_pos ⟨hn, by simp [ho]⟩]

theorem stopVoice_other (p : Plugin) (note t : Int) (v : SampledNote)
    (h : v.openEnded = true ∨ v.note ≠ note) : p.stopVoice note t v = v := by
  unfold Plugin.stopVoice
  rw [if_neg]
  rintro ⟨h1, h2⟩
  rcases h with h | h
  · exact h2 h
  · exact h h1

theorem stopVoice_eq_of_matching (p : Plugin) (note t : Int) (v : SampledNote)
    (hn : v.note = note) (ho : v.openEnded = false) :
    p.stopVoice note t v =
      { v with samplesLeftToPlay := min v.samplesLeftToPlay (max p.getMinimumSamplesToPlay t),
               adsr := v.adsr.noteOff } := by
  unfold Plugin.stopVoice
  rw [if_pos ⟨hn, by simp [ho]⟩]

theorem handleNoteOff_pool (ext : Externals) (p : Plugin) (m : MidiMessageWithSource) :
    (p.handleNoteOffMessage ext m).playingNotes
      = p.playingNotes.map
          (p.stopVoice m.noteNumber (ext.roundToInt (m.timeStamp * p.sampleRate))) := rfl

/-! ## The concrete inputs evaluated -/

theorem demoSound_samples : demoSound.audioData.getNumSamples = 128 := by
  simp [demoSound, AudioBuffer.zeros, AudioBuffer.getNumSamples, List.replicate]

theorem handleNoteOn_single (ext : Externals) (p : Plugin) (m : MidiMessageWithSource)
    (ss : SamplerSound) (hl : p.soundList = [ss])
    (h1 : ss.minNote ≤ m.noteNumber) (h2 : m.noteNumber ≤ ss.maxNote)
    (h3 : ss.audioData.getNumSamples > 0) (h4 : p.playingNotes.length < 32) :
    (p.handleNoteOnMessage ext m).playingNotes
      = p.playingNotes.map
          (p.stopVoice m.noteNumber (ext.roundToInt (m.timeStamp * p.sampleRate)))
        ++ [createNote ext m.noteNumber ss.keyNote (m.velocity / 127) ss.audioFile p.sampleRate
              (ext.roundToInt (m.timeStamp * p.sampleRate)) ss.audioData ss.fileLengthSamples
              ss.gainDb ss.pan ss.openEnded] ∧
    (p.handleNoteOnMessage ext m).highlightedNotes
      = (p.handleOngoingNote ext m).highlightedNotes.setBit m.noteNumber ∧
    (p.handleNoteOnMessage ext m).sampleRate = p.sampleRate ∧
    (p.handleNoteOnMessage ext m).releaseTimeSeconds = p.releaseTimeSeconds ∧
    (p.handleNoteOnMessage ext m).soundList = p.soundList := by
  have hc : ss.minNote ≤ m.noteNumber ∧ ss.maxNote ≥ m.noteNumber ∧ ss.audioData.getNumSamples > 0
      ∧ (p.playingNotes.map
          (p.stopVoice m.noteNumber (ext.roundToInt (m.timeStamp * p.sampleRate)))).length
        < maximumSimultaneousNotes := by
    refine ⟨h1, h2, h3, ?_⟩
    simpa [maximumSimultaneousNotes] using h4
  simp only [Plugin.handleNoteOnMessage, Plugin.handleOngoingNote, hl, List.foldl, noteOnStep,
    if_pos hc]
  simp

theorem demoExt_round_zero (sr : Rat) : demoExt.roundToInt (0 * sr) = 0 := by
  have hz : ⌊(2 : ℚ)⁻¹⌋ = 0 := by rw [Int.floor_eq_iff]; norm_num
  simp [demoExt, hz]

theorem demoCreated_fields :
    demoCreated.note = 60 ∧ demoCreated.openEnded = false ∧
    demoCreated.samplesLeftToPlay = 97 ∧ demoCreated.releaseStageTriggered = false ∧
    demoCreated.adsr.release = 97 / 48000 ∧ demoCreated.sR = 48000 ∧ demoCreated.offset = 0 ∧
    demoCreated.isFinished = false := by
  simp [demoCreated, demoSound, createNote, demoExt, truncToInt, ADSR.noteOn, ADSR.setParameters]

theorem demoCreated62_fields :
    demoCreated62.note = 62 ∧ demoCreated62.openEnded = false ∧
    demoCreated62.samplesLeftToPlay = 97 ∧ demoCreated62.offset = 0 ∧
    demoCreated62.isFinished = false := by
  simp [demoCreated62, demoSound, createNote, demoExt, truncToInt, ADSR.noteOn, ADSR.setParameters]

theorem demoAfterOn60_state :
    demoAfterOn60.playingNotes = [demoCreated] ∧
    demoAfterOn60.highlightedNotes = {60} ∧
    demoAfterOn60.sampleRate = 48000 ∧
    demoAfterOn60.releaseTimeSeconds = 0 ∧
    demoAfterOn60.soundList = [demoSound] := by
  obtain ⟨h1, h2, h3, h4, h5⟩ := handleNoteOn_single demoExt demoPlugin1 noteOn60 demoSound rfl
    (by decide) (by decide) (by rw [demoSound_samples]; decide) (by decide)
  have hr : demoExt.roundToInt (noteOn60.timeStamp * demoPlugin1.sampleRate) = 0 :=
    demoExt_round_zero _
  rw [hr] at h1
  refine ⟨?_, ?_, h3, h4, h5⟩
  · rw [demoAfterOn60, h1]; rfl
  · rw [demoAfterOn60, h2]; rfl

theorem demoAfterOn6062_state :
    demoAfterOn6062.playingNotes = [demoCreated, demoCreated62] ∧
    demoAfterOn6062.highlightedNotes = {60, 62} := by
  obtain ⟨a1, a2, a3, a4, a5⟩ := demoAfterOn60_state
  obtain ⟨f1, f2, _⟩ := demoCreated_fields
  obtain ⟨h1, h2, -, -, -⟩ := handleNoteOn_single demoExt demoAfterOn60 noteOn62 demoSound a5
    (by decide) (by decide) (by rw [demoSound_samples]; decide) (by rw [a1]; decide)
  have hr : demoExt.roundToInt (noteOn62.timeStamp * demoAfterOn60.sampleRate) = 0 :=
    demoExt_round_zero _
  rw [hr, a1, a3] at h1
  have hs : demoAfterOn60.stopVoice noteOn62.noteNumber 0 demoCreated = demoCreated :=
    stopVoice_other _ _ _ _ (Or.inr (by rw [f1]; decide))
  constructor
  · rw [demoAfterOn6062, h1]
    simp only [List.map_cons, List.map_nil, hs]
    rfl
  · rw [demoAfterOn6062, h2]
    simp only [Plugin.handleOngoingNote, a1, a2, List.any_cons, List.any_nil, f1, f2]
    decide

/-! ## C6: the note-off clamp -/

/-- C6: a note-off at note N (sample time t) takes a non-open-ended voice on N
from r remaining samples to r' = min (r, max (F, t)), so r' ≤ r and r' ≥ min (r, F),
with F = getMinimumSamplesToPlay() = max (8, int (releaseTimeSeconds * sampleRate));
the ongoing-note update of a note-on for N does the same to the existing voices. -/
theorem C6_note_off_clamp (ext : Externals) (p : Plugin) (m : MidiMessageWithSource)
    (i : Nat) (v : SampledNote) (hv : p.playingNotes.get? i = some v)
    (hn : v.note = m.noteNumber) (ho : v.openEnded = false) :
    p.getMinimumSamplesToPlay = max 8 (truncToInt (p.releaseTimeSeconds * p.sampleRate)) ∧
    (∃ w, (p.handleNoteOffMessage ext m).playingNotes.get? i = some w ∧
      w.samplesLeftToPlay ≤ v.samplesLeftToPlay ∧
      min v.samplesLeftToPlay p.getMinimumSamplesToPlay ≤ w.samplesLeftToPlay ∧
      w.samplesLeftToPlay = min v.samplesLeftToPlay
        (max p.getMinimumSamplesToPlay (ext.roundToInt (m.timeStamp * p.sampleRate)))) ∧
    (∃ w, (p.handleOngoingNote ext m).playingNotes.get? i = some w ∧
      w.samplesLeftToPlay ≤ v.samplesLeftToPlay ∧
      min v.samplesLeftToPlay p.getMinimumSamplesToPlay ≤ w.samplesLeftToPlay) ∧
    (∃ w, (p.handleNoteOnMessage ext m).playingNotes.get? i = some w ∧
      w.samplesLeftToPlay ≤ v.samplesLeftToPlay ∧
      min v.samplesLeftToPlay p.getMinimumSamplesToPlay ≤ w.samplesLeftToPlay) := by
  have hc := stopVoice_clamp p m.noteNumber (ext.roundToInt (m.timeStamp * p.sampleRate)) v
  refine ⟨rfl, ⟨_, handleNoteOff_get? ext p m i v hv, hc.1, hc.2,
      stopVoice_matching p _ _ v hn ho⟩,
    ⟨_, handleOngoingNote_get? ext p m i v hv, hc.1, hc.2⟩,
    ⟨_, handleNoteOn_get? ext p m i v hv, hc.1, hc.2⟩⟩

/-- C6 instantiated: the voice created by a note-on for 60, then a note-off for 60. -/
theorem C6_note_off_clamp_witness :
    demoAfterOn60.playingNotes.get? 0 = some demoCreated ∧
    demoCreated.note = noteOff60.noteNumber ∧ demoCreated.openEnded = false ∧
    ∃ w, (demoAfterOn60.handleNoteOffMessage demoExt noteOff60).playingNotes.get? 0 = some w ∧
      w.samplesLeftToPlay ≤ demoCreated.samplesLeftToPlay ∧
      min demoCreated.samplesLeftToPlay demoAfterOn60.getMinimumSamplesToPlay
        ≤ w.samplesLeftToPlay :=
  have hv : demoAfterOn60.playingNotes.get? 0 = some demoCreated := by
    rw [demoAfterOn60_state.1]; rfl
  ⟨hv, demoCreated_fields.1, demoCreated_fields.2.1,
    let ⟨w, h1, h2, h3, _⟩ :=
      (C6_note_off_clamp demoExt demoAfterOn60 noteOff60 0 demoCreated hv
        demoCreated_fields.1 demoCreated_fields.2.1).2.1
    ⟨w, h1, h2, h3⟩⟩

/-! ## C7: what a note-off does to the release of a voice -/

/-- C7 evaluated: a note-on for 60 creates a voice with 97 samples left; after the
note-off for 60 the voice is clamped to 8 samples, but `releaseStageTriggered` is
still false and the envelope release time is still 97/48000, where
`triggerRelease()` on that voice sets the flag and the release time 8/48000; the
next render call writes its samples without the envelope. -/
theorem C7_note_off_leaves_release_untriggered :
    (demoAfterOn60.handleNoteOffMessage demoExt noteOff60).playingNotes.map
      (fun w => (w.note, w.openEnded, w.samplesLeftToPlay, w.releaseStageTriggered,
                 w.adsr.release))
      = [(60, false, 8, false, 97 / 48000)] ∧
    (demoAfterOn60.handleNoteOffMessage demoExt noteOff60).playingNotes.map
      (fun w => (w.triggerRelease.releaseStageTriggered, w.triggerRelease.adsr.release))
      = [(true, 8 / 48000)] ∧
    (demoAfterOn60.handleNoteOffMessage demoExt noteOff60).playingNotes.map
      (fun w => (w.addNextBlock 2 4 0 0 4).2)
      = [[⟨0, 4, false⟩]] := by
  obtain ⟨h1, h2, h3, h4, h5⟩ := demoAfterOn60_state
  obtain ⟨f1, f2, f3, f4, f5, f6, f7, f8⟩ := demoCreated_fields
  have hF : demoAfterOn60.getMinimumSamplesToPlay = 8 := by
    simp [Plugin.getMinimumSamplesToPlay, h3, h4, truncToInt, minimumSamplesToPlayWhenStopping]
  have ht : demoExt.roundToInt (noteOff60.timeStamp * demoAfterOn60.sampleRate) = 0 :=
    demoExt_round_zero _
  have hn : demoCreated.note = noteOff60.noteNumber := f1
  rw [handleNoteOff_pool, h1, ht]
  simp only [List.map_cons, List.map_nil]
  rw [stopVoice_eq_of_matching _ _ _ _ hn f2, hF]
  refine ⟨?_, ?_, ?_⟩
  · simp only [f1, f2, f3, f4, f5, f6, ADSR.noteOff]
    norm_num
  · simp only [SampledNote.triggerRelease, f4, f3, f6, ADSR.noteOff, ADSR.setParameters]
    norm_num
  · simp only [SampledNote.addNextBlock, SampledNote.skip, f7, f3, f4]
    norm_num

/-! ## C8: which voices a note-off, a retrigger and playNotes leave alone -/

theorem releaseKey_other (k hl : BigInteger) (v : SampledNote)
    (h : v.openEnded = true ∨ ¬ (hl.test v.note = true ∧ k.test v.note = false)) :
    releaseKey k hl v = v := by
  unfold releaseKey
  rw [if_neg]
  intro hc
  simp only [Bool.and_eq_true, Bool.not_eq_true'] at hc
  rcases h with h | h
  · rw [h] at hc; exact absurd hc.2 (by decide)
  · exact h ⟨hc.1.2, hc.1.1⟩

/-- C8 refuted as stated: after note-ons for 60 and 62 the keys 60 and 62 are
highlighted; `playNotes` with no key down releases key 60, and the voice on
note 62 (not 60, not open-ended) goes from 97 remaining samples to 8. -/
theorem C8_playNotes_changes_other_note :
    demoAfterOn6062.highlightedNotes.test 60 = true ∧
    (∅ : BigInteger).test 60 = false ∧
    demoAfterOn6062.playingNotes.get? 1 = some demoCreated62 ∧
    demoCreated62.note ≠ 60 ∧
    demoCreated62.samplesLeftToPlay = 97 ∧
    ((demoAfterOn6062.playNotes demoExt ∅).playingNotes.get? 1).map
      (fun w => w.samplesLeftToPlay) = some 8 := by
  obtain ⟨h1, h2⟩ := demoAfterOn6062_state
  obtain ⟨f1, f2, f3, f4, f5⟩ := demoCreated62_fields
  have hv : demoAfterOn6062.playingNotes.get? 1 = some demoCreated62 := by rw [h1]; rfl
  refine ⟨by rw [h2]; decide, by decide, hv, by rw [f1]; decide, f3, ?_⟩
  rw [playNotes_get? demoExt demoAfterOn6062 ∅ 1 demoCreated62 hv, h2]
  rw [if_pos (by decide)]
  simp only [Option.map_some', releaseKey, f1, f2]
  rw [if_pos (by decide)]
  rfl

/-- C8 amended: a note-off at N, the ongoing-note update and a note-on at N leave
every voice that is open-ended or on another note exactly as it was; `playNotes`
leaves every voice that is open-ended, or whose own note is not a key released
by that call (highlighted before and absent from the new mask), exactly as it
was; and one MIDI message leaves an open-ended voice as it was unless it is an
all-notes-off or all-sound-off, which empties the pool. -/
theorem C8_open_ended_and_other_notes_unchanged (ext : Externals) (p : Plugin)
    (m : MidiMessageWithSource) (k : BigInteger) (i : Nat) (v : SampledNote)
    (hv : p.playingNotes.get? i = some v) :
    (v.openEnded = true ∨ v.note ≠ m.noteNumber →
      (p.handleNoteOffMessage ext m).playingNotes.get? i = some v ∧
      (p.handleOngoingNote ext m).playingNotes.get? i = some v ∧
      (p.handleNoteOnMessage ext m).playingNotes.get? i = some v) ∧
    (v.openEnded = true ∨ ¬ (p.highlightedNotes.test v.note = true ∧ k.test v.note = false) →
      (p.playNotes ext k).playingNotes.get? i = some v) ∧
    (v.openEnded = true →
      (p.handleMessage ext m).playingNotes.get? i = some v ∨
      (p.handleMessage ext m).playingNotes = []) := by
  refine ⟨?_, ?_, ?_⟩
  · intro h
    have hs := stopVoice_other p m.noteNumber (ext.roundToInt (m.timeStamp * p.sampleRate)) v h
    refine ⟨?_, ?_, ?_⟩
    · rw [handleNoteOff_get? ext p m i v hv, hs]
    · rw [handleOngoingNote_get? ext p m i v hv, hs]
    · rw [handleNoteOn_get? ext p m i v hv, hs]
  · intro h
    rw [playNotes_get? ext p k i v hv]
    split
    · rw [releaseKey_other k p.highlightedNotes v h]
    · rfl
  · intro h
    have hs := stopVoice_other p m.noteNumber (ext.roundToInt (m.timeStamp * p.sampleRate)) v
      (Or.inl h)
    unfold Plugin.handleMessage
    split
    · left; rw [handleNoteOn_get? ext p m i v hv, hs]
    · split
      · left; rw [handleNoteOff_get? ext p m i v hv, hs]
      · unfold Plugin.handleMiscMessages
        split
        · right; rfl
        · left; exact hv

/-- C8 (amended) instantiated: the voice on note 60 when a note-on for 62 arrives. -/
theorem C8_open_ended_and_other_notes_unchanged_witness :
    demoAfterOn60.playingNotes.get? 0 = some demoCreated ∧
    (demoCreated.openEnded = true ∨ demoCreated.note ≠ noteOn62.noteNumber) ∧
    (demoAfterOn60.handleNoteOnMessage demoExt noteOn62).playingNotes.get? 0 = some demoCreated :=
  have hv : demoAfterOn60.playingNotes.get? 0 = some demoCreated := by
    rw [demoAfterOn60_state.1]; rfl
  have hne : demoCreated.openEnded = true ∨ demoCreated.note ≠ noteOn62.noteNumber :=
    Or.inr (by rw [demoCreated_fields.1]; decide)
  ⟨hv, hne,
    ((C8_open_ended_and_other_notes_unchanged demoExt demoAfterOn60 noteOn62 ∅ 0 demoCreated
      hv).1 hne).2.2⟩

/-! ## Excerpt decoding -/

theorem setExcerpt_fields (ext : Externals) (s : SamplerSound) (st len : Rat)
    (hvalid : (resolved ext s).valid = true) :
    (s.setExcerpt ext st len).1.startTime
      = jlimit 0 ((resolved ext s).length - 32 / (resolved ext s).sampleRate) st ∧
    (s.setExcerpt ext st len).1.length
      = (if len > 0 then
          jlimit (32 / (resolved ext s).sampleRate)
            ((resolved ext s).length
              - jlimit 0 ((resolved ext s).length - 32 / (resolved ext s).sampleRate) st) len
         else (resolved ext s).length) ∧
    (s.setExcerpt ext st len).1.source = s.source ∧
    (s.setExcerpt ext st len).1.audioFile = resolved ext s := by
  unfold resolved at *
  simp only [SamplerSound.setExcerpt, if_pos hvalid]
  simp

theorem jlimit_bounds (lo hi x : Rat) (h : lo ≤ hi) :
    lo ≤ jlimit lo hi x ∧ jlimit lo hi x ≤ hi := by
  unfold jlimit
  split
  · exact ⟨le_refl _, h⟩
  · split
    · exact ⟨h, le_refl _⟩
    · constructor <;> linarith

theorem jlimit_of_mem (lo hi x : Rat) (h1 : lo ≤ x) (h2 : x ≤ hi) : jlimit lo hi x = x := by
  unfold jlimit
  rw [if_neg (not_lt.2 h1), if_neg (not_lt.2 h2)]

theorem setExcerpt_bounds_of_pos_length (ext : Externals) (s : SamplerSound) (st len : Rat)
    (hvalid : (resolved ext s).valid = true)
    (hD : 32 / (resolved ext s).sampleRate ≤ (resolved ext s).length) (hlen : 0 < len) :
    0 ≤ (s.setExcerpt ext st len).1.startTime ∧
    32 / (resolved ext s).sampleRate ≤ (s.setExcerpt ext st len).1.length ∧
    (s.setExcerpt ext st len).1.startTime + (s.setExcerpt ext st len).1.length
      ≤ (resolved ext s).length := by
  obtain ⟨h1, h2, _, _⟩ := setExcerpt_fields ext s st len hvalid
  rw [h1, h2, if_pos hlen]
  obtain ⟨a1, a2⟩ := jlimit_bounds 0 ((resolved ext s).length - 32 / (resolved ext s).sampleRate)
    st (by linarith)
  obtain ⟨b1, b2⟩ := jlimit_bounds (32 / (resolved ext s).sampleRate)
    ((resolved ext s).length
      - jlimit 0 ((resolved ext s).length - 32 / (resolved ext s).sampleRate) st) len
    (by linarith)
  exact ⟨a1, b1, by linarith⟩

/-! ## C9: the excerpt bounds after setExcerpt -/

/-- C9 evaluated: over a valid two-second file at 48 kHz (so the duration is far
above the minimum excerpt of 32 sample periods), `setExcerpt (1, 0)` leaves
startTime = 1 and length = 2, the whole file, so startTime + length = 3 exceeds
the duration 2. -/
theorem C9_setExcerpt_unspecified_length_overruns :
    (resolved demoMediaExt demoFreshSound).valid = true ∧
    (resolved demoMediaExt demoFreshSound).length = 2 ∧
    32 / (resolved demoMediaExt demoFreshSound).sampleRate
      ≤ (resolved demoMediaExt demoFreshSound).length ∧
    (demoFreshSound.setExcerpt demoMediaExt 1 0).1.startTime = 1 ∧
    (demoFreshSound.setExcerpt demoMediaExt 1 0).1.length = 2 ∧
    ¬ ((demoFreshSound.setExcerpt demoMediaExt 1 0).1.startTime
        + (demoFreshSound.setExcerpt demoMediaExt 1 0).1.length
          ≤ (resolved demoMediaExt demoFreshSound).length) := by
  have hr : resolved demoMediaExt demoFreshSound = demoFile := by
    simp [resolved, demoFreshSound, demoFile]
  have hvalid : (resolved demoMediaExt demoFreshSound).valid = true := by rw [hr]; rfl
  obtain ⟨h1, h2, _, _⟩ := setExcerpt_fields demoMediaExt demoFreshSound 1 0 hvalid
  rw [hr] at h1 h2
  have e1 : (demoFreshSound.setExcerpt demoMediaExt 1 0).1.startTime = 1 := by
    rw [h1]; simp only [demoFile, jlimit]; norm_num
  have e2 : (demoFreshSound.setExcerpt demoMediaExt 1 0).1.length = 2 := by
    rw [h2]; simp [demoFile]
  refine ⟨hvalid, by rw [hr]; rfl, by rw [hr]; simp only [demoFile]; norm_num, e1, e2, ?_⟩
  rw [e1, e2, hr]
  simp only [demoFile]
  norm_num

/-! ## The library rebuild -/

theorem getSoundFrom_eq (l : List ValueTree) (index soundIndex : Int) :
    getSoundFrom l index soundIndex =
      (if index ≤ soundIndex
       then (l.filter (fun v => v.hasType IDs.SOUND)).get? (soundIndex - index).toNat
       else none) := by
  induction l generalizing index with
  | nil =>
    simp only [getSoundFrom, List.filter_nil, List.get?_nil, ite_self]
  | cons v rest ih =>
    simp only [getSoundFrom]
    by_cases hv : v.hasType IDs.SOUND = true
    · rw [if_pos hv, List.filter_cons, if_pos hv]
      by_cases he : index = soundIndex
      · rw [if_pos he, if_pos (le_of_eq he)]
        subst he
        simp
      · rw [if_neg he, ih]
        by_cases hle : index ≤ soundIndex
        · have hlt : index + 1 ≤ soundIndex := by omega
          rw [if_pos hlt, if_pos hle]
          have : (soundIndex - index).toNat = (soundIndex - (index + 1)).toNat + 1 := by omega
          rw [this, List.get?_cons_succ]
        · have : ¬ index + 1 ≤ soundIndex := by omega
          rw [if_neg this, if_neg hle]
    · rw [if_neg hv, List.filter_cons, if_neg hv, ih]

theorem getSound_eq (p : Plugin) (i : Nat) :
    p.getSound i = p.soundEntries.get? i := by
  unfold Plugin.getSound Plugin.soundEntries
  rw [getSoundFrom_eq, if_pos (by omega)]
  simp

theorem range_filterMap_get? {α β : Type} (L : List α) (b : α → β) (n : Nat) :
    (List.range n).filterMap (fun i => (L.get? i).map b) = (L.take n).map b := by
  induction n with
  | zero => simp
  | succ n ih =>
    rw [List.range_succ, List.filterMap_append, ih, List.take_succ, List.map_append]
    congr 1
    cases h : L.get? n with
    | none =>
      rw [List.get?_eq_getElem?] at h
      simp [h]
    | some x =>
      rw [List.get?_eq_getElem?] at h
      simp [h]

theorem buildSounds_eq (ext : Externals) (p : Plugin) :
    p.buildSounds ext = p.soundEntries.map (buildSound ext) := by
  unfold Plugin.buildSounds
  have gen : ∀ f : Nat → Option (SamplerSound × Nat),
      (∀ i, f i = (p.soundEntries.get? i).map (buildSound ext)) →
      List.filterMap f (List.range p.state.length) = p.soundEntries.map (buildSound ext) := by
    intro f hf
    rw [funext hf, range_filterMap_get?, List.take_of_length_le]
    unfold Plugin.soundEntries
    exact List.length_filter_le _ _
  apply gen
  intro i
  dsimp only
  rw [getSound_eq]
  cases h : p.soundEntries.get? i with
  | none => rfl
  | some v =>
    have hm : v ∈ p.soundEntries := List.get?_mem h
    have ht : v.hasType IDs.SOUND = true := by
      unfold Plugin.soundEntries at hm
      exact (List.mem_filter.1 hm).2
    simp [ht]

theorem transplant_keeps (old : List SamplerSound) (n : SamplerSound) :
    (transplant old n).source = n.source ∧ (transplant old n).startTime = n.startTime ∧
    (transplant old n).length = n.length := by
  unfold transplant
  induction old generalizing n with
  | nil => exact ⟨rfl, rfl, rfl⟩
  | cons s rest ih =>
    simp only [List.foldl_cons]
    split
    · obtain ⟨a, b, c⟩ := ih _
      exact ⟨a, b, c⟩
    · exact ih n

theorem handleAsyncUpdate_soundList (ext : Externals) (p : Plugin) :
    (p.handleAsyncUpdate ext).soundList
      = p.soundEntries.map
          (fun v => (SamplerSound.refreshFile ext (transplant p.soundList (buildSound ext v).1)).1) ∧
    (p.handleAsyncUpdate ext).state = p.state := by
  simp only [Plugin.handleAsyncUpdate, Plugin.sourceMediaChanged, Plugin.allNotesOff,
    buildSounds_eq, List.map_map]
  refine ⟨?_, ?_⟩
  · rfl
  · trivial

theorem buildSound_excerpt (ext : Externals) (v : ValueTree)
    (hvalid : (ext.findFile v.source).valid = true) :
    (buildSound ext v).1.source = v.source ∧
    (buildSound ext v).1.startTime
      = jlimit 0 ((ext.findFile v.source).length - 32 / (ext.findFile v.source).sampleRate)
          v.startTime ∧
    (buildSound ext v).1.length
      = (if v.length > 0 then
          jlimit (32 / (ext.findFile v.source).sampleRate)
            ((ext.findFile v.source).length
              - jlimit 0 ((ext.findFile v.source).length
                  - 32 / (ext.findFile v.source).sampleRate) v.startTime) v.length
         else (ext.findFile v.source).length) := by
  have hr : resolved ext
      { source := v.source, name := v.name, gainDb := jlimit (-48) 48 v.gainDb,
        startTime := v.startTime, length := v.length,
        audioFile := ext.findFile v.source, audioData := ext.fresh 2 64 }
      = ext.findFile v.source := by
    simp [resolved]
  obtain ⟨h1, h2, h3, _⟩ := setExcerpt_fields ext
    { source := v.source, name := v.name, gainDb := jlimit (-48) 48 v.gainDb,
      startTime := v.startTime, length := v.length,
      audioFile := ext.findFile v.source, audioData := ext.fresh 2 64 }
    v.startTime v.length (by rw [hr]; exact hvalid)
  rw [hr] at h1 h2
  simp only [buildSound, SamplerSound.new]
  exact ⟨h3, h1, h2⟩

theorem refreshFile_excerpt (ext : Externals) (n : SamplerSound)
    (hvalid : (ext.findFile n.source).valid = true) :
    (n.refreshFile ext).1.startTime
      = jlimit 0 ((ext.findFile n.source).length - 32 / (ext.findFile n.source).sampleRate)
          n.startTime ∧
    (n.refreshFile ext).1.length
      = (if n.length > 0 then
          jlimit (32 / (ext.findFile n.source).sampleRate)
            ((ext.findFile n.source).length
              - jlimit 0 ((ext.findFile n.source).length
                  - 32 / (ext.findFile n.source).sampleRate) n.startTime) n.length
         else (ext.findFile n.source).length) := by
  have hr : resolved ext { n with audioFile := AudioFile.none } = ext.findFile n.source := by
    simp [resolved, AudioFile.none]
  obtain ⟨h1, h2, _, _⟩ := setExcerpt_fields ext { n with audioFile := AudioFile.none }
    n.startTime n.length (by rw [hr]; exact hvalid)
  rw [hr] at h1 h2
  exact ⟨h1, h2⟩

theorem rebuild_length_zero (ext : Externals) (old : List SamplerSound) (v : ValueTree)
    (hlen : v.length = 0)
    (hvalid : (ext.findFile v.source).valid = true)
    (hsr : 0 < (ext.findFile v.source).sampleRate)
    (hs0 : 0 ≤ v.startTime)
    (hs1 : v.startTime ≤ (ext.findFile v.source).length - 32 / (ext.findFile v.source).sampleRate) :
    (SamplerSound.refreshFile ext (transplant old (buildSound ext v).1)).1.startTime = v.startTime ∧
    (SamplerSound.refreshFile ext (transplant old (buildSound ext v).1)).1.length
      = (ext.findFile v.source).length - v.startTime := by
  obtain ⟨b1, b2, b3⟩ := buildSound_excerpt ext v hvalid
  obtain ⟨t1, t2, t3⟩ := transplant_keeps old (buildSound ext v).1
  have hsrc : (transplant old (buildSound ext v).1).source = v.source := by rw [t1, b1]
  have hmin : 0 < 32 / (ext.findFile v.source).sampleRate := by positivity
  have hst : jlimit 0 ((ext.findFile v.source).length - 32 / (ext.findFile v.source).sampleRate)
      v.startTime = v.startTime := jlimit_of_mem _ _ _ hs0 hs1
  rw [hst] at b2
  rw [hlen, if_neg (lt_irrefl 0)] at b3
  obtain ⟨r1, r2⟩ := refreshFile_excerpt ext (transplant old (buildSound ext v).1)
    (by rw [hsrc]; exact hvalid)
  rw [hsrc, t2, b2, hst] at r1
  rw [hsrc, t2, t3, b2, b3, hst] at r2
  have hD : 0 < (ext.findFile v.source).length := by linarith
  rw [if_pos hD] at r2
  refine ⟨r1, ?_⟩
  rw [r2]
  unfold jlimit
  rw [if_neg (by linarith)]
  split
  · rfl
  · linarith

/-! ## C10: a stored length of zero after the rebuild -/

theorem rebuild_length_zero_at (ext : Externals) (p : Plugin) (i : Nat) (v : ValueTree)
    (hv : p.soundEntries.get? i = some v) (hlen : v.length = 0)
    (hvalid : (ext.findFile v.source).valid = true)
    (hsr : 0 < (ext.findFile v.source).sampleRate)
    (hs0 : 0 ≤ v.startTime)
    (hs1 : v.startTime ≤ (ext.findFile v.source).length - 32 / (ext.findFile v.source).sampleRate) :
    (∃ snd, (p.handleAsyncUpdate ext).soundList.get? i = some snd ∧
      snd.startTime = v.startTime ∧
      snd.length = (ext.findFile v.source).length - v.startTime) ∧
    (p.handleAsyncUpdate ext).getSoundLength i = (ext.findFile v.source).length - v.startTime := by
  obtain ⟨hl, hst⟩ := handleAsyncUpdate_soundList ext p
  obtain ⟨r1, r2⟩ := rebuild_length_zero ext p.soundList v hlen hvalid hsr hs0 hs1
  have hget : (p.handleAsyncUpdate ext).soundList.get? i
      = some (SamplerSound.refreshFile ext (transplant p.soundList (buildSound ext v).1)).1 := by
    rw [hl]
    exact get?_map_of_some _ _ _ _ hv
  refine ⟨⟨_, hget, r1, r2⟩, ?_⟩
  have hgs : (p.handleAsyncUpdate ext).getSound i = some v := by
    rw [getSound_eq]
    unfold Plugin.soundEntries at hv ⊢
    rw [hst]
    exact hv
  simp only [Plugin.getSoundLength, hgs, Option.map_some', Option.getD_some, hlen, if_true,
    Int.toNat_ofNat, Int.ofNat_nonneg, Nat.cast_nonneg, hget]
  exact r2

theorem soundEntries_length (p : Plugin) : (p.soundEntries.length : Int) = p.getNumSounds := by
  rw [getNumSounds_eq_countP, Plugin.soundEntries, List.countP_eq_length_filter]

/-- C10: a sound added with length 0 and start time s, 0 ≤ s ≤ D - minExcerpt, over
a source that resolves to a valid file of duration D: after the library rebuild
(which ends with the media refresh) the Sound at the index of the new entry has
start time s and length D - s, the stored length is still 0, and
`getSoundLength` at that index returns D - s. -/
theorem C10_length_zero_round_trip (ext : Externals) (p0 : Plugin) (source name : String)
    (s gainDb : Rat) (hcap : p0.getNumSounds < 64)
    (hvalid : (ext.findFile source).valid = true)
    (hsr : 0 < (ext.findFile source).sampleRate)
    (hs0 : 0 ≤ s)
    (hs1 : s ≤ (ext.findFile source).length - 32 / (ext.findFile source).sampleRate) :
    (((p0.addSound source name s 0 gainDb).2.handleAsyncUpdate ext).getSound
        p0.getNumSounds).map (fun v => v.length) = some 0 ∧
    (∃ snd, ((p0.addSound source name s 0 gainDb).2.handleAsyncUpdate ext).soundList.get?
        p0.getNumSounds.toNat = some snd ∧
      snd.startTime = s ∧ snd.length = (ext.findFile source).length - s) ∧
    ((p0.addSound source name s 0 gainDb).2.handleAsyncUpdate ext).getSoundLength
        p0.getNumSounds = (ext.findFile source).length - s := by
  obtain ⟨-, a2, -⟩ := addSound_spec p0 source name s 0 gainDb
  rw [if_neg (by omega)] at a2
  have hn : p0.getNumSounds = (p0.soundEntries.length : Int) := (soundEntries_length p0).symm
  have hentries : (p0.addSound source name s 0 gainDb).2.soundEntries.get? p0.soundEntries.length
      = some { type := IDs.SOUND, source := source, name := name, startTime := s, length := 0,
               keyNote := 72, minNote := 48, maxNote := 96, gainDb := gainDb, pan := 0 } := by
    unfold Plugin.soundEntries
    rw [a2, List.filter_append, List.get?_eq_getElem?, List.getElem?_append_right (le_refl _)]
    simp [ValueTree.hasType]
  obtain ⟨h1, h2⟩ := rebuild_length_zero_at ext (p0.addSound source name s 0 gainDb).2
    p0.soundEntries.length _ hentries rfl hvalid hsr hs0 hs1
  rw [hn]
  refine ⟨?_, ?_, h2⟩
  · rw [getSound_eq]
    unfold Plugin.soundEntries at hentries ⊢
    rw [(handleAsyncUpdate_soundList ext _).2, hentries]
    rfl
  · simpa using h1

/-- C10 instantiated: a sound added at start time 1 with length 0 over the
two-second `demoFile`. -/
theorem C10_length_zero_round_trip_witness :
    (({ sampleRate := 48000 } : Plugin).getNumSounds < 64 ∧
     (demoMediaExt.findFile "a.wav").valid = true ∧
     0 < (demoMediaExt.findFile "a.wav").sampleRate ∧
     (0 : Rat) ≤ 1 ∧
     (1 : Rat) ≤ (demoMediaExt.findFile "a.wav").length
        - 32 / (demoMediaExt.findFile "a.wav").sampleRate) ∧
    (demoAdded.handleAsyncUpdate demoMediaExt).getSoundLength
        ({ sampleRate := 48000 } : Plugin).getNumSounds
      = (demoMediaExt.findFile "a.wav").length - 1 :=
  have h1 : ({ sampleRate := 48000 } : Plugin).getNumSounds < 64 := by decide
  have h2 : (demoMediaExt.findFile "a.wav").valid = true := rfl
  have h3 : 0 < (demoMediaExt.findFile "a.wav").sampleRate := by
    simp only [demoMediaExt, demoFile]; norm_num
  have h4 : (0 : Rat) ≤ 1 := by norm_num
  have h5 : (1 : Rat) ≤ (demoMediaExt.findFile "a.wav").length
      - 32 / (demoMediaExt.findFile "a.wav").sampleRate := by
    simp only [demoMediaExt, demoFile]; norm_num
  ⟨⟨h1, h2, h3, h4, h5⟩,
   (C10_length_zero_round_trip demoMediaExt { sampleRate := 48000 } "a.wav" "a" 1 0
      h1 h2 h3 h4 h5).2.2⟩

/-! ## C11: file reads during a rebuild that changes nothing -/

theorem setExcerpt_reads (ext : Externals) (s : SamplerSound) (st len : Rat)
    (hvalid : (resolved ext s).valid = true) (reader : Reader)
    (hr : ext.createReader (resolved ext s) = some reader) :
    (s.setExcerpt ext st len).1.fileLengthSamples
      = ext.roundToInt ((s.setExcerpt ext st len).1.length * (resolved ext s).sampleRate) ∧
    (s.setExcerpt ext st len).2
      = (readLoop reader (s.setExcerpt ext st len).1.fileStartSample
          (s.setExcerpt ext st len).1.fileLengthSamples.toNat
          (s.setExcerpt ext st len).1.fileLengthSamples 0
          (AudioBuffer.zeros (resolved ext s).numChannels
            ((s.setExcerpt ext st len).1.fileLengthSamples + 32)) 0).2 := by
  unfold resolved at *
  simp only [SamplerSound.setExcerpt, if_pos hvalid, hr]
  simp

theorem readLoop_reads_one (reader : Reader) (fss : Int) (fuel : Nat) (total offset : Int)
    (buf : AudioBuffer) (reads : Nat) (hfuel : 0 < fuel) (h0 : 0 < total) (h1 : total ≤ 8192)
    (hok : ∀ pos n, (reader.read pos n).isSome = true) :
    (readLoop reader fss fuel total offset buf reads).2 = reads + 1 := by
  obtain ⟨k, rfl⟩ : ∃ k, fuel = k + 1 := ⟨fuel - 1, by omega⟩
  simp only [readLoop, if_pos h0]
  have hmin : min 8192 total = total := min_eq_right h1
  rw [hmin]
  cases h : reader.read (fss + offset) total with
  | none =>
    have := hok (fss + offset) total
    simp [h] at this
  | some chunk =>
    cases k with
    | zero => simp [readLoop]
    | succ j => simp [readLoop]

theorem setExcerpt_reads_one (ext : Externals) (s : SamplerSound) (st len : Rat)
    (hvalid : (resolved ext s).valid = true) (reader : Reader)
    (hr : ext.createReader (resolved ext s) = some reader)
    (hok : ∀ pos n, (reader.read pos n).isSome = true)
    (h0 : 0 < ext.roundToInt ((s.setExcerpt ext st len).1.length * (resolved ext s).sampleRate))
    (h1 : ext.roundToInt ((s.setExcerpt ext st len).1.length * (resolved ext s).sampleRate)
      ≤ 8192) :
    (s.setExcerpt ext st len).2 = 1 := by
  obtain ⟨e1, e2⟩ := setExcerpt_reads ext s st len hvalid reader hr
  rw [e2, e1]
  exact readLoop_reads_one reader _ _ _ _ _ 0 (by omega) h0 h1 hok

theorem handleAsyncUpdate_readCount (ext : Externals) (p : Plugin) :
    (p.handleAsyncUpdate ext).readCount
      = p.readCount + (p.soundEntries.map (fun v => (buildSound ext v).2)).sum
        + (p.soundEntries.map (fun v =>
            (SamplerSound.refreshFile ext (transplant p.soundList (buildSound ext v).1)).2)).sum := by
  simp only [Plugin.handleAsyncUpdate, Plugin.sourceMediaChanged, Plugin.allNotesOff,
    buildSounds_eq, List.map_map]
  rfl

theorem demoMediaExt_round_96 : demoMediaExt.roundToInt (1 / 500 * 48000) = 96 := by
  show Int.floor ((1 : Rat) / 500 * 48000 + 1 / 2) = 96
  rw [Int.floor_eq_iff]
  norm_num

theorem demoEntry_built :
    (buildSound demoMediaExt demoEntry).1.source = "a.wav" ∧
    (buildSound demoMediaExt demoEntry).1.startTime = 0 ∧
    (buildSound demoMediaExt demoEntry).1.length = 1 / 500 ∧
    (buildSound demoMediaExt demoEntry).2 = 1 := by
  obtain ⟨b1, b2, b3⟩ := buildSound_excerpt demoMediaExt demoEntry rfl
  have h2 : (buildSound demoMediaExt demoEntry).1.startTime = 0 := by
    rw [b2]; simp only [demoEntry, demoMediaExt, demoFile, jlimit]; norm_num
  have h3 : (buildSound demoMediaExt demoEntry).1.length = 1 / 500 := by
    rw [b3]; simp only [demoEntry, demoMediaExt, demoFile, jlimit]; norm_num
  refine ⟨b1, h2, h3, ?_⟩
  have hlen : ((SamplerSound.setExcerpt demoMediaExt
      { source := demoEntry.source, name := demoEntry.name,
        gainDb := jlimit (-48) 48 demoEntry.gainDb,
        startTime := demoEntry.startTime, length := demoEntry.length,
        audioFile := demoMediaExt.findFile demoEntry.source,
        audioData := demoMediaExt.fresh 2 64 } demoEntry.startTime demoEntry.length).1.length)
      = 1 / 500 := h3
  show (SamplerSound.setExcerpt demoMediaExt
      { source := demoEntry.source, name := demoEntry.name,
        gainDb := jlimit (-48) 48 demoEntry.gainDb,
        startTime := demoEntry.startTime, length := demoEntry.length,
        audioFile := demoMediaExt.findFile demoEntry.source,
        audioData := demoMediaExt.fresh 2 64 } demoEntry.startTime demoEntry.length).2 = 1
  have hres : resolved demoMediaExt
      { source := demoEntry.source, name := demoEntry.name,
        gainDb := jlimit (-48) 48 demoEntry.gainDb,
        startTime := demoEntry.startTime, length := demoEntry.length,
        audioFile := demoMediaExt.findFile demoEntry.source,
        audioData := demoMediaExt.fresh 2 64 } = demoFile := by
    simp [resolved, demoMediaExt, demoFile]
  apply setExcerpt_reads_one demoMediaExt _ _ _ (by rw [hres]; rfl)
    ⟨fun _ n => some [List.replicate n.toNat 0]⟩ (by rw [hres]; rfl) (fun _ _ => rfl)
  · rw [hlen, hres]
    have : demoFile.sampleRate = 48000 := rfl
    rw [this, demoMediaExt_round_96]; decide
  · rw [hlen, hres]
    have : demoFile.sampleRate = 48000 := rfl
    rw [this, demoMediaExt_round_96]; decide

theorem demo_refresh (n : SamplerSound) (hs : n.source = "a.wav") (h0 : n.startTime = 0)
    (hl : n.length = 1 / 500) :
    (n.refreshFile demoMediaExt).1.source = "a.wav" ∧
    (n.refreshFile demoMediaExt).1.startTime = 0 ∧
    (n.refreshFile demoMediaExt).1.length = 1 / 500 ∧
    (n.refreshFile demoMediaExt).2 = 1 := by
  obtain ⟨r1, r2⟩ := refreshFile_excerpt demoMediaExt n rfl
  have hres : resolved demoMediaExt { n with audioFile := AudioFile.none } = demoFile := by
    simp [resolved, AudioFile.none, demoMediaExt, demoFile]
  obtain ⟨_, _, r3, _⟩ := setExcerpt_fields demoMediaExt { n with audioFile := AudioFile.none }
    n.startTime n.length (by rw [hres]; rfl)
  have h2 : (n.refreshFile demoMediaExt).1.startTime = 0 := by
    rw [r1, h0]; simp only [demoMediaExt, demoFile, jlimit]; norm_num
  have h3 : (n.refreshFile demoMediaExt).1.length = 1 / 500 := by
    rw [r2, h0, hl]; simp only [demoMediaExt, demoFile, jlimit]; norm_num
  refine ⟨by rw [← hs]; exact r3, h2, h3, ?_⟩
  have hlen : (SamplerSound.setExcerpt demoMediaExt { n with audioFile := AudioFile.none }
      n.startTime n.length).1.length = 1 / 500 := h3
  show (SamplerSound.setExcerpt demoMediaExt { n with audioFile := AudioFile.none }
      n.startTime n.length).2 = 1
  apply setExcerpt_reads_one demoMediaExt _ _ _ (by rw [hres]; rfl)
    ⟨fun _ n => some [List.replicate n.toNat 0]⟩ (by rw [hres]; rfl) (fun _ _ => rfl)
  · rw [hlen, hres]
    have : demoFile.sampleRate = 48000 := rfl
    rw [this, demoMediaExt_round_96]; decide
  · rw [hlen, hres]
    have : demoFile.sampleRate = 48000 := rfl
    rw [this, demoMediaExt_round_96]; decide

theorem demoStored_entries : demoStored.soundEntries = [demoEntry] := by
  simp [Plugin.soundEntries, demoStored, demoEntry, ValueTree.hasType]

theorem demoLive_state :
    demoLive.state = [demoEntry] ∧
    demoLive.soundList
      = [(SamplerSound.refreshFile demoMediaExt
          (transplant demoStored.soundList (buildSound demoMediaExt demoEntry).1)).1] := by
  obtain ⟨h1, h2⟩ := handleAsyncUpdate_soundList demoMediaExt demoStored
  rw [demoStored_entries] at h1
  exact ⟨h2, h1⟩

/-- C11 evaluated: the state holds one entry (a.wav, 0, 1/500) and the live library
holds one Sound with the same source, start time and length; rebuilding the
library nevertheless makes two `readSamples` calls, one in the constructor of the
new Sound (before the transplant) and one in the `refreshFile` that
`sourceMediaChanged` runs after the swap. -/
theorem C11_rebuild_reads_unchanged_sound :
    demoLive.state = [demoEntry] ∧
    (demoEntry.source, demoEntry.startTime, demoEntry.length) = ("a.wav", 0, 1 / 500) ∧
    demoLive.soundList.map (fun s => (s.source, s.startTime, s.length))
      = [("a.wav", 0, 1 / 500)] ∧
    (demoLive.handleAsyncUpdate demoMediaExt).readCount = demoLive.readCount + 2 := by
  obtain ⟨hst, hsl⟩ := demoLive_state
  obtain ⟨b1, b2, b3, b4⟩ := demoEntry_built
  obtain ⟨t1, t2, t3⟩ := transplant_keeps demoStored.soundList (buildSound demoMediaExt demoEntry).1
  obtain ⟨r1, r2, r3, _⟩ := demo_refresh
    (transplant demoStored.soundList (buildSound demoMediaExt demoEntry).1)
    (by rw [t1, b1]) (by rw [t2, b2]) (by rw [t3, b3])
  obtain ⟨u1, u2, u3⟩ := transplant_keeps demoLive.soundList (buildSound demoMediaExt demoEntry).1
  obtain ⟨_, _, _, r4⟩ := demo_refresh
    (transplant demoLive.soundList (buildSound demoMediaExt demoEntry).1)
    (by rw [u1, b1]) (by rw [u2, b2]) (by rw [u3, b3])
  have hentries : demoLive.soundEntries = [demoEntry] := by
    unfold Plugin.soundEntries
    rw [hst]
    exact demoStored_entries
  refine ⟨hst, rfl, ?_, ?_⟩
  · rw [hsl]
    simp only [List.map_cons, List.map_nil, r1, r2, r3]
  · rw [handleAsyncUpdate_readCount, hentries]
    simp only [List.map_cons, List.map_nil, List.sum_cons, List.sum_nil, b4, r4]
    omega

/-! ## C12: removeSound and the index of a sound -/

theorem removeSound_entries_of_all_sounds (p : Plugin) (i : Nat)
    (hall : ∀ v ∈ p.state, v.hasType IDs.SOUND = true) (hi : i < p.state.length) :
    (p.removeSound i).soundEntries = p.soundEntries.eraseIdx i := by
  have hf : ∀ l : List ValueTree, (∀ v ∈ l, v.hasType IDs.SOUND = true) →
      l.filter (fun v => v.hasType IDs.SOUND) = l := by
    intro l hl
    exact List.filter_eq_self.2 hl
  unfold Plugin.soundEntries Plugin.removeSound
  have hc : (0 : Int) ≤ (i : Int) ∧ (i : Int) < (p.state.length : Int) := ⟨by omega, by omega⟩
  simp only [if_pos hc, Int.toNat_ofNat]
  rw [hf p.state hall, hf]
  intro v hv
  exact hall v (List.mem_of_mem_eraseIdx hv)

/-- C12 evaluated: the state node holds a MODIFIERS child followed by the sounds a
and b, so `getNumSounds()` is 2 and `getSound (0)` is a; `removeSound (0)` removes
the MODIFIERS child (child index 0), after which there are still 2 sounds and
`getSound (0)` is still a. -/
theorem C12_removeSound_removes_other_child :
    demoMixed.getNumSounds = 2 ∧
    demoMixed.getSound 0 = some demoEntry ∧
    (demoMixed.removeSound 0).state = [demoEntry, demoEntryB] ∧
    (demoMixed.removeSound 0).getNumSounds = 2 ∧
    (demoMixed.removeSound 0).getSound 0 = some demoEntry ∧
    (demoMixed.removeSound 0).getSound 1 = some demoEntryB := by
  have hs : (demoMixed.removeSound 0).state = [demoEntry, demoEntryB] := by
    simp [Plugin.removeSound, demoMixed]
  refine ⟨?_, ?_, hs, ?_, ?_, ?_⟩
  · simp [Plugin.getNumSounds, demoMixed, demoEntry, demoEntryB, ValueTree.hasType, IDs.SOUND]
  · simp [Plugin.getSound, getSoundFrom, demoMixed, demoEntry, ValueTree.hasType, IDs.SOUND]
  · simp [Plugin.getNumSounds, hs, demoEntry, demoEntryB, ValueTree.hasType, IDs.SOUND]
  · simp [Plugin.getSound, getSoundFrom, hs, demoEntry, ValueTree.hasType, IDs.SOUND]
  · simp [Plugin.getSound, getSoundFrom, hs, demoEntry, demoEntryB, ValueTree.hasType, IDs.SOUND]

/-! ## C13: the key mask of playNotes -/

theorem releaseKey_released (k hl : BigInteger) (v : SampledNote)
    (h : v.openEnded = false ∧ hl.test v.note = true ∧ k.test v.note = false) :
    releaseKey k hl v = { v with samplesLeftToPlay := minimumSamplesToPlayWhenStopping } := by
  unfold releaseKey
  rw [if_pos]
  simp [h.1, h.2.1, h.2.2]

theorem playNotes_highlighted (ext : Externals) (p : Plugin) (k : BigInteger) :
    (p.playNotes ext k).highlightedNotes = k := by
  unfold Plugin.playNotes
  split
  · rfl
  · rename_i h
    exact not_not.1 h

/-- C13: after `playNotes (K)` the highlighted set is K. When K differs from the
old highlighted set H, a voice that was playing, is not open-ended and whose note
is in H but not in K has its remaining samples set to 8 (and nothing else
changed), and every other voice that was playing is exactly as it was; when K
equals H the pool is not touched at all. -/
theorem C13_playNotes_key_mask (ext : Externals) (p : Plugin) (k : BigInteger) :
    (p.playNotes ext k).highlightedNotes = k ∧
    (p.highlightedNotes = k → (p.playNotes ext k).playingNotes = p.playingNotes) ∧
    ∀ (i : Nat) (v : SampledNote), p.playingNotes.get? i = some v →
    (p.highlightedNotes ≠ k →
      v.openEnded = false ∧ p.highlightedNotes.test v.note = true ∧ k.test v.note = false →
      (p.playNotes ext k).playingNotes.get? i = some { v with samplesLeftToPlay := 8 }) ∧
    (p.highlightedNotes ≠ k →
      ¬ (v.openEnded = false ∧ p.highlightedNotes.test v.note = true ∧ k.test v.note = false) →
      (p.playNotes ext k).playingNotes.get? i = some v) := by
  refine ⟨playNotes_highlighted ext p k, ?_, ?_⟩
  · intro he
    unfold Plugin.playNotes
    rw [if_neg (not_not.2 he)]
  intro i v hv
  have hg := playNotes_get? ext p k i v hv
  refine ⟨?_, ?_⟩
  · intro hne h
    rw [if_pos hne] at hg
    rw [hg, releaseKey_released k p.highlightedNotes v h]
    rfl
  · intro hne h
    rw [if_pos hne] at hg
    rw [hg, releaseKey_other k p.highlightedNotes v]
    by_cases ho : v.openEnded = true
    · exact Or.inl ho
    · right
      intro hc
      exact h ⟨by simpa using ho, hc.1, hc.2⟩

/-- C13 instantiated: the keys 60 and 62 are highlighted and both voices play;
`playNotes` with no key down. -/
theorem C13_playNotes_key_mask_witness :
    demoAfterOn6062.playingNotes.get? 1 = some demoCreated62 ∧
    demoAfterOn6062.highlightedNotes ≠ ∅ ∧
    (demoAfterOn6062.playNotes demoExt ∅).highlightedNotes = ∅ ∧
    (demoAfterOn6062.playNotes demoExt ∅).playingNotes.get? 1
      = some { demoCreated62 with samplesLeftToPlay := 8 } :=
  have hv : demoAfterOn6062.playingNotes.get? 1 = some demoCreated62 := by
    rw [demoAfterOn6062_state.1]; rfl
  have hne : demoAfterOn6062.highlightedNotes ≠ ∅ := by
    rw [demoAfterOn6062_state.2]; decide
  have hrel : demoCreated62.openEnded = false ∧
      demoAfterOn6062.highlightedNotes.test demoCreated62.note = true ∧
      (∅ : BigInteger).test demoCreated62.note = false := by
    rw [demoAfterOn6062_state.2, demoCreated62_fields.1]
    exact ⟨demoCreated62_fields.2.1, by decide, by decide⟩
  ⟨hv, hne, (C13_playNotes_key_mask demoExt demoAfterOn6062 ∅).1,
    ((C13_playNotes_key_mask demoExt demoAfterOn6062 ∅).2.2 1 demoCreated62 hv).1 hne hrel⟩

/-! ## C14: the note range of a rebuilt Sound -/

theorem getSoundFrom_update (l : List ValueTree) (index si sj : Int) (f : ValueTree → ValueTree)
    (hf : ∀ v, (f v).type = v.type) :
    getSoundFrom (updateSoundFrom l index si f) index sj
      = (if sj = si then (getSoundFrom l index sj).map f else getSoundFrom l index sj) := by
  induction l generalizing index with
  | nil => simp [getSoundFrom, updateSoundFrom]
  | cons v rest ih =>
    simp only [updateSoundFrom]
    by_cases hv : v.hasType IDs.SOUND = true
    · rw [if_pos hv]
      by_cases he : index = si
      · rw [if_pos he]
        have hfv : (f v).hasType IDs.SOUND = true := by
          unfold ValueTree.hasType at hv ⊢
          rw [hf v]; exact hv
        simp only [getSoundFrom, if_pos hfv, if_pos hv]
        by_cases hj : sj = si
        · rw [if_pos hj, if_pos (he.trans hj.symm), if_pos (he.trans hj.symm)]
          rfl
        · have hne : ¬ index = sj := fun h => hj (h.symm.trans he)
          rw [if_neg hj, if_neg hne, if_neg hne]
      · rw [if_neg he]
        simp only [getSoundFrom, if_pos hv]
        by_cases hj : index = sj
        · rw [if_pos hj, if_pos hj]
          have : ¬ sj = si := fun h => he (hj.trans h)
          rw [if_neg this]
        · rw [if_neg hj, if_neg hj]
          exact ih (index + 1)
    · rw [if_neg hv]
      simp only [getSoundFrom, if_neg hv]
      exact ih index

theorem setExcerpt_keeps (ext : Externals) (s : SamplerSound) (st len : Rat) :
    (s.setExcerpt ext st len).1.keyNote = s.keyNote ∧
    (s.setExcerpt ext st len).1.minNote = s.minNote ∧
    (s.setExcerpt ext st len).1.maxNote = s.maxNote ∧
    (s.setExcerpt ext st len).1.gainDb = s.gainDb ∧
    (s.setExcerpt ext st len).1.pan = s.pan ∧
    (s.setExcerpt ext st len).1.openEnded = s.openEnded := by
  by_cases hvalid : (resolved ext s).valid = true
  · unfold resolved at hvalid
    simp only [SamplerSound.setExcerpt, if_pos hvalid]
    simp
  · unfold resolved at hvalid
    simp only [SamplerSound.setExcerpt, if_neg hvalid]
    simp

theorem transplant_keeps_params (old : List SamplerSound) (n : SamplerSound) :
    (transplant old n).keyNote = n.keyNote ∧ (transplant old n).minNote = n.minNote ∧
    (transplant old n).maxNote = n.maxNote ∧ (transplant old n).gainDb = n.gainDb ∧
    (transplant old n).pan = n.pan ∧ (transplant old n).openEnded = n.openEnded := by
  unfold transplant
  induction old generalizing n with
  | nil => exact ⟨rfl, rfl, rfl, rfl, rfl, rfl⟩
  | cons s rest ih =>
    simp only [List.foldl_cons]
    split
    · obtain ⟨a, b, c, d, e, f⟩ := ih _
      exact ⟨a, b, c, d, e, f⟩
    · exact ih n

theorem rebuilt_params (ext : Externals) (old : List SamplerSound) (v : ValueTree) :
    (SamplerSound.refreshFile ext (transplant old (buildSound ext v).1)).1.minNote
      = jlimit 0 127 v.minNote ∧
    (SamplerSound.refreshFile ext (transplant old (buildSound ext v).1)).1.maxNote
      = jlimit 0 127 v.maxNote ∧
    (SamplerSound.refreshFile ext (transplant old (buildSound ext v).1)).1.keyNote
      = jlimit 0 127 v.keyNote ∧
    (SamplerSound.refreshFile ext (transplant old (buildSound ext v).1)).1.gainDb
      = jlimit (-48) 48 v.gainDb ∧
    (SamplerSound.refreshFile ext (transplant old (buildSound ext v).1)).1.pan
      = jlimit (-1) 1 v.pan := by
  obtain ⟨a1, a2, a3, a4, a5, _⟩ := setExcerpt_keeps ext
    { transplant old (buildSound ext v).1 with audioFile := AudioFile.none }
    (transplant old (buildSound ext v).1).startTime (transplant old (buildSound ext v).1).length
  obtain ⟨t1, t2, t3, t4, t5, _⟩ := transplant_keeps_params old (buildSound ext v).1
  obtain ⟨s1, s2, s3, s4, s5, _⟩ := setExcerpt_keeps ext
    { source := v.source, name := v.name, gainDb := jlimit (-48) 48 v.gainDb,
      startTime := v.startTime, length := v.length,
      audioFile := ext.findFile v.source, audioData := ext.fresh 2 64 } v.startTime v.length
  refine ⟨?_, ?_, ?_, ?_, ?_⟩
  · exact a2.trans t2
  · exact a3.trans t3
  · exact a1.trans t1
  · exact (a4.trans t4).trans s4
  · exact a5.trans t5

theorem jlimit_int_bounds (lo hi x : Int) (h : lo ≤ hi) :
    lo ≤ jlimit lo hi x ∧ jlimit lo hi x ≤ hi := by
  unfold jlimit
  split
  · exact ⟨le_refl _, h⟩
  · split
    · exact ⟨h, le_refl _⟩
    · constructor <;> omega

theorem jlimit_int_mono (lo hi x y : Int) (h : lo ≤ hi) (hxy : x ≤ y) :
    jlimit lo hi x ≤ jlimit lo hi y := by
  unfold jlimit
  split_ifs <;> omega

theorem get?_map_inv {α β : Type} (f : α → β) (l : List α) (i : Nat) (y : β)
    (h : (l.map f).get? i = some y) : ∃ x, l.get? i = some x ∧ f x = y := by
  rw [List.get?_eq_getElem?, List.getElem?_map] at h
  rw [List.get?_eq_getElem?]
  cases hx : l[i]? with
  | none => rw [hx] at h; simp at h
  | some x =>
    rw [hx] at h
    exact ⟨x, rfl, by simpa using h⟩

/-- C14 refuted as stated: a state entry that stores minNote = 100 and maxNote = 50
gives, after the rebuild, a live Sound with minNote = 100 above maxNote = 50. -/
theorem C14_rebuilt_sound_with_min_above_max :
    demoSwapped.soundEntries.map (fun v => (v.minNote, v.maxNote)) = [(100, 50)] ∧
    (demoSwapped.handleAsyncUpdate demoExt).soundList.map (fun s => (s.minNote, s.maxNote))
      = [(100, 50)] ∧
    ¬ ((100 : Int) ≤ 50) := by
  have he : demoSwapped.soundEntries = [{ demoEntry with minNote := 100, maxNote := 50 }] := by
    simp [Plugin.soundEntries, demoSwapped, demoEntry, ValueTree.hasType]
  obtain ⟨h1, _⟩ := handleAsyncUpdate_soundList demoExt demoSwapped
  obtain ⟨r1, r2, _⟩ := rebuilt_params demoExt demoSwapped.soundList
    { demoEntry with minNote := 100, maxNote := 50 }
  refine ⟨by rw [he]; rfl, ?_, by decide⟩
  rw [h1, he]
  simp only [List.map_cons, List.map_nil, r1, r2]
  decide

/-- C14 amended: after a rebuild every live Sound has minNote and maxNote in
[0, 127], each the clamped stored value, and minNote ≤ maxNote whenever the
stored minNote is at most the stored maxNote; the entry that `setSoundParams`
writes and the entry that `addSound` appends store minNote ≤ maxNote. -/
theorem C14_note_range_after_rebuild (ext : Externals) (p : Plugin)
    (j keyNote minNote maxNote : Int) (source name : String) (startTime length gainDb : Rat) :
    (∀ (i : Nat) (snd : SamplerSound),
      (p.handleAsyncUpdate ext).soundList.get? i = some snd →
      ∃ v, p.soundEntries.get? i = some v ∧
        snd.minNote = jlimit 0 127 v.minNote ∧ snd.maxNote = jlimit 0 127 v.maxNote ∧
        0 ≤ snd.minNote ∧ snd.minNote ≤ 127 ∧ 0 ≤ snd.maxNote ∧ snd.maxNote ≤ 127 ∧
        (v.minNote ≤ v.maxNote → snd.minNote ≤ snd.maxNote)) ∧
    (∀ v, (p.setSoundParams j keyNote minNote maxNote).getSound j = some v →
      v.minNote ≤ v.maxNote) ∧
    (∀ v ∈ (p.addSound source name startTime length gainDb).2.state,
      v ∈ p.state ∨ v.minNote ≤ v.maxNote) := by
  refine ⟨?_, ?_, ?_⟩
  · intro i snd h
    rw [(handleAsyncUpdate_soundList ext p).1] at h
    obtain ⟨v, hv, rfl⟩ := get?_map_inv _ _ _ _ h
    obtain ⟨r1, r2, _⟩ := rebuilt_params ext p.soundList v
    obtain ⟨b1, b2⟩ := jlimit_int_bounds 0 127 v.minNote (by decide)
    obtain ⟨c1, c2⟩ := jlimit_int_bounds 0 127 v.maxNote (by decide)
    refine ⟨v, hv, r1, r2, ?_, ?_, ?_, ?_, ?_⟩
    · rw [r1]; exact b1
    · rw [r1]; exact b2
    · rw [r2]; exact c1
    · rw [r2]; exact c2
    · intro hle
      rw [r1, r2]
      exact jlimit_int_mono 0 127 _ _ (by decide) hle
  · intro v hv
    unfold Plugin.setSoundParams Plugin.getSound at hv
    dsimp only at hv
    rw [getSoundFrom_update, if_pos rfl] at hv
    · cases hg : getSoundFrom p.state 0 j with
      | none => rw [hg] at hv; simp at hv
      | some w =>
        rw [hg] at hv
        simp only [Option.map_some', Option.some.injEq] at hv
        subst hv
        exact jlimit_int_mono 0 127 _ _ (by decide)
          (le_trans (min_le_left _ _) (le_max_left _ _))
    · intro _; rfl
  · intro v hv
    obtain ⟨_, h2, _⟩ := addSound_spec p source name startTime length gainDb
    rw [h2] at hv
    split at hv
    · exact Or.inl hv
    · rcases List.mem_append.1 hv with h | h
      · exact Or.inl h
      · right
        rw [List.mem_singleton] at h
        subst h
        show (48 : Int) ≤ 96
        decide

/-- C14 (amended) instantiated: the one Sound that the rebuild of `demoStored`
builds from `demoEntry`. -/
theorem C14_note_range_after_rebuild_witness :
    ∃ snd v, (demoStored.handleAsyncUpdate demoMediaExt).soundList.get? 0 = some snd ∧
      demoStored.soundEntries.get? 0 = some v ∧ v.minNote ≤ v.maxNote ∧
      0 ≤ snd.minNote ∧ snd.minNote ≤ snd.maxNote ∧ snd.maxNote ≤ 127 :=
  have hl := (handleAsyncUpdate_soundList demoMediaExt demoStored).1
  have hg : (demoStored.handleAsyncUpdate demoMediaExt).soundList.get? 0
      = some (SamplerSound.refreshFile demoMediaExt
          (transplant demoStored.soundList (buildSound demoMediaExt demoEntry).1)).1 := by
    rw [hl, demoStored_entries]; rfl
  let ⟨v, hv, _, _, h0, _, _, h127, hord⟩ :=
    (C14_note_range_after_rebuild demoMediaExt demoStored 0 0 0 0 "" "" 0 0 0).1 0 _ hg
  have hv2 : v = demoEntry := by
    rw [demoStored_entries] at hv
    exact (Option.some.inj hv).symm
  have hle : v.minNote ≤ v.maxNote := by rw [hv2]; decide
  ⟨_, v, hg, hv, hle, h0, hord hle, h127⟩

/-! ## C15: the reported gain and pan -/

theorem setSoundGains_getSound (p : Plugin) (index sj : Int) (g pn : Rat) :
    (p.setSoundGains index g pn).getSound sj
      = (if sj = index then
          (p.getSound sj).map (fun v =>
            { v with gainDb := jlimit (-48) 48 g, pan := jlimit (-1) 1 pn })
         else p.getSound sj) := by
  unfold Plugin.setSoundGains Plugin.getSound
  dsimp only
  rw [getSoundFrom_update]
  intro _; rfl

theorem setSoundGainsMany_inv (updates : List (Int × Rat × Rat)) (p : Plugin) (j : Int)
    (v : ValueTree) (hv : p.getSound j = some v) (hpan : -1 ≤ v.pan ∧ v.pan ≤ 1) :
    ∃ w, (p.setSoundGainsMany updates).getSound j = some w ∧
      (-1 ≤ w.pan ∧ w.pan ≤ 1) ∧
      (((∃ u ∈ updates, u.1 = j) ∨ (-48 ≤ v.gainDb ∧ v.gainDb ≤ 48)) →
        -48 ≤ w.gainDb ∧ w.gainDb ≤ 48) ∧
      ((∀ u ∈ updates, u.1 ≠ j) → w = v) := by
  induction updates generalizing p v with
  | nil =>
    refine ⟨v, hv, hpan, ?_, fun _ => rfl⟩
    intro h
    rcases h with ⟨u, hu, _⟩ | h
    · simp at hu
    · exact h
  | cons u rest ih =>
    have hstep := setSoundGains_getSound p u.1 j u.2.1 u.2.2
    by_cases hj : j = u.1
    · rw [if_pos hj, hv] at hstep
      obtain ⟨g1, g2⟩ := jlimit_bounds (-48) 48 u.2.1 (by norm_num)
      obtain ⟨p1, p2⟩ := jlimit_bounds (-1) 1 u.2.2 (by norm_num)
      obtain ⟨w, hw, hwp, hwg, _⟩ := ih (p.setSoundGains u.1 u.2.1 u.2.2) _ hstep ⟨p1, p2⟩
      refine ⟨w, hw, hwp, fun _ => hwg (Or.inr ⟨g1, g2⟩), ?_⟩
      intro hall
      exact absurd hj.symm (hall u (List.mem_cons_self _ _))
    · rw [if_neg hj, hv] at hstep
      obtain ⟨w, hw, hwp, hwg, hwe⟩ := ih (p.setSoundGains u.1 u.2.1 u.2.2) v hstep hpan
      refine ⟨w, hw, hwp, ?_, ?_⟩
      · intro h
        apply hwg
        rcases h with ⟨u', hu', he⟩ | h
        · rcases List.mem_cons.1 hu' with rfl | hu'
          · exact absurd he.symm hj
          · exact Or.inl ⟨u', hu', he⟩
        · exact Or.inr h
      · intro hall
        exact hwe (fun u' hu' => hall u' (List.mem_cons_of_mem _ hu'))

theorem addSound_getSound (p : Plugin) (source name : String) (startTime length gainDb : Rat)
    (hcap : p.getNumSounds < 64) :
    (p.addSound source name startTime length gainDb).2.getSound p.getNumSounds
      = some { type := IDs.SOUND, source := source, name := name, startTime := startTime,
               length := length, keyNote := 72, minNote := 48, maxNote := 96,
               gainDb := gainDb, pan := 0 } := by
  obtain ⟨-, a2, -⟩ := addSound_spec p source name startTime length gainDb
  rw [if_neg (by omega)] at a2
  rw [← soundEntries_length, getSound_eq]
  unfold Plugin.soundEntries
  rw [a2, List.filter_append, List.get?_eq_getElem?, List.getElem?_append_right (le_refl _)]
  simp [ValueTree.hasType]

/-- For finite gain and pan values (the exact rationals of this embedding; a NaN
argument, which `juce::jlimit` returns unchanged, is not represented): for a sound
created by `addSound` and any sequence of `setSoundGains` calls afterwards, the
reported pan lies in [-1, 1]; the reported gain lies in [-48, 48] once
`setSoundGains` has been applied to that sound at least once, or when the gainDb
given to `addSound` was itself in [-48, 48], and with no such call it is the
gainDb given to `addSound`. The gain and pan of every live Sound after a rebuild
lie in [-48, 48] and [-1, 1]. -/
theorem addSound_setSoundGains_range (ext : Externals) (p : Plugin) (source name : String)
    (startTime length gainDb : Rat) (updates : List (Int × Rat × Rat))
    (hcap : p.getNumSounds < 64) :
    (-1 ≤ ((p.addSound source name startTime length gainDb).2.setSoundGainsMany
        updates).getSoundPan p.getNumSounds ∧
     ((p.addSound source name startTime length gainDb).2.setSoundGainsMany
        updates).getSoundPan p.getNumSounds ≤ 1) ∧
    (((∃ u ∈ updates, u.1 = p.getNumSounds) ∨ (-48 ≤ gainDb ∧ gainDb ≤ 48)) →
      -48 ≤ ((p.addSound source name startTime length gainDb).2.setSoundGainsMany
        updates).getSoundGainDb p.getNumSounds ∧
      ((p.addSound source name startTime length gainDb).2.setSoundGainsMany
        updates).getSoundGainDb p.getNumSounds ≤ 48) ∧
    ((∀ u ∈ updates, u.1 ≠ p.getNumSounds) →
      ((p.addSound source name startTime length gainDb).2.setSoundGainsMany
        updates).getSoundGainDb p.getNumSounds = gainDb) ∧
    (∀ (i : Nat) (snd : SamplerSound),
      (p.handleAsyncUpdate ext).soundList.get? i = some snd →
      (-48 ≤ snd.gainDb ∧ snd.gainDb ≤ 48) ∧ (-1 ≤ snd.pan ∧ snd.pan ≤ 1)) := by
  have hadd := addSound_getSound p source name startTime length gainDb hcap
  obtain ⟨w, hw, hwp, hwg, hwe⟩ := setSoundGainsMany_inv updates
    (p.addSound source name startTime length gainDb).2 p.getNumSounds _ hadd
    ⟨by norm_num, by norm_num⟩
  have hpan : ((p.addSound source name startTime length gainDb).2.setSoundGainsMany
      updates).getSoundPan p.getNumSounds = w.pan := by
    unfold Plugin.getSoundPan; rw [hw]; rfl
  have hgain : ((p.addSound source name startTime length gainDb).2.setSoundGainsMany
      updates).getSoundGainDb p.getNumSounds = w.gainDb := by
    unfold Plugin.getSoundGainDb; rw [hw]; rfl
  refine ⟨by rw [hpan]; exact hwp, ?_, ?_, ?_⟩
  · intro h
    rw [hgain]
    exact hwg h
  · intro h
    rw [hgain, hwe h]
  · intro i snd h
    rw [(handleAsyncUpdate_soundList ext p).1] at h
    obtain ⟨v, _, rfl⟩ := get?_map_inv _ _ _ _ h
    obtain ⟨_, _, _, r4, r5⟩ := rebuilt_params ext p.soundList v
    rw [r4, r5]
    exact ⟨jlimit_bounds _ _ _ (by norm_num), jlimit_bounds _ _ _ (by norm_num)⟩

/-- C15 evaluated: a sound added by `addSound` with gainDb = 100 and never passed
to `setSoundGains` (zero updates) is reported with the gain 100, outside
[-48, 48]: `addSound` stores the value as given. The other two writers clamp the
same value: after `setSoundGains (0, 100, 0)` the reported gain is 48, and the
live Sound that the rebuild constructs from the entry has the gain 48, while the
sampler goes on reporting 100 for it. -/
theorem C15_addSound_stores_gain_unclamped :
    ((({} : Plugin).addSound "a.wav" "a" 0 0 100).2.setSoundGainsMany []).getSoundGainDb 0 = 100 ∧
    ¬ ((100 : Rat) ≤ 48) ∧
    ((({} : Plugin).addSound "a.wav" "a" 0 0 100).2.setSoundGainsMany
      [(0, 100, 0)]).getSoundGainDb 0 = 48 ∧
    ((({} : Plugin).addSound "a.wav" "a" 0 0 100).2.handleAsyncUpdate demoExt).soundList.map
      (fun s => s.gainDb) = [48] ∧
    ((({} : Plugin).addSound "a.wav" "a" 0 0 100).2.handleAsyncUpdate demoExt).getSoundGainDb 0
      = 100 := by
  have h := addSound_getSound {} "a.wav" "a" 0 0 100 (by decide)
  have h0 : ({} : Plugin).getNumSounds = 0 := by decide
  rw [h0] at h
  have hst : (({} : Plugin).addSound "a.wav" "a" 0 0 100).2.state
      = [{ type := IDs.SOUND, source := "a.wav", name := "a", startTime := 0,
           length := 0, keyNote := 72, minNote := 48, maxNote := 96,
           gainDb := 100, pan := 0 }] := by
    obtain ⟨-, a2, -⟩ := addSound_spec {} "a.wav" "a" 0 0 100
    rw [if_neg (by rw [h0]; decide)] at a2
    rw [a2]
    rfl
  have hc : jlimit (-48 : Rat) 48 100 = 48 := by
    simp only [jlimit]; norm_num
  refine ⟨?_, by norm_num, ?_, ?_, ?_⟩
  · unfold Plugin.setSoundGainsMany Plugin.getSoundGainDb
    rw [List.foldl_nil, h]
    rfl
  · have hs := setSoundGains_getSound (({} : Plugin).addSound "a.wav" "a" 0 0 100).2 0 0 100 0
    rw [if_pos rfl, h] at hs
    unfold Plugin.setSoundGainsMany Plugin.getSoundGainDb
    simp only [List.foldl_cons, List.foldl_nil]
    rw [hs]
    simp only [Option.map_some', Option.getD_some]
    exact hc
  · obtain ⟨h1, _⟩ := handleAsyncUpdate_soundList demoExt
      (({} : Plugin).addSound "a.wav" "a" 0 0 100).2
    have he : (({} : Plugin).addSound "a.wav" "a" 0 0 100).2.soundEntries
        = [{ type := IDs.SOUND, source := "a.wav", name := "a", startTime := 0,
             length := 0, keyNote := 72, minNote := 48, maxNote := 96,
             gainDb := 100, pan := 0 }] := by
      unfold Plugin.soundEntries
      rw [hst]
      simp [ValueTree.hasType]
    rw [h1, he]
    simp only [List.map_cons, List.map_nil]
    rw [(rebuilt_params demoExt _ _).2.2.2.1]
    exact congrArg (fun x => [x]) hc
  · obtain ⟨_, h2⟩ := handleAsyncUpdate_soundList demoExt
      (({} : Plugin).addSound "a.wav" "a" 0 0 100).2
    have hg : ∀ q r : Plugin, q.state = r.state → q.getSound 0 = r.getSound 0 := by
      intro q r e
      unfold Plugin.getSound
      rw [e]
    unfold Plugin.getSoundGainDb
    rw [hg _ _ h2, h]
    rfl

/-! ## C16: setExcerpt when the source does not resolve -/

theorem setExcerpt_unresolved (ext : Externals) (s : SamplerSound) (st len : Rat)
    (h : (resolved ext s).valid = false) :
    (s.setExcerpt ext st len).1 = { s with audioFile := AudioFile.none } ∧
    (s.setExcerpt ext st len).2 = 0 := by
  unfold resolved at h
  have h2 : ¬ (if ¬ s.audioFile.valid = true then ext.findFile s.source else s.audioFile).valid
      = true := by
    rw [h]; decide
  simp only [SamplerSound.setExcerpt, if_neg h2]
  simp

/-- C16 evaluated: the resolver finds no valid file for "gone.wav"; `refreshFile`
(and `setExcerpt`) on a Sound that holds decoded audio with a first sample of
1/2 leaves that buffer exactly as it was, not cleared, and a later note-on for a
note in its range still allocates a voice over it. -/
theorem C16_unresolved_source_keeps_buffer :
    (demoExt.findFile demoLoud.source).valid = false ∧
    (demoLoud.refreshFile demoExt).1.audioData = ⟨[(1 / 2) :: List.replicate 63 0]⟩ ∧
    (demoLoud.setExcerpt demoExt 0 0).1.audioData = ⟨[(1 / 2) :: List.replicate 63 0]⟩ ∧
    (demoLoud.refreshFile demoExt).1.audioData ≠ (demoLoud.refreshFile demoExt).1.audioData.clear ∧
    (({ soundList := [(demoLoud.refreshFile demoExt).1], sampleRate := 48000 } :
        Plugin).handleNoteOnMessage demoExt noteOn60).playingNotes.length = 1 := by
  have hr1 : (resolved demoExt { demoLoud with audioFile := AudioFile.none }).valid = false := by
    simp [resolved, AudioFile.none, demoExt]
  have hr2 : (resolved demoExt demoLoud).valid = false := by
    simp [resolved, demoLoud, demoExt]
  have e1 : (demoLoud.refreshFile demoExt).1
      = { demoLoud with audioFile := AudioFile.none } :=
    (setExcerpt_unresolved demoExt _ _ _ hr1).1
  have e2 := (setExcerpt_unresolved demoExt demoLoud 0 0 hr2).1
  have hdata : (demoLoud.refreshFile demoExt).1.audioData
      = ⟨[(1 / 2) :: List.replicate 63 0]⟩ := by rw [e1]; rfl
  refine ⟨rfl, hdata, by rw [e2]; rfl, ?_, ?_⟩
  · rw [hdata]
    simp [AudioBuffer.clear]
  · have hn : (demoLoud.refreshFile demoExt).1.audioData.getNumSamples = 64 := by
      rw [hdata]; simp [AudioBuffer.getNumSamples]
    obtain ⟨h1, _⟩ := handleNoteOn_single demoExt
      ({ soundList := [(demoLoud.refreshFile demoExt).1], sampleRate := 48000 } : Plugin)
      noteOn60 (demoLoud.refreshFile demoExt).1 rfl
      (by rw [e1]; decide) (by rw [e1]; decide) (by rw [hn]; decide) (by decide)
    rw [h1]
    rfl

/-! ## C17: the voice created at the key note -/

theorem truncToInt_intCast (n : Int) : truncToInt (n : Rat) = n := by
  unfold truncToInt
  split
  · exact Int.floor_intCast n
  · exact Int.ceil_intCast n

theorem createNote_key_note (ext : Externals) (keyNote : Int) (velocity : Rat)
    (file : AudioFile) (sR : Rat) (delay : Int) (data : AudioBuffer) (lengthInSamples : Int)
    (gainDb pan : Rat) (openEnded : Bool)
    (hhz : ext.getMidiNoteInHertz keyNote ≠ 0) (hsr : file.sampleRate = sR) (hsr0 : sR ≠ 0) :
    (createNote ext keyNote keyNote velocity file sR delay data lengthInSamples gainDb pan
      openEnded).playbackRatio = 1 ∧
    (createNote ext keyNote keyNote velocity file sR delay data lengthInSamples gainDb pan
      openEnded).samplesLeftToPlay = lengthInSamples + 1 := by
  have hratio : ext.getMidiNoteInHertz keyNote / ext.getMidiNoteInHertz keyNote
      * (file.sampleRate / sR) = 1 := by
    rw [hsr, div_self hhz, div_self hsr0, one_mul]
  simp only [createNote, hratio]
  refine ⟨trivial, ?_⟩
  rw [if_pos (by norm_num), div_one, truncToInt_intCast]
  ring

theorem noteOn_fold_added (ext : Externals) (m : MidiMessageWithSource) (sr : Rat)
    (sounds : List SamplerSound) (acc : List SampledNote × BigInteger) :
    ∃ added : List SampledNote,
      (sounds.foldl (noteOnStep ext m sr) acc).1 = acc.1 ++ added ∧
      ∀ v ∈ added, ∃ ss ∈ sounds,
        v = createNote ext m.noteNumber ss.keyNote (m.velocity / 127) ss.audioFile sr
              (ext.roundToInt (m.timeStamp * sr)) ss.audioData ss.fileLengthSamples
              ss.gainDb ss.pan ss.openEnded := by
  induction sounds generalizing acc with
  | nil => exact ⟨[], by simp, by simp⟩
  | cons ss rest ih =>
    simp only [List.foldl_cons]
    obtain ⟨added, h1, h2⟩ := ih (noteOnStep ext m sr acc ss)
    by_cases hc : ss.minNote ≤ m.noteNumber ∧ ss.maxNote ≥ m.noteNumber
        ∧ ss.audioData.getNumSamples > 0 ∧ acc.1.length < maximumSimultaneousNotes
    · obtain ⟨nv, hnv, hstep⟩ : ∃ nv : SampledNote,
          nv = createNote ext m.noteNumber ss.keyNote (m.velocity / 127) ss.audioFile sr
              (ext.roundToInt (m.timeStamp * sr)) ss.audioData ss.fileLengthSamples
              ss.gainDb ss.pan ss.openEnded ∧
          (noteOnStep ext m sr acc ss).1 = acc.1 ++ [nv] :=
        ⟨createNote ext m.noteNumber ss.keyNote (m.velocity / 127) ss.audioFile sr
              (ext.roundToInt (m.timeStamp * sr)) ss.audioData ss.fileLengthSamples
              ss.gainDb ss.pan ss.openEnded, rfl, by simp only [noteOnStep, if_pos hc]⟩
      refine ⟨nv :: added, ?_, ?_⟩
      · rw [h1, hstep, List.append_assoc]; rfl
      · intro v hv
        rcases List.mem_cons.1 hv with rfl | hv
        · exact ⟨ss, List.mem_cons_self _ _, hnv⟩
        · obtain ⟨s2, hs2, e⟩ := h2 v hv
          exact ⟨s2, List.mem_cons_of_mem _ hs2, e⟩
    · have hstep : noteOnStep ext m sr acc ss = acc := by
        simp only [noteOnStep, if_neg hc]
      rw [hstep] at h1 ⊢
      refine ⟨added, h1, ?_⟩
      intro v hv
      obtain ⟨s2, hs2, e⟩ := h2 v hv
      exact ⟨s2, List.mem_cons_of_mem _ hs2, e⟩

theorem noteOn_fold_eq (ext : Externals) (m : MidiMessageWithSource) (sr : Rat)
    (sounds : List SamplerSound) (acc : List SampledNote × BigInteger) :
    (sounds.foldl (noteOnStep ext m sr) acc).1
      = acc.1 ++ ((sounds.filter (qualifies m.noteNumber)).take
            (maximumSimultaneousNotes - acc.1.length)).map
          (fun ss => createNote ext m.noteNumber ss.keyNote (m.velocity / 127) ss.audioFile sr
              (ext.roundToInt (m.timeStamp * sr)) ss.audioData ss.fileLengthSamples
              ss.gainDb ss.pan ss.openEnded) := by
  induction sounds generalizing acc with
  | nil => simp
  | cons ss rest ih =>
    simp only [List.foldl_cons]
    rw [ih]
    by_cases hq : qualifies m.noteNumber ss = true
    · have hq2 := hq
      simp only [qualifies, Bool.and_eq_true, decide_eq_true_eq] at hq2
      rw [List.filter_cons_of_pos hq]
      by_cases hroom : acc.1.length < maximumSimultaneousNotes
      · have hc : ss.minNote ≤ m.noteNumber ∧ ss.maxNote ≥ m.noteNumber
            ∧ ss.audioData.getNumSamples > 0 ∧ acc.1.length < maximumSimultaneousNotes :=
          ⟨hq2.1.1, hq2.1.2, hq2.2, hroom⟩
        obtain ⟨k, hk⟩ : ∃ k, maximumSimultaneousNotes - acc.1.length = k + 1 :=
          ⟨maximumSimultaneousNotes - acc.1.length - 1, by omega⟩
        simp only [noteOnStep, if_pos hc, List.length_append, List.length_singleton]
        have hk2 : maximumSimultaneousNotes - (acc.1.length + 1) = k := by omega
        rw [hk, hk2, List.take_succ_cons, List.map_cons, List.append_assoc]
        rfl
      · have hc : ¬ (ss.minNote ≤ m.noteNumber ∧ ss.maxNote ≥ m.noteNumber
            ∧ ss.audioData.getNumSamples > 0 ∧ acc.1.length < maximumSimultaneousNotes) :=
          fun h => hroom h.2.2.2
        have h0 : maximumSimultaneousNotes - acc.1.length = 0 := by omega
        simp only [noteOnStep, if_neg hc, h0, List.take_zero]
    · have hc : ¬ (ss.minNote ≤ m.noteNumber ∧ ss.maxNote ≥ m.noteNumber
          ∧ ss.audioData.getNumSamples > 0 ∧ acc.1.length < maximumSimultaneousNotes) := by
        intro h
        apply hq
        simp [qualifies, h.1, h.2.1, h.2.2.1]
      rw [List.filter_cons_of_neg hq]
      simp only [noteOnStep, if_neg hc]

theorem handleNoteOn_playingNotes (ext : Externals) (p : Plugin) (m : MidiMessageWithSource) :
    (p.handleNoteOnMessage ext m).playingNotes
      = p.playingNotes.map
          (p.stopVoice m.noteNumber (ext.roundToInt (m.timeStamp * p.sampleRate)))
        ++ (p.triggeringSounds m.noteNumber).map (p.voiceFor ext m) := by
  simp only [Plugin.handleNoteOnMessage]
  rw [noteOn_fold_eq]
  simp only [Plugin.handleOngoingNote, List.length_map]
  rfl

/-- C17: a note-on appends to the pool exactly one voice for each triggering Sound
(the Sounds whose range covers the note and whose buffer is not empty, in library
order, as far as the pool has room), and the voice created for the Sound ss is
the one constructed from the members of ss. That voice has initial offset minus
the event's intra-block sample time (0 for an event at time 0, the rounding of 0
being 0) and plays the buffer of ss; when the note is the key note of ss and the
file's sample rate equals the engine's (non-zero) sample rate, its playback ratio
is exactly 1 and its remaining samples start at lengthInSamples + 1. -/
theorem C17_key_note_voice (ext : Externals) (p : Plugin) (m : MidiMessageWithSource) :
    (p.handleNoteOnMessage ext m).playingNotes
      = p.playingNotes.map
          (p.stopVoice m.noteNumber (ext.roundToInt (m.timeStamp * p.sampleRate)))
        ++ (p.triggeringSounds m.noteNumber).map (p.voiceFor ext m) ∧
    p.triggeringSounds m.noteNumber
      = (p.soundList.filter (fun ss => decide (ss.minNote ≤ m.noteNumber)
            && decide (m.noteNumber ≤ ss.maxNote)
            && decide (ss.audioData.getNumSamples > 0))).take (32 - p.playingNotes.length) ∧
    ∀ ss : SamplerSound,
      (p.voiceFor ext m ss).offset = - ext.roundToInt (m.timeStamp * p.sampleRate) ∧
      (m.timeStamp = 0 → ext.roundToInt 0 = 0 → (p.voiceFor ext m ss).offset = 0) ∧
      (p.voiceFor ext m ss).audioData = ss.audioData ∧
      (p.voiceFor ext m ss).note = m.noteNumber ∧
      (p.voiceFor ext m ss).playbackRatio
        = ext.getMidiNoteInHertz m.noteNumber / ext.getMidiNoteInHertz ss.keyNote
            * (ss.audioFile.sampleRate / p.sampleRate) ∧
      (m.noteNumber = ss.keyNote → ss.audioFile.sampleRate = p.sampleRate →
        p.sampleRate ≠ 0 → ext.getMidiNoteInHertz ss.keyNote ≠ 0 →
        (p.voiceFor ext m ss).playbackRatio = 1 ∧
        (p.voiceFor ext m ss).samplesLeftToPlay = ss.fileLengthSamples + 1) := by
  refine ⟨handleNoteOn_playingNotes ext p m, rfl, ?_⟩
  intro ss
  refine ⟨rfl, ?_, rfl, rfl, rfl, ?_⟩
  · intro ht h0
    show - ext.roundToInt (m.timeStamp * p.sampleRate) = 0
    rw [ht, zero_mul, h0]
    rfl
  · intro hk hfs hs0 hhz
    unfold Plugin.voiceFor
    rw [hk]
    exact createNote_key_note ext ss.keyNote _ ss.audioFile p.sampleRate _ _ _ _ _ _ hhz hfs hs0

/-- C17 instantiated: engine at 48000 Hz, one Sound spanning 48 to 96 with key note
72 over a two-second excerpt (96000 samples) of a 48000 Hz file, note-on 72 at
block-relative sample 0: one voice, offset 0, ratio 1, 96001 samples to play. -/
theorem C17_key_note_voice_witness :
    ∃ v, (demoPlugin2s.handleNoteOnMessage demoExt noteOn72).playingNotes = [v] ∧
      v.offset = 0 ∧ v.playbackRatio = 1 ∧ v.samplesLeftToPlay = 96001 := by
  have hn : demoSound2s.audioData.getNumSamples = 96032 := by
    show (((List.replicate 96032 (0 : Rat)).length : Nat) : Int) = 96032
    rw [List.length_replicate]
    rfl
  obtain ⟨a1, a2, a3⟩ := C17_key_note_voice demoExt demoPlugin2s noteOn72
  have hq : qualifies noteOn72.noteNumber demoSound2s = true := by
    simp only [qualifies, hn]
    decide
  have htrig : demoPlugin2s.triggeringSounds noteOn72.noteNumber = [demoSound2s] := by
    show (List.filter (qualifies noteOn72.noteNumber) [demoSound2s]).take (32 - 0) = [demoSound2s]
    rw [List.filter_cons_of_pos hq]
    rfl
  obtain ⟨_, o2, _, _, _, o3⟩ := a3 demoSound2s
  have h0 : demoExt.roundToInt 0 = 0 := by
    have := demoExt_round_zero 0
    simpa using this
  obtain ⟨r1, r2⟩ := o3 rfl rfl (by simp [demoPlugin2s]) (by simp [demoExt])
  refine ⟨demoPlugin2s.voiceFor demoExt noteOn72 demoSound2s, ?_, o2 rfl h0, r1, ?_⟩
  · rw [a1, htrig]
    rfl
  · rw [r2]
    rfl

/-- Two Sounds over the same buffer with key notes 72 and 60, note-on 72: two
voices in library order over equal buffers, the first (key note 72) with ratio 1
and 96001 samples to play, the second (key note 60) with ratio 2 and 48001
samples to play. -/
theorem demoPluginTwoKeys_voices :
    ∃ v w, (demoPluginTwoKeys.handleNoteOnMessage demoPitchExt noteOn72).playingNotes = [v, w] ∧
      v.audioData = w.audioData ∧
      v.playbackRatio = 1 ∧ v.samplesLeftToPlay = 96001 ∧
      w.playbackRatio = 2 ∧ w.samplesLeftToPlay = 48001 := by
  have hn : demoSound2s.audioData.getNumSamples = 96032 := by
    show (((List.replicate 96032 (0 : Rat)).length : Nat) : Int) = 96032
    rw [List.length_replicate]
    rfl
  have hq : qualifies noteOn72.noteNumber demoSound2s = true := by
    simp only [qualifies, hn]
    decide
  have hq2 : qualifies noteOn72.noteNumber { demoSound2s with keyNote := 60 } = true := hq
  have htrig : demoPluginTwoKeys.triggeringSounds noteOn72.noteNumber
      = [demoSound2s, { demoSound2s with keyNote := 60 }] := by
    show (List.filter (qualifies noteOn72.noteNumber)
      [demoSound2s, { demoSound2s with keyNote := 60 }]).take (32 - 0) = _
    rw [List.filter_cons_of_pos hq, List.filter_cons_of_pos hq2]
    rfl
  obtain ⟨r1, r2⟩ := createNote_key_note demoPitchExt 72 (noteOn72.velocity / 127)
    demoSound2s.audioFile 48000 (demoPitchExt.roundToInt (noteOn72.timeStamp * 48000))
    demoSound2s.audioData 96000 demoSound2s.gainDb demoSound2s.pan demoSound2s.openEnded
    (by simp [demoPitchExt]) rfl (by norm_num)
  have hratio : demoPitchExt.getMidiNoteInHertz 72 / demoPitchExt.getMidiNoteInHertz 60
      * (demoFile.sampleRate / 48000) = 2 := by
    simp only [demoPitchExt, demoFile]
    norm_num
  have hw : ∀ (velocity : Rat) (delay : Int) (data : AudioBuffer) (g pn : Rat) (oe : Bool),
      (createNote demoPitchExt 72 60 velocity demoFile 48000 delay data 96000 g pn oe).playbackRatio
        = 2 ∧
      (createNote demoPitchExt 72 60 velocity demoFile 48000 delay data 96000 g pn
        oe).samplesLeftToPlay = 48001 := by
    intro velocity delay data g pn oe
    simp only [createNote, hratio]
    refine ⟨trivial, ?_⟩
    rw [if_pos (by norm_num)]
    have h2 : (((96000 : Int) : Rat)) / 2 = ((48000 : Int) : Rat) := by norm_num
    rw [h2, truncToInt_intCast]
    rfl
  obtain ⟨w1, w2⟩ := hw (noteOn72.velocity / 127)
    (demoPitchExt.roundToInt (noteOn72.timeStamp * 48000)) demoSound2s.audioData
    demoSound2s.gainDb demoSound2s.pan demoSound2s.openEnded
  refine ⟨demoPluginTwoKeys.voiceFor demoPitchExt noteOn72 demoSound2s,
    demoPluginTwoKeys.voiceFor demoPitchExt noteOn72 { demoSound2s with keyNote := 60 }, ?_, rfl,
    r1, r2, w1, w2⟩
  rw [handleNoteOn_playingNotes, htrig]
  rfl

/-! ## C19: the render loop of applyToBuffer -/

theorem get?_at_length {α : Type} (a b : List α) (x : α) :
    (a ++ x :: b).get? a.length = some x := by
  induction a with
  | nil => rfl
  | cons y a ih => simpa using ih

theorem set_at_length {α : Type} (a b : List α) (x y : α) :
    (a ++ x :: b).set a.length y = a ++ y :: b := by
  induction a with
  | nil => rfl
  | cons z a ih => simp [ih]

theorem eraseIdx_at_length {α : Type} (a b : List α) (x : α) :
    (a ++ x :: b).eraseIdx a.length = a ++ b := by
  induction a with
  | nil => rfl
  | cons z a ih => simp [ih]

theorem renderLoop_prefix (oracle : Nat → Int × Int) (oc st n : Int) (a : List SampledNote) :
    ∀ b : List SampledNote,
      renderLoop oracle oc st n a.length (a ++ b)
        = (renderEach oracle oc st n a).filter (fun sn => ! sn.isFinished) ++ b := by
  induction a using List.reverseRecOn with
  | nil =>
    intro b
    simp [renderLoop, renderEach]
  | append_singleton a x ih =>
    intro b
    have hlen : (a ++ [x]).length = a.length + 1 := by simp
    rw [hlen, List.append_assoc, List.singleton_append]
    simp only [renderLoop, get?_at_length, set_at_length, eraseIdx_at_length]
    have hre : renderEach oracle oc st n (a ++ [x])
        = renderEach oracle oc st n a
          ++ [(x.addNextBlock oc (oracle a.length).1 (oracle a.length).2 st n).1] := by
      simp [renderEach, List.enum_append]
    rw [hre, List.filter_append]
    by_cases hf : (x.addNextBlock oc (oracle a.length).1 (oracle a.length).2 st n).1.isFinished
        = true
    · rw [if_pos hf, ih b]
      simp [hf]
    · rw [if_neg hf, ih]
      simp [hf]

theorem renderEach_get? (oracle : Nat → Int × Int) (oc st n : Int) (pool : List SampledNote)
    (i : Nat) (sn : SampledNote) (h : pool.get? i = some sn) :
    (renderEach oracle oc st n pool).get? i
      = some (sn.addNextBlock oc (oracle i).1 (oracle i).2 st n).1 := by
  have hi : i < pool.length := by
    by_contra hc
    rw [List.get?_eq_none.2 (by omega)] at h
    exact absurd h (by simp)
  have hx : pool[i] = sn := by
    rw [List.get?_eq_getElem?, List.getElem?_eq_getElem hi] at h
    exact Option.some.inj h
  unfold renderEach
  rw [List.get?_eq_getElem?, List.getElem?_map, List.getElem?_eq_getElem (by simpa using hi)]
  simp [hx]

/-- C19: in an `applyToBuffer` call with a destination buffer, every voice of the
pool as it is after the MIDI dispatch is rendered exactly once (the voice at index
i by one `addNextBlock` call), and the pool afterwards consists of exactly the
rendered voices whose `isFinished` is false, in their original order. -/
theorem C19_render_loop_retires_finished (ext : Externals) (oracle : Nat → Int × Int)
    (p : Plugin) (fc : PluginRenderContext) (oc : Int) (hdest : fc.destChannels = some oc) :
    (p.applyToBuffer ext oracle fc).playingNotes
      = (renderEach oracle oc fc.bufferStartSample fc.bufferNumSamples
          (p.afterMidi ext fc).playingNotes).filter (fun sn => ! sn.isFinished) ∧
    (renderEach oracle oc fc.bufferStartSample fc.bufferNumSamples
        (p.afterMidi ext fc).playingNotes).length = (p.afterMidi ext fc).playingNotes.length ∧
    (∀ (i : Nat) (sn : SampledNote), (p.afterMidi ext fc).playingNotes.get? i = some sn →
      (renderEach oracle oc fc.bufferStartSample fc.bufferNumSamples
          (p.afterMidi ext fc).playingNotes).get? i
        = some (sn.addNextBlock oc (oracle i).1 (oracle i).2 fc.bufferStartSample
            fc.bufferNumSamples).1) := by
  refine ⟨?_, by simp [renderEach], fun i sn h => renderEach_get? _ _ _ _ _ i sn h⟩
  have hloop := renderLoop_prefix oracle oc fc.bufferStartSample fc.bufferNumSamples
    (p.afterMidi ext fc).playingNotes []
  rw [List.append_nil, List.append_nil] at hloop
  rw [← hloop]
  unfold Plugin.applyToBuffer Plugin.afterMidi
  rw [hdest]

/-- C19 instantiated: the sampler with the voices on 60 and 62, one render pass. -/
theorem C19_render_loop_retires_finished_witness :
    demoContext.destChannels = some 2 ∧
    (demoAfterOn6062.applyToBuffer demoExt (fun _ => (128, 0)) demoContext).playingNotes
      = (renderEach (fun _ => (128, 0)) 2 demoContext.bufferStartSample
          demoContext.bufferNumSamples
          (demoAfterOn6062.afterMidi demoExt demoContext).playingNotes).filter
            (fun sn => ! sn.isFinished) :=
  ⟨rfl, (C19_render_loop_retires_finished demoExt (fun _ => (128, 0)) demoAfterOn6062
    demoContext 2 rfl).1⟩

/-! ## C20: the delayed entry of a voice -/

theorem addNextBlock_offset (v : SampledNote) (oc u1 u2 st n : Int) :
    (v.addNextBlock oc u1 u2 st n).1.offset
      = v.offset + v.skip n
        + (if 0 < min (n - v.skip n) v.samplesLeftToPlay then usedBy oc u1 else 0)
        + (if n - v.skip n > min (n - v.skip n) v.samplesLeftToPlay ∧ v.startFade > 0
           then usedBy oc u2 else 0) := by
  simp only [SampledNote.addNextBlock]
  by_cases h : n - v.skip n > min (n - v.skip n) v.samplesLeftToPlay ∧ v.startFade > 0
  · rw [if_pos h, if_pos h]
    simp only [decide_eq_true_eq]
    split <;> ring
  · rw [if_neg h, if_neg h]
    simp only [decide_eq_true_eq]
    split <;> ring

theorem addNextBlock_writes (v : SampledNote) (oc u1 u2 st n : Int) :
    (v.addNextBlock oc u1 u2 st n).2
      = (if 0 < min (n - v.skip n) v.samplesLeftToPlay ∧ 0 < min 2 oc
         then [⟨st + v.skip n, min (n - v.skip n) v.samplesLeftToPlay,
                v.releaseStageTriggered⟩] else [])
        ++ (if (n - v.skip n > min (n - v.skip n) v.samplesLeftToPlay ∧ v.startFade > 0)
              ∧ 0 < min 2 oc
            then [⟨st + v.skip n + min (n - v.skip n) v.samplesLeftToPlay,
                   if n - v.skip n - min (n - v.skip n) v.samplesLeftToPlay > 100 then 100
                   else n - v.skip n - min (n - v.skip n) v.samplesLeftToPlay,
                   v.releaseStageTriggered⟩] else []) := by
  simp only [SampledNote.addNextBlock]
  by_cases h : n - v.skip n > min (n - v.skip n) v.samplesLeftToPlay ∧ v.startFade > 0
  · rw [if_pos h]
    simp only [decide_eq_true_eq, h, true_and, and_self]
  · rw [if_neg h]
    simp only [decide_eq_true_eq, h, false_and, if_false, List.append_nil]

theorem addNextBlock_fade (v : SampledNote) (oc u1 u2 st n : Int)
    (h : ¬ (n - v.skip n > min (n - v.skip n) v.samplesLeftToPlay ∧ v.startFade > 0)) :
    (v.addNextBlock oc u1 u2 st n).1.startFade = v.startFade ∧
    (v.addNextBlock oc u1 u2 st n).1.isFinished = v.isFinished := by
  simp only [SampledNote.addNextBlock]
  rw [if_neg h]
  exact ⟨rfl, rfl⟩

/-- C20: a render call on a voice with offset < 0 (and remaining samples ≥ 0, block
size n ≥ 0) first skips k = min (-offset, n) samples: the offset afterwards is
offset + k plus what the interpolator consumed, and every region written starts
at or after start + k and ends within the block, so at most n - k samples are
covered. When -offset ≥ n nothing is written, the remaining samples, the fade
level and `isFinished` are unchanged and the offset is offset + n ≤ 0. -/
theorem C20_delayed_entry (v : SampledNote) (oc u1 u2 st n : Int)
    (hoff : v.offset < 0) (hleft : 0 ≤ v.samplesLeftToPlay) (hn : 0 ≤ n) :
    v.skip n = min (-v.offset) n ∧
    (v.addNextBlock oc u1 u2 st n).1.offset
      = v.offset + min (-v.offset) n
        + (if 0 < min (n - min (-v.offset) n) v.samplesLeftToPlay then usedBy oc u1 else 0)
        + (if n - min (-v.offset) n > min (n - min (-v.offset) n) v.samplesLeftToPlay
              ∧ v.startFade > 0
           then usedBy oc u2 else 0) ∧
    (∀ r ∈ (v.addNextBlock oc u1 u2 st n).2,
      st + min (-v.offset) n ≤ r.startSamp ∧ 0 < r.numSamps ∧ r.startSamp + r.numSamps ≤ st + n) ∧
    (((v.addNextBlock oc u1 u2 st n).2.map (fun r => r.numSamps)).sum ≤ n - min (-v.offset) n) ∧
    (n ≤ -v.offset →
      (v.addNextBlock oc u1 u2 st n).2 = [] ∧
      (v.addNextBlock oc u1 u2 st n).1.samplesLeftToPlay = v.samplesLeftToPlay ∧
      (v.addNextBlock oc u1 u2 st n).1.startFade = v.startFade ∧
      (v.addNextBlock oc u1 u2 st n).1.isFinished = v.isFinished ∧
      (v.addNextBlock oc u1 u2 st n).1.offset = v.offset + n ∧
      (v.addNextBlock oc u1 u2 st n).1.offset ≤ 0) := by
  have hk : v.skip n = min (-v.offset) n := by
    unfold SampledNote.skip
    rw [if_pos hoff]
  have hk0 : 0 ≤ min (-v.offset) n := le_min (by omega) hn
  have hkn : min (-v.offset) n ≤ n := min_le_right _ _
  have hoffs := addNextBlock_offset v oc u1 u2 st n
  have hwr := addNextBlock_writes v oc u1 u2 st n
  have hsl := addNextBlock_samplesLeft v oc u1 u2 st n
  rw [hk] at hoffs hwr hsl
  generalize hkdef : min (-v.offset) n = k at *
  generalize hmdef : min (n - k) v.samplesLeftToPlay = mm at *
  have hm0 : 0 ≤ mm := by rw [← hmdef]; exact le_min (by omega) hleft
  have hm1 : mm ≤ n - k := by rw [← hmdef]; exact min_le_left _ _
  refine ⟨hk, hoffs, ?_, ?_, ?_⟩
  · intro r hr
    rw [hwr] at hr
    rcases List.mem_append.1 hr with h | h
    · split at h
      · rename_i hc
        rw [List.mem_singleton] at h
        subst h
        exact ⟨le_refl _, hc.1, by dsimp only; omega⟩
      · simp at h
    · split at h
      · rename_i hc
        rw [List.mem_singleton] at h
        subst h
        dsimp only
        refine ⟨by omega, ?_, ?_⟩
        · split <;> omega
        · split <;> omega
      · simp at h
  · rw [hwr]
    by_cases c1 : 0 < mm ∧ 0 < min 2 oc
    · by_cases c2 : (n - k > mm ∧ v.startFade > 0) ∧ 0 < min 2 oc
      · rw [if_pos c1, if_pos c2]
        simp only [List.singleton_append, List.map_cons, List.map_nil, List.sum_cons,
          List.sum_nil, add_zero]
        split <;> omega
      · rw [if_pos c1, if_neg c2]
        simp only [List.append_nil, List.map_cons, List.map_nil, List.sum_cons,
          List.sum_nil, add_zero]
        omega
    · by_cases c2 : (n - k > mm ∧ v.startFade > 0) ∧ 0 < min 2 oc
      · rw [if_neg c1, if_pos c2]
        simp only [List.nil_append, List.map_cons, List.map_nil, List.sum_cons,
          List.sum_nil, add_zero]
        split <;> omega
      · rw [if_neg c1, if_neg c2]
        simp only [List.append_nil, List.map_nil, List.sum_nil]
        omega
  · intro hle
    have hkeq : k = n := by rw [← hkdef]; exact min_eq_right hle
    have hmm : mm = 0 := by omega
    have hnotail : ¬ (n - v.skip n > min (n - v.skip n) v.samplesLeftToPlay
        ∧ v.startFade > 0) := by
      rw [hk, hmdef]
      intro hc
      omega
    obtain ⟨f1, f2⟩ := addNextBlock_fade v oc u1 u2 st n hnotail
    have hb : ¬ (0 < mm) := by omega
    have hb2 : ¬ (0 < mm ∧ 0 < min 2 oc) := fun h => hb h.1
    have ht : ¬ (n - k > mm ∧ v.startFade > 0) := fun h => by omega
    have ht2 : ¬ ((n - k > mm ∧ v.startFade > 0) ∧ 0 < min 2 oc) := fun h => ht h.1
    rw [if_neg hb, if_neg ht] at hoffs
    rw [if_neg hb2, if_neg ht2] at hwr
    rw [if_neg hb] at hsl
    refine ⟨hwr, hsl, f1, f2, ?_, ?_⟩
    · rw [hoffs, hkeq]; ring
    · rw [hoffs, hkeq]; omega

/-- C20 instantiated: a voice that enters 200 samples from now, a block of 128. -/
theorem C20_delayed_entry_witness :
    (-200 : Int) < 0 ∧ (0 : Int) ≤ 97 ∧ (0 : Int) ≤ 128 ∧
    (({ demoCreated with offset := -200, samplesLeftToPlay := 97 } : SampledNote).addNextBlock
        2 128 0 0 128).2 = [] ∧
    (({ demoCreated with offset := -200, samplesLeftToPlay := 97 } : SampledNote).addNextBlock
        2 128 0 0 128).1.offset = -200 + 128 :=
  have h := (C20_delayed_entry
    ({ demoCreated with offset := -200, samplesLeftToPlay := 97 } : SampledNote)
    2 128 0 0 128 (by decide) (by decide) (by decide)).2.2.2.2 (by decide)
  ⟨by decide, by decide, by decide, h.1, h.2.2.2.2.1⟩

/-! ## C18: the offset of a voice and the length of its buffer -/

theorem usedBy_nonneg (oc u : Int) (h : 0 ≤ u) : 0 ≤ usedBy oc u := by
  unfold usedBy
  split
  · exact h
  · exact le_refl _

theorem render_offset_step (v : SampledNote) (c : RenderCall)
    (h1 : 0 ≤ c.used1) (h2 : 0 ≤ c.used2) :
    max (v.render c).offset 0
      ≤ max v.offset 0
        + (if 0 < min (c.numSamples - v.skip c.numSamples) v.samplesLeftToPlay
           then usedBy c.outChannels c.used1 else 0)
        + (if c.numSamples - v.skip c.numSamples
                > min (c.numSamples - v.skip c.numSamples) v.samplesLeftToPlay ∧ v.startFade > 0
           then usedBy c.outChannels c.used2 else 0) := by
  have ho := addNextBlock_offset v c.outChannels c.used1 c.used2 c.startSamp c.numSamples
  have hu1 := usedBy_nonneg c.outChannels c.used1 h1
  have hu2 := usedBy_nonneg c.outChannels c.used2 h2
  have hs : v.offset + v.skip c.numSamples ≤ max v.offset 0 := by
    unfold SampledNote.skip
    split
    · have := min_le_left (-v.offset) c.numSamples
      have := le_max_right v.offset 0
      omega
    · have := le_max_left v.offset 0
      omega
  have hm : 0 ≤ max v.offset 0 := le_max_right _ _
  have ha : 0 ≤ (if 0 < min (c.numSamples - v.skip c.numSamples) v.samplesLeftToPlay
           then usedBy c.outChannels c.used1 else 0) := by
    split
    · exact hu1
    · exact le_refl _
  have hb : 0 ≤ (if c.numSamples - v.skip c.numSamples
                > min (c.numSamples - v.skip c.numSamples) v.samplesLeftToPlay ∧ v.startFade > 0
           then usedBy c.outChannels c.used2 else 0) := by
    split
    · exact hu2
    · exact le_refl _
  unfold SampledNote.render
  rw [ho]
  generalize (if 0 < min (c.numSamples - v.skip c.numSamples) v.samplesLeftToPlay
           then usedBy c.outChannels c.used1 else 0) = a at *
  generalize (if c.numSamples - v.skip c.numSamples
                > min (c.numSamples - v.skip c.numSamples) v.samplesLeftToPlay ∧ v.startFade > 0
           then usedBy c.outChannels c.used2 else 0) = b at *
  apply max_le <;> omega

theorem renderAll_offset_le (calls : List RenderCall) (v : SampledNote)
    (hc : ∀ c ∈ calls, 0 ≤ c.numSamples ∧ 0 ≤ c.used1 ∧ 0 ≤ c.used2) :
    max (v.renderAll calls).offset 0
      ≤ max v.offset 0 + v.mainUsed calls + v.tailUsed calls := by
  induction calls generalizing v with
  | nil => simp [SampledNote.renderAll, SampledNote.mainUsed, SampledNote.tailUsed]
  | cons c rest ih =>
    obtain ⟨hn, h1, h2⟩ := hc c (List.mem_cons_self _ _)
    have hstep := render_offset_step v c h1 h2
    have hrest := ih (v.render c) (fun c' hc' => hc c' (List.mem_cons_of_mem _ hc'))
    have hr : v.renderAll (c :: rest) = (v.render c).renderAll rest := rfl
    rw [hr]
    simp only [SampledNote.mainUsed, SampledNote.tailUsed]
    omega

theorem render_keeps_ratio (v : SampledNote) (c : RenderCall) :
    (v.render c).playbackRatio = v.playbackRatio := by
  simp only [SampledNote.render, SampledNote.addNextBlock]
  split <;> rfl

theorem createNote_start (ext : Externals) (midiNote keyNote : Int) (velocity : Rat)
    (file : AudioFile) (sR : Rat) (delay : Int) (data : AudioBuffer) (len : Int)
    (gainDb pan : Rat) (openEnded : Bool)
    (hr : 0 < (createNote ext midiNote keyNote velocity file sR delay data len gainDb pan
      openEnded).playbackRatio) (hlen : 0 ≤ len) :
    (createNote ext midiNote keyNote velocity file sR delay data len gainDb pan
      openEnded).offset = -delay ∧
    (createNote ext midiNote keyNote velocity file sR delay data len gainDb pan
      openEnded).audioData = data ∧
    1 ≤ (createNote ext midiNote keyNote velocity file sR delay data len gainDb pan
      openEnded).samplesLeftToPlay ∧
    (createNote ext midiNote keyNote velocity file sR delay data len gainDb pan
      openEnded).playbackRatio
      * (((createNote ext midiNote keyNote velocity file sR delay data len gainDb pan
          openEnded).samplesLeftToPlay - 1 : Int) : Rat) ≤ len := by
  have hr2 : 0 < ext.getMidiNoteInHertz midiNote / ext.getMidiNoteInHertz keyNote
      * (file.sampleRate / sR) := hr
  have hslt : (createNote ext midiNote keyNote velocity file sR delay data len gainDb pan
      openEnded).samplesLeftToPlay
      = (if ext.getMidiNoteInHertz midiNote / ext.getMidiNoteInHertz keyNote
            * (file.sampleRate / sR) > 0
         then 1 + truncToInt ((len : Rat) / (ext.getMidiNoteInHertz midiNote
            / ext.getMidiNoteInHertz keyNote * (file.sampleRate / sR))) else 0) := rfl
  have hrat : (createNote ext midiNote keyNote velocity file sR delay data len gainDb pan
      openEnded).playbackRatio
      = ext.getMidiNoteInHertz midiNote / ext.getMidiNoteInHertz keyNote
          * (file.sampleRate / sR) := rfl
  rw [hslt, hrat]
  generalize ext.getMidiNoteInHertz midiNote / ext.getMidiNoteInHertz keyNote
      * (file.sampleRate / sR) = r at hr2 ⊢
  have hq : (0 : Rat) ≤ (len : Rat) / r := div_nonneg (by exact_mod_cast hlen) (le_of_lt hr2)
  rw [if_pos hr2]
  have htr : truncToInt ((len : Rat) / r) = Int.floor ((len : Rat) / r) := by
    unfold truncToInt
    rw [if_pos hq]
  rw [htr]
  refine ⟨rfl, rfl, ?_, ?_⟩
  · have := Int.floor_nonneg.2 hq
    omega
  · have hfl := Int.floor_le ((len : Rat) / r)
    have hcast : (((1 + Int.floor ((len : Rat) / r) - 1 : Int)) : Rat)
        = ((Int.floor ((len : Rat) / r) : Int) : Rat) := by
      congr 1; ring
    rw [hcast]
    calc r * ((Int.floor ((len : Rat) / r) : Int) : Rat)
        ≤ r * ((len : Rat) / r) := mul_le_mul_of_nonneg_left hfl (le_of_lt hr2)
      _ = len := mul_div_cancel₀ _ (ne_of_gt hr2)

theorem render_keeps_data (v : SampledNote) (c : RenderCall) :
    (v.render c).audioData = v.audioData := by
  simp only [SampledNote.render, SampledNote.addNextBlock]
  split <;> rfl

theorem renderAll_keeps_data (calls : List RenderCall) (v : SampledNote) :
    (v.renderAll calls).audioData = v.audioData := by
  induction calls generalizing v with
  | nil => rfl
  | cons c rest ih =>
    have hr : v.renderAll (c :: rest) = (v.render c).renderAll rest := rfl
    rw [hr, ih, render_keeps_data]

/-- C18 amended: for a voice created by `createNote` with positive playback ratio,
non-negative entry delay and lengthInSamples ≥ 0, and a sequence of render calls
with n ≥ 0 in which the interpolator never reports a negative count and has
consumed, over all main bodies together, at most 1 + ratio × (samples rendered - 1)
input samples: the offset after the calls is at most lengthInSamples + 1 plus
what the anti-click tails consumed from the scratch buffer; so as long as no
tail has consumed anything and the buffer holds at least lengthInSamples + 1
samples, offset ≤ L. -/
theorem C18_offset_bound (ext : Externals) (midiNote keyNote : Int) (velocity : Rat)
    (file : AudioFile) (sR : Rat) (delay : Int) (data : AudioBuffer) (len : Int)
    (gainDb pan : Rat) (openEnded : Bool) (v : SampledNote) (calls : List RenderCall)
    (hv : v = createNote ext midiNote keyNote velocity file sR delay data len gainDb pan
      openEnded)
    (hr : 0 < v.playbackRatio) (hd : 0 ≤ delay) (hlen : 0 ≤ len)
    (hc : ∀ c ∈ calls, 0 ≤ c.numSamples ∧ 0 ≤ c.used1 ∧ 0 ≤ c.used2)
    (hcontract : ((v.mainUsed calls : Int) : Rat)
      ≤ 1 + v.playbackRatio
          * max 0 (((v.samplesLeftToPlay - (v.renderAll calls).samplesLeftToPlay - 1 : Int)) : Rat)) :
    (v.renderAll calls).offset ≤ len + 1 + v.tailUsed calls ∧
    (v.tailUsed calls = 0 → len + 1 ≤ data.getNumSamples →
      (v.renderAll calls).offset ≤ (v.renderAll calls).audioData.getNumSamples) := by
  obtain ⟨c1, c2, c3, c4⟩ := createNote_start ext midiNote keyNote velocity file sR delay data
    len gainDb pan openEnded (by rw [← hv]; exact hr) hlen
  rw [← hv] at c1 c2 c3 c4
  have hacc := renderAll_offset_le calls v hc
  have hnn := renderAll_left_nonneg calls v (by omega) (fun c hcm => (hc c hcm).1)
  have hmax : max v.offset 0 = 0 := max_eq_right (by omega)
  have hmu : v.mainUsed calls ≤ 1 + len := by
    have h1 : max 0 (((v.samplesLeftToPlay - (v.renderAll calls).samplesLeftToPlay - 1 : Int)) : Rat)
        ≤ ((v.samplesLeftToPlay - 1 : Int) : Rat) := by
      apply max_le
      · exact_mod_cast (by omega : (0 : Int) ≤ v.samplesLeftToPlay - 1)
      · exact_mod_cast (by omega : v.samplesLeftToPlay - (v.renderAll calls).samplesLeftToPlay - 1
          ≤ v.samplesLeftToPlay - 1)
    have h2 : ((v.mainUsed calls : Int) : Rat) ≤ 1 + (len : Rat) := by
      calc ((v.mainUsed calls : Int) : Rat)
          ≤ 1 + v.playbackRatio
              * max 0 (((v.samplesLeftToPlay - (v.renderAll calls).samplesLeftToPlay - 1 : Int)) : Rat) :=
            hcontract
        _ ≤ 1 + v.playbackRatio * ((v.samplesLeftToPlay - 1 : Int) : Rat) := by
            have := mul_le_mul_of_nonneg_left h1 (le_of_lt hr)
            linarith
        _ ≤ 1 + (len : Rat) := by linarith
    exact_mod_cast h2
  have hoff : (v.renderAll calls).offset ≤ len + 1 + v.tailUsed calls := by
    have := le_max_left (v.renderAll calls).offset 0
    omega
  refine ⟨hoff, ?_⟩
  intro ht hL
  rw [renderAll_keeps_data, c2]
  omega

/-- C18 refuted as stated: the voice of `demoCreated` (ratio 1, a buffer of L = 128
samples, 97 samples to play) renders 97 samples consuming 97, then a block of
100 samples through the anti-click tail consuming 100 more: its offset is then
197, above L. -/
theorem C18_tail_moves_offset_past_buffer :
    demoCreated.audioData.getNumSamples = 128 ∧
    demoCreated.playbackRatio = 1 ∧
    (demoCreated.render demoBody).offset = 97 ∧
    ((demoCreated.render demoBody).render demoTail).offset = 197 ∧
    ¬ (((demoCreated.render demoBody).render demoTail).offset
        ≤ ((demoCreated.render demoBody).render demoTail).audioData.getNumSamples) := by
  obtain ⟨f1, f2, f3, f4, f5, f6, f7, f8⟩ := demoCreated_fields
  have hdata : demoCreated.audioData = demoSound.audioData := rfl
  have hL : demoCreated.audioData.getNumSamples = 128 := by rw [hdata]; exact demoSound_samples
  have hratio : demoCreated.playbackRatio = 1 := by
    simp [demoCreated, demoSound, createNote, demoExt]
  have hfade : demoCreated.startFade = 1 := rfl
  have o1 := addNextBlock_offset demoCreated 2 97 0 0 97
  have s1 := addNextBlock_samplesLeft demoCreated 2 97 0 0 97
  have hskip : demoCreated.skip 97 = 0 := by
    unfold SampledNote.skip; rw [f7]; rfl
  rw [hskip, f3, f7] at o1
  rw [hskip, f3] at s1
  have e1 : (demoCreated.render demoBody).offset = 97 := by
    show (demoCreated.addNextBlock 2 97 0 0 97).1.offset = 97
    rw [o1]; simp [usedBy]
  have e1s : (demoCreated.render demoBody).samplesLeftToPlay = 0 := by
    show (demoCreated.addNextBlock 2 97 0 0 97).1.samplesLeftToPlay = 0
    rw [s1]; simp
  have e1f : (demoCreated.render demoBody).startFade = 1 := by
    have hno : ¬ (97 - demoCreated.skip 97 > min (97 - demoCreated.skip 97)
        demoCreated.samplesLeftToPlay ∧ demoCreated.startFade > 0) := by
      rw [hskip, f3]; simp
    exact (addNextBlock_fade demoCreated 2 97 0 0 97 hno).1.trans hfade
  have o2 := addNextBlock_offset (demoCreated.render demoBody) 2 0 100 0 100
  have hskip2 : (demoCreated.render demoBody).skip 100 = 0 := by
    unfold SampledNote.skip; rw [e1]; rfl
  rw [hskip2, e1s, e1, e1f] at o2
  have e2 : ((demoCreated.render demoBody).render demoTail).offset = 197 := by
    show ((demoCreated.render demoBody).addNextBlock 2 0 100 0 100).1.offset = 197
    rw [o2]; simp [usedBy]
  refine ⟨hL, hratio, e1, e2, ?_⟩
  rw [e2, render_keeps_data, render_keeps_data, hL]
  decide

theorem demoBody_totals :
    demoCreated.mainUsed [demoBody] = 97 ∧ demoCreated.tailUsed [demoBody] = 0 ∧
    (demoCreated.renderAll [demoBody]).samplesLeftToPlay = 0 := by
  obtain ⟨f1, f2, f3, f4, f5, f6, f7, f8⟩ := demoCreated_fields
  have hskip : demoCreated.skip 97 = 0 := by
    unfold SampledNote.skip; rw [f7]; rfl
  have s1 := addNextBlock_samplesLeft demoCreated 2 97 0 0 97
  rw [hskip, f3] at s1
  refine ⟨?_, ?_, ?_⟩
  · show (if 0 < min ((97 : Int) - demoCreated.skip 97) demoCreated.samplesLeftToPlay
        then usedBy 2 97 else 0) + 0 = 97
    rw [hskip, f3]; simp [usedBy]
  · show (if (97 : Int) - demoCreated.skip 97
          > min ((97 : Int) - demoCreated.skip 97) demoCreated.samplesLeftToPlay
            ∧ demoCreated.startFade > 0
        then usedBy 2 0 else 0) + 0 = 0
    rw [hskip, f3]; simp
  · show (demoCreated.addNextBlock 2 97 0 0 97).1.samplesLeftToPlay = 0
    rw [s1]; simp

/-- C18 (amended) instantiated: `demoCreated` after the main body of its first
block, in which the interpolator consumed 97 samples for 97 rendered. -/
theorem C18_offset_bound_witness :
    (0 < demoCreated.playbackRatio ∧ (0 : Int) ≤ 0 ∧ (0 : Int) ≤ 96 ∧
     (∀ c ∈ [demoBody], 0 ≤ c.numSamples ∧ 0 ≤ c.used1 ∧ 0 ≤ c.used2) ∧
     demoCreated.tailUsed [demoBody] = 0) ∧
    (demoCreated.renderAll [demoBody]).offset
      ≤ (demoCreated.renderAll [demoBody]).audioData.getNumSamples :=
  have hratio : demoCreated.playbackRatio = 1 := by
    simp [demoCreated, demoSound, createNote, demoExt]
  have hr : 0 < demoCreated.playbackRatio := by rw [hratio]; norm_num
  have hc : ∀ c ∈ [demoBody], 0 ≤ c.numSamples ∧ 0 ≤ c.used1 ∧ 0 ≤ c.used2 := by
    intro c hcm
    rw [List.mem_singleton] at hcm
    subst hcm
    decide
  have hcontract : ((demoCreated.mainUsed [demoBody] : Int) : Rat)
      ≤ 1 + demoCreated.playbackRatio
          * max 0 (((demoCreated.samplesLeftToPlay
              - (demoCreated.renderAll [demoBody]).samplesLeftToPlay - 1 : Int)) : Rat) := by
    rw [demoBody_totals.1, demoBody_totals.2.2, demoCreated_fields.2.2.1, hratio]
    norm_num
  have hL : (96 : Int) + 1 ≤ demoSound.audioData.getNumSamples := by
    rw [demoSound_samples]; decide
  ⟨⟨hr, le_refl _, by decide, hc, demoBody_totals.2.1⟩,
   (C18_offset_bound demoExt 60 72 (100 / 127) demoSound.audioFile 48000 0 demoSound.audioData
      96 0 0 false demoCreated [demoBody] rfl hr (le_refl _) (by decide) hc hcontract).2
      demoBody_totals.2.1 hL⟩

/-! ## C21: getSound and getNumSounds -/

/-- C21: `getNumSounds()` is the number of children of type SOUND; `getSound (i)`
is the child at position i (counting from 0) among the children of type SOUND in
state order, the other children being skipped, and the invalid tree for i < 0;
so it returns a valid entry exactly when 0 ≤ i < getNumSounds(), and that entry
has type SOUND. -/
theorem C21_getSound_agrees_with_count (p : Plugin) (i : Int) :
    p.getNumSounds = ((p.state.filter (fun v => v.hasType IDs.SOUND)).length : Int) ∧
    p.getNumSounds = (p.state.countP (fun v => v.hasType IDs.SOUND) : Int) ∧
    p.getSound i
      = (if 0 ≤ i then (p.state.filter (fun v => v.hasType IDs.SOUND)).get? i.toNat
         else none) ∧
    ((p.getSound i).isSome = true ↔ 0 ≤ i ∧ i < p.getNumSounds) ∧
    (∀ v, p.getSound i = some v → v.hasType IDs.SOUND = true ∧ v ∈ p.state) := by
  have hlen : p.getNumSounds = ((p.state.filter (fun v => v.hasType IDs.SOUND)).length : Int) :=
    (soundEntries_length p).symm
  have hget : p.getSound i
      = (if 0 ≤ i then (p.state.filter (fun v => v.hasType IDs.SOUND)).get? i.toNat
         else none) := by
    unfold Plugin.getSound
    rw [getSoundFrom_eq]
    simp
  refine ⟨hlen, getNumSounds_eq_countP p, hget, ?_, ?_⟩
  · rw [hget, hlen]
    by_cases h0 : 0 ≤ i
    · rw [if_pos h0]
      constructor
      · intro hs
        refine ⟨h0, ?_⟩
        by_contra hc
        rw [List.get?_eq_none.2 (by omega)] at hs
        simp at hs
      · intro hc
        have hlt : i.toNat < (p.state.filter (fun v => v.hasType IDs.SOUND)).length := by omega
        rw [List.get?_eq_getElem?, List.getElem?_eq_getElem hlt]
        rfl
    · rw [if_neg h0]
      constructor
      · intro hs; simp at hs
      · intro hc; exact absurd hc.1 h0
  · intro v hv
    rw [hget] at hv
    by_cases h0 : 0 ≤ i
    · rw [if_pos h0] at hv
      have hm := List.get?_mem hv
      rw [List.mem_filter] at hm
      exact ⟨hm.2, hm.1⟩
    · rw [if_neg h0] at hv
      simp at hv

/-- The accessors evaluated on a state with interleaved children: two sounds;
index 0 is a, index 1 is b, and the indices -1 and 2 give the invalid tree. -/
theorem demoInterleaved_sounds :
    demoInterleaved.getNumSounds = 2 ∧
    demoInterleaved.getSound 0 = some demoEntry ∧
    demoInterleaved.getSound 1 = some demoEntryB ∧
    demoInterleaved.getSound 2 = none ∧
    demoInterleaved.getSound (-1) = none := by
  refine ⟨?_, ?_, ?_, ?_, ?_⟩
  · simp [Plugin.getNumSounds, demoInterleaved, demoEntry, demoEntryB, ValueTree.hasType,
      IDs.SOUND]
  · simp [Plugin.getSound, getSoundFrom, demoInterleaved, demoEntry, ValueTree.hasType, IDs.SOUND]
  · simp [Plugin.getSound, getSoundFrom, demoInterleaved, demoEntry, demoEntryB,
      ValueTree.hasType, IDs.SOUND]
  · simp [Plugin.getSound, getSoundFrom, demoInterleaved, demoEntry, demoEntryB,
      ValueTree.hasType, IDs.SOUND]
  · simp [Plugin.getSound, getSoundFrom, demoInterleaved, demoEntry, demoEntryB,
      ValueTree.hasType, IDs.SOUND]

end SamplerPlugin
